import Mathlib

/-!
# fontcompress: the TrueType container reader of `ttf.go`

A shallow embedding of `ttf.go` (package `fontcompress`) and theorems about it.

Conventions of the embedding

* A Go `[]byte` is a `List Byte` with `Byte = Fin 256`.
* The fixed-width unsigned integers of Go are natural numbers reduced modulo `2^w`
  (`u16`, `u32`); `int` is the 64-bit signed integer of the usual targets, so the
  `int` index expressions of the source (all below `2^34`) never wrap.
* A Go `string` is its sequence of bytes.
* A slice index `buf[i]` that is out of range is a run-time panic; the outcome
  `Outcome.panicked` stands for it.  An `error` value returned by a function is
  `Outcome.err`.
* `make` is assumed to succeed (memory is not bounded).  The fatal
  out-of-memory failure of the Go runtime, which a slice length read from the
  file can provoke, is not modelled.
-/

namespace FontCompress

/-! ## Outcomes -/

/-- What a call ends with: a value, a Go `error`, or a run-time panic. -/
inductive Outcome (α : Type) where
  | ok (val : α)
  | err (msg : String)
  | panicked
  deriving DecidableEq, Repr

namespace Outcome

/-- Sequencing: the first failure (error or panic) ends the computation. -/
def bind {α β : Type} (x : Outcome α) (f : α → Outcome β) : Outcome β :=
  match x with
  | ok a => f a
  | err m => err m
  | panicked => panicked

instance : Monad Outcome where
  pure := Outcome.ok
  bind := Outcome.bind

/-- A computation that never returns an error value. -/
def NoErr {α : Type} (x : Outcome α) : Prop := ∀ m, x ≠ Outcome.err m

end Outcome

/-! ## Machine integers and bytes -/

/-- One byte of the input buffer. -/
abbrev Byte := Fin 256

/-- Truncation to `uint16`. -/
def u16 (n : Nat) : Nat := n % 2 ^ 16

/-- Truncation to `uint32`. -/
def u32 (n : Nat) : Nat := n % 2 ^ 32

/-- The conversion `byte(x)`. -/
def toByte (n : Nat) : Byte := ⟨n % 256, Nat.mod_lt n (by decide)⟩

/-- The value of an `int16` whose bit pattern is `n % 2^16` (twos complement). -/
def asInt16 (n : Nat) : Int :=
  if n % 2 ^ 16 < 2 ^ 15 then ((n % 2 ^ 16 : Nat) : Int) else ((n % 2 ^ 16 : Nat) : Int) - 2 ^ 16

/-- The expression `uint16(b0)<<8 | uint16(b1)`. -/
def be16 (b0 b1 : Nat) : Nat := u16 (u16 (b0 <<< 8) ||| b1)

/-- The expression `uint32(b0)<<24 | uint32(b1)<<16 | uint32(b2)<<8 | uint32(b3)`. -/
def be32 (b0 b1 b2 b3 : Nat) : Nat :=
  u32 (u32 (b0 <<< 24) ||| u32 (b1 <<< 16) ||| u32 (b2 <<< 8) ||| b3)

/-- The expression `uint64(b0)<<56 | uint64(b1)<<48 | ... | uint64(b7)`. -/
def be64 (b0 b1 b2 b3 b4 b5 b6 b7 : Nat) : Nat :=
  (b0 <<< 56 % 2 ^ 64 ||| b1 <<< 48 % 2 ^ 64 ||| b2 <<< 40 % 2 ^ 64 ||| b3 <<< 32 % 2 ^ 64
    ||| b4 <<< 24 % 2 ^ 64 ||| b5 <<< 16 % 2 ^ 64 ||| b6 <<< 8 % 2 ^ 64 ||| b7) % 2 ^ 64

/-- The expression `int16(b0)<<8 | int16(b1)`: the shift and the `or` act on the
16-bit pattern, which is then read as a signed number. -/
def beInt16 (b0 b1 : Nat) : Int := asInt16 (u16 (b0 <<< 8) ||| b1)

/-- The index expression `buf[i]`; out of range is a panic. -/
def index (buf : List Byte) (i : Nat) : Outcome Byte :=
  match buf[i]? with
  | some b => .ok b
  | none => .panicked

/-- Two indexed bytes combined as `uint16(buf[i0])<<8 | uint16(buf[i1])`. -/
def read16 (buf : List Byte) (i0 i1 : Nat) : Outcome Nat := do
  let b0 ← index buf i0
  let b1 ← index buf i1
  pure (be16 b0.val b1.val)

/-- Four indexed bytes combined as a big-endian `uint32`. -/
def read32 (buf : List Byte) (i0 i1 i2 i3 : Nat) : Outcome Nat := do
  let b0 ← index buf i0
  let b1 ← index buf i1
  let b2 ← index buf i2
  let b3 ← index buf i3
  pure (be32 b0.val b1.val b2.val b3.val)

/-- Eight indexed bytes combined as a big-endian `uint64`. -/
def read64 (buf : List Byte) (i0 i1 i2 i3 i4 i5 i6 i7 : Nat) : Outcome Nat := do
  let b0 ← index buf i0
  let b1 ← index buf i1
  let b2 ← index buf i2
  let b3 ← index buf i3
  let b4 ← index buf i4
  let b5 ← index buf i5
  let b6 ← index buf i6
  let b7 ← index buf i7
  pure (be64 b0.val b1.val b2.val b3.val b4.val b5.val b6.val b7.val)

/-- Two indexed bytes combined as `int16(buf[i0])<<8 | int16(buf[i1])`. -/
def readInt16 (buf : List Byte) (i0 i1 : Nat) : Outcome Int := do
  let b0 ← index buf i0
  let b1 ← index buf i1
  pure (beInt16 b0.val b1.val)

/-- The loop `for k := 0; k < n; k++ { out[k] = f k }` over a slice made with
length `n`, started at `k = start` with `n` iterations left. -/
def forRangeFrom {α : Type} (f : Nat → Outcome α) : Nat → Nat → Outcome (List α)
  | _, 0 => .ok []
  | start, n + 1 => do
    let x ← f start
    let xs ← forRangeFrom f (start + 1) n
    pure (x :: xs)

/-- The loop `for k := 0; k < n; k++ { out[k] = f k }`. -/
def forRange {α : Type} (n : Nat) (f : Nat → Outcome α) : Outcome (List α) :=
  forRangeFrom f 0 n

/-! ## Data model -/

/-- Go `CmapSubHeader`. -/
structure CmapSubHeader where
  FirstCode : Nat := 0
  EntryCount : Nat := 0
  IdDelta : Nat := 0
  IdRangeOffset : Nat := 0
  deriving DecidableEq, Repr

/-- Go `CmapSubTableFormatMixGroup`. -/
structure CmapSubTableFormatMixGroup where
  StartCharCode : Nat := 0
  EndCharCode : Nat := 0
  StartGlyphCode : Nat := 0
  deriving DecidableEq, Repr

/-- Go `CmapSubTable`; every field has Go's zero value by default. -/
structure CmapSubTable where
  PlatformID : Nat := 0
  EncodingID : Nat := 0
  SubOffset : Nat := 0
  Format : Nat := 0
  Length : Nat := 0
  Language : Nat := 0
  GlyphIndexArray : List Nat := []
  SubHeaderKeys : List Nat := []
  SubHeaders : List CmapSubHeader := []
  GlyphIndexArray16 : List Nat := []
  SegCountX2 : Nat := 0
  SearchRange : Nat := 0
  EntrySelector : Nat := 0
  RangeShift : Nat := 0
  EndCode : List Nat := []
  ReservedPad : Nat := 0
  StartCode : List Nat := []
  IdDelta : List Nat := []
  IdRangeOffset : List Nat := []
  FirstCode : Nat := 0
  EntryCount : Nat := 0
  Reserved : Nat := 0
  Is32 : List Nat := []
  NGroups : Nat := 0
  Groups : List CmapSubTableFormatMixGroup := []
  deriving DecidableEq, Repr

/-- Go `CmapTable`. -/
structure CmapTable where
  Version : Nat := 0
  NumberSubtables : Nat := 0
  EncodingSubtables : List CmapSubTable := []
  deriving DecidableEq, Repr

/-- Go `HeadTable`. -/
structure HeadTable where
  Version : Nat := 0
  FontRevision : Nat := 0
  CheckSumAdjustment : Nat := 0
  MagicNumber : Nat := 0
  Flags : Nat := 0
  UnitPerEm : Nat := 0
  Created : Nat := 0
  Modified : Nat := 0
  XMin : Int := 0
  YMin : Int := 0
  XMax : Int := 0
  YMax : Int := 0
  MacStyle : Nat := 0
  LowestRecPPEM : Nat := 0
  FontDirectionHint : Int := 0
  IndexToLocFormat : Int := 0
  GlyphDataFormat : Int := 0
  deriving DecidableEq, Repr

/-- Go `TTFTable` (`interface{}`): the dynamic values this package stores in it,
and `nil`, the zero value. -/
inductive TTFTable where
  | nil
  | cmap (t : CmapTable)
  | head (t : HeadTable)
  deriving DecidableEq, Repr

/-- Go `TTFTableInfo`. -/
structure TTFTableInfo where
  Tag : Nat := 0
  CheckSum : Nat := 0
  Offset : Nat := 0
  Length : Nat := 0
  Table : TTFTable := TTFTable.nil
  deriving DecidableEq, Repr

/-- Go `TTF`. -/
structure TTF where
  File : String := ""
  ScalerType : Nat := 0
  NumTables : Nat := 0
  SearchRange : Nat := 0
  EntrySelector : Nat := 0
  RangeShift : Nat := 0
  Tables : List TTFTableInfo := []
  deriving DecidableEq, Repr

/-- Constant `TTF_MAGIC`. -/
def TTF_MAGIC : Nat := 0x00010000

/-- Constant `OTF_MAGIC`. -/
def OTF_MAGIC : Nat := 0x74727565

/-- The Go string "cmap". -/
def cmapTag : List Byte := [0x63, 0x6D, 0x61, 0x70]

/-- The Go string "head". -/
def headTag : List Byte := [0x68, 0x65, 0x61, 0x64]

/-! ## Operations -/

/-- Go `(*TTF).readTTFInfo`: the receiver after the call, or the error. -/
def readTTFInfo (ttf : TTF) (buf : List Byte) : Outcome TTF := do
  let ScalerType ← read32 buf 0 1 2 3
  let NumTables ← read16 buf 4 5
  let SearchRange ← read16 buf 6 7
  let EntrySelector ← read16 buf 8 9
  let RangeShift ← read16 buf 10 11
  if ScalerType ≠ TTF_MAGIC ∧ ScalerType ≠ OTF_MAGIC then
    .err "not a ttf or otf file"
  else
    pure { ttf with
      ScalerType := ScalerType, NumTables := NumTables, SearchRange := SearchRange,
      EntrySelector := EntrySelector, RangeShift := RangeShift }

/-- Branch `case 2:` of the format switch in `readCmapTable`; `Offset` is
`tableInfo.Offset`, `st` is `encodingSubtable`.  The bound `uint32(Length)-6`
is a `uint32` subtraction. -/
def readFormat2 (buf : List Byte) (Offset : Nat) (st : CmapSubTable) : Outcome CmapSubTable := do
  let SubHeaderKeys ← forRange (u32 (st.Length + 2 ^ 32 - 6)) fun k => do
    let b ← index buf (u32 (Offset + st.SubOffset + 6 + k))
    pure b.val
  let SubHeaders ← forRange (u32 (st.Length + 2 ^ 32 - 6)) fun k => do
    let FirstCode ← index buf (u32 (Offset + st.SubOffset + 6 + k))
    let EntryCount ← index buf (u32 (Offset + st.SubOffset + 6 + k))
    let IdDelta ← index buf (u32 (Offset + st.SubOffset + 6 + k))
    let IdRangeOffset ← index buf (u32 (Offset + st.SubOffset + 6 + k))
    pure ({ FirstCode := FirstCode.val, EntryCount := EntryCount.val, IdDelta := IdDelta.val,
            IdRangeOffset := IdRangeOffset.val } : CmapSubHeader)
  let GlyphIndexArray16 ← forRange (u32 (st.Length + 2 ^ 32 - 6)) fun k => do
    let b ← index buf (u32 (Offset + st.SubOffset + 6 + k))
    pure b.val
  pure { st with
    SubHeaderKeys := SubHeaderKeys, SubHeaders := SubHeaders,
    GlyphIndexArray16 := GlyphIndexArray16 }

/-- Branch `case 4:` of the format switch in `readCmapTable`.  All index
expressions are `uint32` arithmetic. -/
def readFormat4 (buf : List Byte) (Offset : Nat) (st : CmapSubTable) : Outcome CmapSubTable := do
  let SegCountX2 ← read16 buf (u32 (Offset + st.SubOffset + 6)) (u32 (Offset + st.SubOffset + 7))
  let SearchRange ← read16 buf (u32 (Offset + st.SubOffset + 8)) (u32 (Offset + st.SubOffset + 9))
  let EntrySelector ←
    read16 buf (u32 (Offset + st.SubOffset + 10)) (u32 (Offset + st.SubOffset + 11))
  let RangeShift ←
    read16 buf (u32 (Offset + st.SubOffset + 12)) (u32 (Offset + st.SubOffset + 13))
  let EndCode ← forRange (SegCountX2 / 2) fun k =>
    read16 buf (u32 (Offset + st.SubOffset + 14 + k * 2))
      (u32 (Offset + st.SubOffset + 15 + k * 2))
  let ReservedPad ←
    read16 buf (u32 (Offset + st.SubOffset + 14 + SegCountX2 / 2 * 2))
      (u32 (Offset + st.SubOffset + 15 + SegCountX2 / 2 * 2))
  let StartCode ← forRange (SegCountX2 / 2) fun k =>
    read16 buf (u32 (Offset + st.SubOffset + 16 + SegCountX2 / 2 * 2 + k * 2))
      (u32 (Offset + st.SubOffset + 17 + SegCountX2 / 2 * 2 + k * 2))
  let IdDelta ← forRange (SegCountX2 / 2) fun k =>
    read16 buf (u32 (Offset + st.SubOffset + 16 + SegCountX2 / 2 * 4 + k * 2))
      (u32 (Offset + st.SubOffset + 17 + SegCountX2 / 2 * 4 + k * 2))
  let IdRangeOffset ← forRange (SegCountX2 / 2) fun k =>
    read16 buf (u32 (Offset + st.SubOffset + 16 + SegCountX2 / 2 * 6 + k * 2))
      (u32 (Offset + st.SubOffset + 17 + SegCountX2 / 2 * 6 + k * 2))
  pure { st with
    SegCountX2 := SegCountX2, SearchRange := SearchRange, EntrySelector := EntrySelector,
    RangeShift := RangeShift, EndCode := EndCode, ReservedPad := ReservedPad,
    StartCode := StartCode, IdDelta := IdDelta, IdRangeOffset := IdRangeOffset }

/-- Branch `case 6:` of the format switch in `readCmapTable`. -/
def readFormat6 (buf : List Byte) (Offset : Nat) (st : CmapSubTable) : Outcome CmapSubTable := do
  let FirstCode ← read16 buf (u32 (Offset + st.SubOffset + 6)) (u32 (Offset + st.SubOffset + 7))
  let EntryCount ← read16 buf (u32 (Offset + st.SubOffset + 8)) (u32 (Offset + st.SubOffset + 9))
  pure { st with FirstCode := FirstCode, EntryCount := EntryCount }

/-- Branch `case 8:` of the format switch in `readCmapTable`.  The sum
`... + uint32(Length) - 6` is at least 2 before the subtraction, so the natural
subtraction followed by `u32` is the `uint32` result. -/
def readFormat8 (buf : List Byte) (Offset : Nat) (st : CmapSubTable) : Outcome CmapSubTable := do
  let Reserved ← read16 buf (u32 (Offset + st.SubOffset + 6)) (u32 (Offset + st.SubOffset + 7))
  let Is32 ← forRange (u32 (st.Length + 2 ^ 32 - 6)) fun k => do
    let b ← index buf (u32 (Offset + st.SubOffset + 8 + k))
    pure b.val
  let NGroups ← read32 buf
    (u32 (Offset + st.SubOffset + 8 + st.Length - 6))
    (u32 (Offset + st.SubOffset + 9 + st.Length - 6))
    (u32 (Offset + st.SubOffset + 10 + st.Length - 6))
    (u32 (Offset + st.SubOffset + 11 + st.Length - 6))
  let Groups ← forRange NGroups fun k => do
    let StartCharCode ← read32 buf
      (u32 (Offset + st.SubOffset + 12 + st.Length - 6 + k * 12))
      (u32 (Offset + st.SubOffset + 13 + st.Length - 6 + k * 12))
      (u32 (Offset + st.SubOffset + 14 + st.Length - 6 + k * 12))
      (u32 (Offset + st.SubOffset + 15 + st.Length - 6 + k * 12))
    let EndCharCode ← read32 buf
      (u32 (Offset + st.SubOffset + 16 + st.Length - 6 + k * 12))
      (u32 (Offset + st.SubOffset + 17 + st.Length - 6 + k * 12))
      (u32 (Offset + st.SubOffset + 18 + st.Length - 6 + k * 12))
      (u32 (Offset + st.SubOffset + 19 + st.Length - 6 + k * 12))
    let StartGlyphCode ← read32 buf
      (u32 (Offset + st.SubOffset + 20 + st.Length - 6 + k * 12))
      (u32 (Offset + st.SubOffset + 21 + st.Length - 6 + k * 12))
      (u32 (Offset + st.SubOffset + 22 + st.Length - 6 + k * 12))
      (u32 (Offset + st.SubOffset + 23 + st.Length - 6 + k * 12))
    pure ({ StartCharCode := StartCharCode, EndCharCode := EndCharCode,
            StartGlyphCode := StartGlyphCode } : CmapSubTableFormatMixGroup)
  pure { st with Reserved := Reserved, Is32 := Is32, NGroups := NGroups, Groups := Groups }

/-- The body of the loop `for j := uint32(0); j < uint32(NumberSubtables); j++`
of `readCmapTable`: the value stored in `EncodingSubtables[j]`.  The record and
the preamble are indexed in `uint32` arithmetic; the glyph index array has
`int(Length-6)` elements, a `uint16` subtraction, and is indexed in `int`
arithmetic. -/
def readEncodingSubtable (buf : List Byte) (Offset j : Nat) : Outcome CmapSubTable := do
  let PlatformID ← read16 buf (u32 (Offset + 4 + j * 8)) (u32 (Offset + 5 + j * 8))
  let EncodingID ← read16 buf (u32 (Offset + 6 + j * 8)) (u32 (Offset + 7 + j * 8))
  let SubOffset ← read32 buf (u32 (Offset + 8 + j * 8)) (u32 (Offset + 9 + j * 8))
    (u32 (Offset + 10 + j * 8)) (u32 (Offset + 11 + j * 8))
  let Format ← read16 buf (u32 (Offset + SubOffset + 0)) (u32 (Offset + SubOffset + 1))
  let Length ← read16 buf (u32 (Offset + SubOffset + 2)) (u32 (Offset + SubOffset + 3))
  let Language ← read16 buf (u32 (Offset + SubOffset + 4)) (u32 (Offset + SubOffset + 5))
  let GlyphIndexArray ← forRange (u16 (Length + 2 ^ 16 - 6)) fun k => do
    let b ← index buf (Offset + SubOffset + 6 + k)
    pure b.val
  let encodingSubtable : CmapSubTable :=
    { PlatformID := PlatformID, EncodingID := EncodingID, SubOffset := SubOffset,
      Format := Format, Length := Length, Language := Language,
      GlyphIndexArray := GlyphIndexArray }
  if Format = 2 then readFormat2 buf Offset encodingSubtable
  else if Format = 4 then readFormat4 buf Offset encodingSubtable
  else if Format = 6 then readFormat6 buf Offset encodingSubtable
  else if Format = 8 then readFormat8 buf Offset encodingSubtable
  else pure encodingSubtable

/-- Go `readCmapTable`. -/
def readCmapTable (buf : List Byte) (i : Nat) : Outcome TTFTableInfo := do
  let Tag ← read32 buf (12 + i * 16) (13 + i * 16) (14 + i * 16) (15 + i * 16)
  let CheckSum ← read32 buf (16 + i * 16) (17 + i * 16) (18 + i * 16) (19 + i * 16)
  let Offset ← read32 buf (20 + i * 16) (21 + i * 16) (22 + i * 16) (23 + i * 16)
  let Length ← read32 buf (24 + i * 16) (25 + i * 16) (26 + i * 16) (27 + i * 16)
  let Version ← read16 buf (u32 (Offset + 0)) (u32 (Offset + 1))
  let NumberSubtables ← read16 buf (u32 (Offset + 2)) (u32 (Offset + 3))
  let EncodingSubtables ← forRange NumberSubtables fun j => readEncodingSubtable buf Offset j
  pure { Tag := Tag, CheckSum := CheckSum, Offset := Offset, Length := Length,
         Table := TTFTable.cmap { Version := Version, NumberSubtables := NumberSubtables,
                                  EncodingSubtables := EncodingSubtables } }

/-- Go `readHeadTable`.  The result parameter `ti` still holds its zero value
while the composite literal assigned to it is evaluated, so every `ti.Offset`
inside the literal is `0`. -/
def readHeadTable (buf : List Byte) (i : Nat) : Outcome TTFTableInfo := do
  let ti : TTFTableInfo := {}
  let Tag ← read32 buf (12 + i * 16) (13 + i * 16) (14 + i * 16) (15 + i * 16)
  let CheckSum ← read32 buf (16 + i * 16) (17 + i * 16) (18 + i * 16) (19 + i * 16)
  let Offset ← read32 buf (20 + i * 16) (21 + i * 16) (22 + i * 16) (23 + i * 16)
  let Length ← read32 buf (24 + i * 16) (25 + i * 16) (26 + i * 16) (27 + i * 16)
  let Version ← read32 buf (u32 (ti.Offset + 0)) (u32 (ti.Offset + 1)) (u32 (ti.Offset + 2))
    (u32 (ti.Offset + 3))
  let FontRevision ← read32 buf (u32 (ti.Offset + 4)) (u32 (ti.Offset + 5))
    (u32 (ti.Offset + 6)) (u32 (ti.Offset + 7))
  let CheckSumAdjustment ← read32 buf (u32 (ti.Offset + 8)) (u32 (ti.Offset + 9))
    (u32 (ti.Offset + 10)) (u32 (ti.Offset + 11))
  let MagicNumber ← read32 buf (u32 (ti.Offset + 12)) (u32 (ti.Offset + 13))
    (u32 (ti.Offset + 14)) (u32 (ti.Offset + 15))
  let Flags ← read16 buf (u32 (ti.Offset + 16)) (u32 (ti.Offset + 17))
  let UnitPerEm ← read16 buf (u32 (ti.Offset + 18)) (u32 (ti.Offset + 19))
  let Created ← read64 buf (u32 (ti.Offset + 20)) (u32 (ti.Offset + 21)) (u32 (ti.Offset + 22))
    (u32 (ti.Offset + 23)) (u32 (ti.Offset + 24)) (u32 (ti.Offset + 25)) (u32 (ti.Offset + 26))
    (u32 (ti.Offset + 27))
  let Modified ← read64 buf (u32 (ti.Offset + 28)) (u32 (ti.Offset + 29)) (u32 (ti.Offset + 30))
    (u32 (ti.Offset + 31)) (u32 (ti.Offset + 32)) (u32 (ti.Offset + 33)) (u32 (ti.Offset + 34))
    (u32 (ti.Offset + 35))
  let XMin ← readInt16 buf (u32 (ti.Offset + 36)) (u32 (ti.Offset + 37))
  let YMin ← readInt16 buf (u32 (ti.Offset + 38)) (u32 (ti.Offset + 39))
  let XMax ← readInt16 buf (u32 (ti.Offset + 40)) (u32 (ti.Offset + 41))
  let YMax ← readInt16 buf (u32 (ti.Offset + 42)) (u32 (ti.Offset + 43))
  let MacStyle ← read16 buf (u32 (ti.Offset + 44)) (u32 (ti.Offset + 45))
  let LowestRecPPEM ← read16 buf (u32 (ti.Offset + 46)) (u32 (ti.Offset + 47))
  let FontDirectionHint ← readInt16 buf (u32 (ti.Offset + 48)) (u32 (ti.Offset + 49))
  let IndexToLocFormat ← readInt16 buf (u32 (ti.Offset + 50)) (u32 (ti.Offset + 51))
  let GlyphDataFormat ← readInt16 buf (u32 (ti.Offset + 52)) (u32 (ti.Offset + 53))
  pure { Tag := Tag, CheckSum := CheckSum, Offset := Offset, Length := Length,
         Table := TTFTable.head
           { Version := Version, FontRevision := FontRevision,
             CheckSumAdjustment := CheckSumAdjustment, MagicNumber := MagicNumber,
             Flags := Flags, UnitPerEm := UnitPerEm, Created := Created,
             Modified := Modified, XMin := XMin, YMin := YMin, XMax := XMax, YMax := YMax,
             MacStyle := MacStyle, LowestRecPPEM := LowestRecPPEM,
             FontDirectionHint := FontDirectionHint, IndexToLocFormat := IndexToLocFormat,
             GlyphDataFormat := GlyphDataFormat } }

/-- The loop of `readTTFTables` from directory index `i` with `n` iterations
left; `tables` is `ttf.Tables` so far. -/
def readTTFTablesFrom (buf : List Byte) :
    Nat → Nat → List TTFTableInfo → Outcome (List TTFTableInfo)
  | _, 0, tables => .ok tables
  | i, n + 1, tables => do
    let b0 ← index buf (12 + i * 16)
    let b1 ← index buf (13 + i * 16)
    let b2 ← index buf (14 + i * 16)
    let b3 ← index buf (15 + i * 16)
    let tag : List Byte := [b0, b1, b2, b3]
    if tag = cmapTag then do
      let tableInfo ← readCmapTable buf i
      readTTFTablesFrom buf (i + 1) n (tables ++ [tableInfo])
    else if tag = headTag then do
      let tableInfo ← readHeadTable buf i
      readTTFTablesFrom buf (i + 1) n (tables ++ [tableInfo])
    else
      readTTFTablesFrom buf (i + 1) n tables

/-- Go `(*TTF).readTTFTables`: the receiver after the call. -/
def readTTFTables (ttf : TTF) (buf : List Byte) : Outcome TTF := do
  let tables ← readTTFTablesFrom buf 0 ttf.NumTables ttf.Tables
  pure { ttf with Tables := tables }

/-- Go `NewTTF`.  The file system is outside the model: `readTTF` is what the
call `ttf.readTTF()` returned, the bytes of the file or an error. -/
def NewTTF (fileName : String) (readTTF : Outcome (List Byte)) : Outcome TTF := do
  let ttf : TTF := { File := fileName, Tables := [] }
  let buf ← readTTF
  let ttf ← readTTFInfo ttf buf
  let ttf ← readTTFTables ttf buf
  pure ttf

/-- Go `PrintTagName`. -/
def PrintTagName (tag : Nat) : List Byte :=
  [toByte (tag >>> 24), toByte (tag >>> 16), toByte (tag >>> 8), toByte tag]

/-- The type assertion `table.Table.(CmapTable)`. -/
def assertCmapTable : TTFTable → Outcome CmapTable
  | TTFTable.cmap t => .ok t
  | _ => .panicked

/-- The type assertion `table.Table.(HeadTable)`. -/
def assertHeadTable : TTFTable → Outcome HeadTable
  | TTFTable.head t => .ok t
  | _ => .panicked

/-! ## Vocabulary of the statements

Positions in the buffer are natural numbers.  The source computes most of its
positions in `uint32`, so a position is reduced modulo `2^32` before it is used
as an index; the `Mod` variants below say so. -/

/-- The big-endian 16-bit value of the bytes at positions `i0`, `i1`, when both
are inside the buffer. -/
def be16Of (buf : List Byte) (i0 i1 : Nat) : Option Nat :=
  match buf[i0]?, buf[i1]? with
  | some b0, some b1 => some (256 * b0.val + b1.val)
  | _, _ => none

/-- The big-endian 32-bit value of the bytes at positions `i0 .. i3`, when all
are inside the buffer. -/
def be32Of (buf : List Byte) (i0 i1 i2 i3 : Nat) : Option Nat :=
  match buf[i0]?, buf[i1]?, buf[i2]?, buf[i3]? with
  | some b0, some b1, some b2, some b3 =>
    some (16777216 * b0.val + 65536 * b1.val + 256 * b2.val + b3.val)
  | _, _, _, _ => none

/-- The big-endian 16-bit value stored at positions `p`, `p+1`. -/
def u16At (buf : List Byte) (p : Nat) : Option Nat := be16Of buf p (p + 1)

/-- The big-endian 32-bit value stored at positions `p .. p+3`. -/
def u32At (buf : List Byte) (p : Nat) : Option Nat := be32Of buf p (p + 1) (p + 2) (p + 3)

/-- The big-endian 16-bit value stored at positions `p`, `p+1`, each reduced
modulo `2^32`. -/
def u16AtMod (buf : List Byte) (p : Nat) : Option Nat :=
  be16Of buf (p % 2 ^ 32) ((p + 1) % 2 ^ 32)

/-- The big-endian 32-bit value stored at positions `p .. p+3`, each reduced
modulo `2^32`. -/
def u32AtMod (buf : List Byte) (p : Nat) : Option Nat :=
  be32Of buf (p % 2 ^ 32) ((p + 1) % 2 ^ 32) ((p + 2) % 2 ^ 32) ((p + 3) % 2 ^ 32)

/-- The four tag bytes of directory record `i`, when inside the buffer. -/
def dirTag (buf : List Byte) (i : Nat) : Option (List Byte) :=
  match buf[12 + i * 16]?, buf[13 + i * 16]?, buf[14 + i * 16]?, buf[15 + i * 16]? with
  | some b0, some b1, some b2, some b3 => some [b0, b1, b2, b3]
  | _, _, _, _ => none

/-- Directory record `i` is tagged `cmap` or `head`: the records `readTTFTables`
decodes. -/
def isDecoded (buf : List Byte) (i : Nat) : Bool :=
  dirTag buf i == some cmapTag || dirTag buf i == some headTag

/-- The decoder `readTTFTables` applies to directory record `i`, if any. -/
def decodeRecord (buf : List Byte) (i : Nat) : Outcome TTFTableInfo :=
  if dirTag buf i = some cmapTag then readCmapTable buf i else readHeadTable buf i

/-- The directory indices among `i, ..., i+n-1` that `readTTFTables` decodes,
in directory order. -/
def decodedIndices (buf : List Byte) (i n : Nat) : List Nat :=
  (List.range' i n).filter (isDecoded buf)

/-- The value of `encodingSubtable` before the format switch of
`readCmapTable`: the encoding record, the preamble and the glyph index array
of `st`, every other field at its zero value. -/
def beforeSwitch (st : CmapSubTable) : CmapSubTable :=
  { PlatformID := st.PlatformID, EncodingID := st.EncodingID, SubOffset := st.SubOffset,
    Format := st.Format, Length := st.Length, Language := st.Language,
    GlyphIndexArray := st.GlyphIndexArray }

/-- The layout of a cmap table at position `offset`: the header words, the
number of subtables and the 8-byte encoding records, as claim C8 states them.
The 16-bit and 32-bit words stored at a position are given by `word16` and
`word32`. -/
def CmapHeaderLayout (word16 word32 : Nat → Option Nat) (offset : Nat) (c : CmapTable) :
    Prop :=
  word16 (offset + 0) = some c.Version ∧ word16 (offset + 2) = some c.NumberSubtables ∧
  c.EncodingSubtables.length = c.NumberSubtables ∧
  ∀ j, j < c.NumberSubtables → ∃ st, c.EncodingSubtables[j]? = some st ∧
    word16 (offset + 4 + 8 * j) = some st.PlatformID ∧
    word16 (offset + 4 + 8 * j + 2) = some st.EncodingID ∧
    word32 (offset + 4 + 8 * j + 4) = some st.SubOffset

/-- The layout of a format-4 subtable at position `base`, as claim C7 states
it: four arrays of `segCountX2 / 2` elements each, read one after the other.
The 16-bit word stored at a position is given by `word`. -/
def Format4Layout (word : Nat → Option Nat) (base : Nat) (st : CmapSubTable) : Prop :=
  st.EndCode.length = st.SegCountX2 / 2 ∧ st.StartCode.length = st.SegCountX2 / 2 ∧
  st.IdDelta.length = st.SegCountX2 / 2 ∧ st.IdRangeOffset.length = st.SegCountX2 / 2 ∧
  word (base + 6) = some st.SegCountX2 ∧
  word (base + 14 + 2 * (st.SegCountX2 / 2)) = some st.ReservedPad ∧
  ∀ k, k < st.SegCountX2 / 2 →
    (∃ x, st.EndCode[k]? = some x ∧ word (base + 14 + 2 * k) = some x) ∧
    (∃ x, st.StartCode[k]? = some x ∧
      word (base + 16 + 2 * (st.SegCountX2 / 2) + 2 * k) = some x) ∧
    (∃ x, st.IdDelta[k]? = some x ∧
      word (base + 16 + 4 * (st.SegCountX2 / 2) + 2 * k) = some x) ∧
    (∃ x, st.IdRangeOffset[k]? = some x ∧
      word (base + 16 + 6 * (st.SegCountX2 / 2) + 2 * k) = some x)

/-- The receiver `NewTTF` starts from. -/
def emptyTTF (fileName : String) : TTF := { File := fileName, Tables := [] }

/-! ## Concrete buffers used by the examples -/

/-- Eleven zero bytes. -/
def elevenZeroBytes : List Byte := List.replicate 11 0

/-- A 12-byte header whose scaler type is `0xDEADBEEF`. -/
def badMagicBuffer : List Byte := [0xDE, 0xAD, 0xBE, 0xEF, 0, 0, 0, 0, 0, 0, 0, 0]

/-- A font with one directory record tagged `xyz ` (offset 28, length 4) that
points at four bytes inside the buffer. -/
def unknownTagFont : List Byte :=
  [0x00, 0x01, 0x00, 0x00, 0, 1, 0, 16, 0, 0, 0, 0,
   0x78, 0x79, 0x7A, 0x20, 0, 0, 0, 9, 0, 0, 0, 28, 0, 0, 0, 4,
   1, 2, 3, 4]

/-- A 32-byte font with one `cmap` record whose offset is 28 and whose length
field is 1000; the table has no subtable. -/
def oversizeCmapFont : List Byte :=
  [0x00, 0x01, 0x00, 0x00, 0, 1, 0, 16, 0, 0, 0, 0,
   0x63, 0x6D, 0x61, 0x70, 0, 0, 0, 0, 0, 0, 0, 28, 0, 0, 0x03, 0xE8,
   0, 0, 0, 0]

/-- What `NewTTF` returns on `oversizeCmapFont`. -/
def oversizeCmapFontParsed : TTF :=
  { File := "cmap.ttf", ScalerType := 65536, NumTables := 1, SearchRange := 16,
    Tables := [
      { Tag := 0x636D6170, CheckSum := 0, Offset := 28, Length := 1000,
        Table := TTFTable.cmap { Version := 0, NumberSubtables := 0, EncodingSubtables := [] } }] }

/-- A font with one `head` record (offset 28, length 54) and, at offset 28, a
54-byte head table with `magicNumber = 0x5F0F3CF5`, `unitsPerEm = 2048`,
`lowestRecPPEM = 8`, `fontDirectionHint = 2`, `indexToLocFormat = 1`. -/
def shiftedHeadFont : List Byte :=
  [0x00, 0x01, 0x00, 0x00, 0, 1, 0, 16, 0, 0, 0, 0,
   0x68, 0x65, 0x61, 0x64, 0, 0, 0, 0, 0, 0, 0, 28, 0, 0, 0, 54,
   0x00, 0x01, 0x00, 0x00, 0x00, 0x01, 0x00, 0x00, 0, 0, 0, 0, 0x5F, 0x0F, 0x3C, 0xF5,
   0, 0, 0x08, 0x00,
   0, 0, 0, 0, 0, 0, 0, 0, 0, 0, 0, 0, 0, 0, 0, 0,
   0, 0, 0, 0, 0, 0, 0, 0,
   0, 0, 0, 8, 0, 2, 0, 1, 0, 0]

/-- What `NewTTF` returns on `shiftedHeadFont`. -/
def shiftedHeadFontParsed : TTF :=
  { File := "head.ttf", ScalerType := 65536, NumTables := 1, SearchRange := 16,
    Tables := [
      { Tag := 0x68656164, CheckSum := 0, Offset := 28, Length := 54,
        Table := TTFTable.head
          { Version := 65536, FontRevision := 65552, CheckSumAdjustment := 0,
            MagicNumber := 0x68656164, Flags := 0, UnitPerEm := 0,
            Created := 120259084342, Modified := 281474976776192,
            XMin := 0, YMin := 0, XMax := 24335, YMax := 15605, MacStyle := 0,
            LowestRecPPEM := 2048, FontDirectionHint := 0, IndexToLocFormat := 0,
            GlyphDataFormat := 0 } }] }

/-- A font with one `cmap` record (offset 28, length 36): one encoding record
(platform 3, encoding 1, sub-offset 12) and a format-4 subtable of length 24
with `segCountX2 = 2`, `endCode = [0xFFFF]`, `startCode = [0xFFFF]`,
`idDelta = [1]`, `idRangeOffset = [0]`. -/
def format4Font : List Byte :=
  [0x00, 0x01, 0x00, 0x00, 0, 1, 0, 16, 0, 0, 0, 0,
   0x63, 0x6D, 0x61, 0x70, 0, 0, 0, 0, 0, 0, 0, 28, 0, 0, 0, 36,
   0, 0, 0, 1,
   0, 3, 0, 1, 0, 0, 0, 12,
   0, 4, 0, 24, 0, 0,
   0, 2, 0, 2, 0, 0, 0, 0,
   0xFF, 0xFF, 0, 0, 0xFF, 0xFF, 0, 1, 0, 0]

/-- The subtable `readCmapTable` decodes from `format4Font`. -/
def format4Subtable : CmapSubTable :=
  { PlatformID := 3, EncodingID := 1, SubOffset := 12, Format := 4, Length := 24,
    Language := 0,
    GlyphIndexArray := [0, 2, 0, 2, 0, 0, 0, 0, 255, 255, 0, 0, 255, 255, 0, 1, 0, 0],
    SegCountX2 := 2, SearchRange := 2, EntrySelector := 0, RangeShift := 0,
    EndCode := [65535], ReservedPad := 0, StartCode := [65535], IdDelta := [1],
    IdRangeOffset := [0] }

/-- The cmap table `readCmapTable` decodes from `format4Font`. -/
def format4Cmap : CmapTable :=
  { Version := 0, NumberSubtables := 1, EncodingSubtables := [format4Subtable] }

/-- The table entry `readCmapTable` returns for record 0 of `format4Font`. -/
def format4Entry : TTFTableInfo :=
  { Tag := 0x636D6170, CheckSum := 0, Offset := 28, Length := 36,
    Table := TTFTable.cmap format4Cmap }

/-- What `NewTTF` returns on `format4Font`. -/
def format4FontParsed : TTF :=
  { File := "format4.ttf", ScalerType := 65536, NumTables := 1, SearchRange := 16,
    EntrySelector := 0, RangeShift := 0, Tables := [format4Entry] }

/-- A 72-byte font with one `cmap` record at offset 60.  Its encoding record
has the sub-offset `0xFFFFFFE0`, so that `60 + 0xFFFFFFE0` is `2^32 + 28`; the
bytes at position 28 are a format-4 subtable of length 6 with `segCountX2 = 2`,
`endCode = [0xFFFF]`, `startCode = [0xFFFF]`, `idDelta = [1]`,
`idRangeOffset = [0]`. -/
def wrappedFormat4Font : List Byte :=
  [0x00, 0x01, 0x00, 0x00, 0, 1, 0, 16, 0, 0, 0, 0,
   0x63, 0x6D, 0x61, 0x70, 0, 0, 0, 0, 0, 0, 0, 60, 0, 0, 0, 12,
   0, 4, 0, 6, 0, 0,
   0, 2, 0, 2, 0, 0, 0, 0,
   0xFF, 0xFF, 0, 0, 0xFF, 0xFF, 0, 1, 0, 0,
   0, 0, 0, 0, 0, 0, 0, 0,
   0, 0, 0, 1,
   0, 3, 0, 1, 0xFF, 0xFF, 0xFF, 0xE0]

/-- The subtable `NewTTF` decodes from `wrappedFormat4Font`. -/
def wrappedFormat4Subtable : CmapSubTable :=
  { PlatformID := 3, EncodingID := 1, SubOffset := 0xFFFFFFE0, Format := 4, Length := 6,
    Language := 0, GlyphIndexArray := [],
    SegCountX2 := 2, SearchRange := 2, EntrySelector := 0, RangeShift := 0,
    EndCode := [65535], ReservedPad := 0, StartCode := [65535], IdDelta := [1],
    IdRangeOffset := [0] }

/-- The table entry `readCmapTable` returns for record 0 of
`wrappedFormat4Font`. -/
def wrappedFormat4Entry : TTFTableInfo :=
  { Tag := 0x636D6170, CheckSum := 0, Offset := 60, Length := 12,
    Table := TTFTable.cmap
      { Version := 0, NumberSubtables := 1, EncodingSubtables := [wrappedFormat4Subtable] } }

/-- What `NewTTF` returns on `wrappedFormat4Font`. -/
def wrappedFormat4FontParsed : TTF :=
  { File := "wrapped.ttf", ScalerType := 65536, NumTables := 1, SearchRange := 16,
    Tables := [wrappedFormat4Entry] }

/-- The first 28 bytes of `giantFont`: the header and one `cmap` record whose
offset is `0xFFFFFFFD` and whose length is 4. -/
def giantPrefix : List Byte :=
  [0x00, 0x01, 0x00, 0x00, 0, 1, 0, 16, 0, 0, 0, 0,
   0x63, 0x6D, 0x61, 0x70, 0, 0, 0, 0, 0xFF, 0xFF, 0xFF, 0xFD, 0, 0, 0, 4]

/-- A font of `2^32 + 1` bytes: `giantPrefix`, zero bytes up to position
`2^32 - 1`, and the byte 5 at position `2^32`. -/
def giantFont : List Byte := giantPrefix ++ (List.replicate 4294967268 0 ++ [5])

/-- The bytes of `giantFont`, position by position. -/
def GiantShape (buf : List Byte) : Prop :=
  (∀ i, i < 28 → buf[i]? = giantPrefix[i]?) ∧
  (∀ i, 28 ≤ i → i < 4294967296 → buf[i]? = some 0) ∧
  buf[4294967296]? = some 5

/-- What `NewTTF` returns on `giantFont`. -/
def giantFontParsed : TTF :=
  { File := "giant.ttf", ScalerType := 65536, NumTables := 1, SearchRange := 16,
    Tables := [
      { Tag := 0x636D6170, CheckSum := 0, Offset := 0xFFFFFFFD, Length := 4,
        Table := TTFTable.cmap { Version := 0, NumberSubtables := 0, EncodingSubtables := [] } }] }

/-- A 14-byte buffer: scaler type `0x00010000`, no table, the hint fields
`0xABCD`, `0x1234`, `0xFFFF`, and two more bytes. -/
def emptyFont : List Byte :=
  [0x00, 0x01, 0x00, 0x00, 0, 0, 0xAB, 0xCD, 0x12, 0x34, 0xFF, 0xFF, 7, 7]

/-- The outcome `x` is a panic, or it is the outcome `y`. -/
def Outcome.PanicsOrEq {α : Type} (x y : Outcome α) : Prop := x = Outcome.panicked ∨ x = y

/-- The font `format4Font` with the length field of its `cmap` record set to 8:
the subtable at sub-offset 12, of length 24, ends 28 bytes after the end of the
table its record declares. -/
def shortCmapLengthFont : List Byte :=
  [0x00, 0x01, 0x00, 0x00, 0, 1, 0, 16, 0, 0, 0, 0,
   0x63, 0x6D, 0x61, 0x70, 0, 0, 0, 0, 0, 0, 0, 28, 0, 0, 0, 8,
   0, 0, 0, 1,
   0, 3, 0, 1, 0, 0, 0, 12,
   0, 4, 0, 24, 0, 0,
   0, 2, 0, 2, 0, 0, 0, 0,
   0xFF, 0xFF, 0, 0, 0xFF, 0xFF, 0, 1, 0, 0]

/-- The table entry `readCmapTable` returns for record 0 of
`shortCmapLengthFont`. -/
def shortCmapLengthEntry : TTFTableInfo :=
  { Tag := 0x636D6170, CheckSum := 0, Offset := 28, Length := 8,
    Table := TTFTable.cmap format4Cmap }

/-- What `NewTTF` returns on `shortCmapLengthFont`. -/
def shortCmapLengthFontParsed : TTF :=
  { File := "short.ttf", ScalerType := 65536, NumTables := 1, SearchRange := 16,
    EntrySelector := 0, RangeShift := 0, Tables := [shortCmapLengthEntry] }

/-- A font with one `cmap` record (offset 28, length 22): one encoding record
(platform 1, encoding 0, sub-offset 12) and a format-0 subtable of length 10
whose four glyph index bytes are 5, 6, 7, 8. -/
def format0Font : List Byte :=
  [0x00, 0x01, 0x00, 0x00, 0, 1, 0, 16, 0, 0, 0, 0,
   0x63, 0x6D, 0x61, 0x70, 0, 0, 0, 0, 0, 0, 0, 28, 0, 0, 0, 22,
   0, 0, 0, 1,
   0, 1, 0, 0, 0, 0, 0, 12,
   0, 0, 0, 10, 0, 0,
   5, 6, 7, 8]

/-- The subtable `readCmapTable` decodes from `format0Font`. -/
def format0Subtable : CmapSubTable :=
  { PlatformID := 1, EncodingID := 0, SubOffset := 12, Format := 0, Length := 10,
    Language := 0, GlyphIndexArray := [5, 6, 7, 8] }

/-- The cmap table `readCmapTable` decodes from `format0Font`. -/
def format0Cmap : CmapTable :=
  { Version := 0, NumberSubtables := 1, EncodingSubtables := [format0Subtable] }

/-- The table entry `readCmapTable` returns for record 0 of `format0Font`. -/
def format0Entry : TTFTableInfo :=
  { Tag := 0x636D6170, CheckSum := 0, Offset := 28, Length := 22,
    Table := TTFTable.cmap format0Cmap }

/-- A font with one `cmap` record (offset 28, length 26): one encoding record
(platform 1, encoding 0, sub-offset 12) and a format-6 subtable of length 14
with `firstCode = 0x41`, `entryCount = 2` and the glyph indices 1 and 2. -/
def format6Font : List Byte :=
  [0x00, 0x01, 0x00, 0x00, 0, 1, 0, 16, 0, 0, 0, 0,
   0x63, 0x6D, 0x61, 0x70, 0, 0, 0, 0, 0, 0, 0, 28, 0, 0, 0, 26,
   0, 0, 0, 1,
   0, 1, 0, 0, 0, 0, 0, 12,
   0, 6, 0, 14, 0, 0,
   0, 0x41, 0, 2,
   0, 1, 0, 2]

/-- A font with one `cmap` record (offset 28, length 20): one encoding record
(platform 1, encoding 0, sub-offset 12) and a format-2 subtable whose length
field is 8 and whose two bytes after the preamble are `0x12` and `0x34`. -/
def format2Font : List Byte :=
  [0x00, 0x01, 0x00, 0x00, 0, 1, 0, 16, 0, 0, 0, 0,
   0x63, 0x6D, 0x61, 0x70, 0, 0, 0, 0, 0, 0, 0, 28, 0, 0, 0, 20,
   0, 0, 0, 1,
   0, 1, 0, 0, 0, 0, 0, 12,
   0, 2, 0, 8, 0, 0,
   0x12, 0x34]

/-- A font with one `cmap` record (offset 28, length 36): one encoding record
(platform 0, encoding 4, sub-offset 12) and a subtable of format 8 whose bytes
are `00 08`, `00 06`, `00 00`, `00 00`, `00 00 00 01` and the twelve bytes of
one group `(0x41, 0x5A, 1)`. -/
def format8Font : List Byte :=
  [0x00, 0x01, 0x00, 0x00, 0, 1, 0, 16, 0, 0, 0, 0,
   0x63, 0x6D, 0x61, 0x70, 0, 0, 0, 0, 0, 0, 0, 28, 0, 0, 0, 36,
   0, 0, 0, 1,
   0, 0, 0, 4, 0, 0, 0, 12,
   0, 8, 0, 6, 0, 0, 0, 0,
   0, 0, 0, 1,
   0, 0, 0, 0x41, 0, 0, 0, 0x5A, 0, 0, 0, 1]

/-- A font with a `cmap` record (offset 44, length 38) and a `head` record.
The cmap table has two subtables: at sub-offset 20 one of format 12 whose
length field is 8 and whose two bytes after the preamble are `0xAA`, `0xBB`; at
sub-offset 28 one of format 0 and length 10 with the glyph bytes 5, 6, 7, 8. -/
def unsupportedFormatFont : List Byte :=
  [0x00, 0x01, 0x00, 0x00, 0, 2, 0, 32, 0, 1, 0, 0,
   0x63, 0x6D, 0x61, 0x70, 0, 0, 0, 0, 0, 0, 0, 44, 0, 0, 0, 38,
   0x68, 0x65, 0x61, 0x64, 0, 0, 0, 0, 0, 0, 0, 0, 0, 0, 0, 54,
   0, 0, 0, 2,
   0, 0, 0, 4, 0, 0, 0, 20,
   0, 1, 0, 0, 0, 0, 0, 28,
   0, 12, 0, 8, 0, 0, 0xAA, 0xBB,
   0, 0, 0, 10, 0, 0, 5, 6, 7, 8]

/-- The subtable `readCmapTable` decodes from `format6Font`. -/
def format6Subtable : CmapSubTable :=
  { PlatformID := 1, EncodingID := 0, SubOffset := 12, Format := 6, Length := 14,
    Language := 0, GlyphIndexArray := [0, 65, 0, 2, 0, 1, 0, 2],
    FirstCode := 65, EntryCount := 2 }

/-- The cmap table `readCmapTable` decodes from `format6Font`. -/
def format6Cmap : CmapTable :=
  { Version := 0, NumberSubtables := 1, EncodingSubtables := [format6Subtable] }

/-- The table entry `readCmapTable` returns for record 0 of `format6Font`. -/
def format6Entry : TTFTableInfo :=
  { Tag := 0x636D6170, CheckSum := 0, Offset := 28, Length := 26,
    Table := TTFTable.cmap format6Cmap }

/-- What `NewTTF` returns on `format6Font`. -/
def format6FontParsed : TTF :=
  { File := "format6.ttf", ScalerType := 65536, NumTables := 1, SearchRange := 16,
    Tables := [format6Entry] }

/-- The subtable `readCmapTable` decodes from `format2Font`. -/
def format2Subtable : CmapSubTable :=
  { PlatformID := 1, EncodingID := 0, SubOffset := 12, Format := 2, Length := 8,
    Language := 0, GlyphIndexArray := [0x12, 0x34],
    SubHeaderKeys := [0x12, 0x34],
    SubHeaders := [
      { FirstCode := 0x12, EntryCount := 0x12, IdDelta := 0x12, IdRangeOffset := 0x12 },
      { FirstCode := 0x34, EntryCount := 0x34, IdDelta := 0x34, IdRangeOffset := 0x34 }],
    GlyphIndexArray16 := [0x12, 0x34] }

/-- What `NewTTF` returns on `format2Font`. -/
def format2FontParsed : TTF :=
  { File := "format2.ttf", ScalerType := 65536, NumTables := 1, SearchRange := 16,
    Tables := [
      { Tag := 0x636D6170, CheckSum := 0, Offset := 28, Length := 20,
        Table := TTFTable.cmap
          { Version := 0, NumberSubtables := 1, EncodingSubtables := [format2Subtable] } }] }

/-- The subtable `readCmapTable` decodes from `format8Font`. -/
def format8Subtable : CmapSubTable :=
  { PlatformID := 0, EncodingID := 4, SubOffset := 12, Format := 8, Length := 6,
    Language := 0, GlyphIndexArray := [], Reserved := 0, Is32 := [], NGroups := 1,
    Groups := [{ StartCharCode := 0x41, EndCharCode := 0x5A, StartGlyphCode := 1 }] }

/-- What `NewTTF` returns on `format8Font`. -/
def format8FontParsed : TTF :=
  { File := "format8.ttf", ScalerType := 65536, NumTables := 1, SearchRange := 16,
    Tables := [
      { Tag := 0x636D6170, CheckSum := 0, Offset := 28, Length := 36,
        Table := TTFTable.cmap
          { Version := 0, NumberSubtables := 1, EncodingSubtables := [format8Subtable] } }] }

/-- The format-12 subtable `readCmapTable` decodes from
`unsupportedFormatFont`. -/
def unsupportedSubtable : CmapSubTable :=
  { PlatformID := 0, EncodingID := 4, SubOffset := 20, Format := 12, Length := 8,
    Language := 0, GlyphIndexArray := [0xAA, 0xBB] }

/-- The format-0 subtable that follows it. -/
def followingSubtable : CmapSubTable :=
  { PlatformID := 1, EncodingID := 0, SubOffset := 28, Format := 0, Length := 10,
    Language := 0, GlyphIndexArray := [5, 6, 7, 8] }

/-- The cmap table `readCmapTable` decodes from `unsupportedFormatFont`. -/
def unsupportedCmap : CmapTable :=
  { Version := 0, NumberSubtables := 2,
    EncodingSubtables := [unsupportedSubtable, followingSubtable] }

/-- The table entry `readCmapTable` returns for record 0 of
`unsupportedFormatFont`. -/
def unsupportedEntry : TTFTableInfo :=
  { Tag := 0x636D6170, CheckSum := 0, Offset := 44, Length := 38,
    Table := TTFTable.cmap unsupportedCmap }

/-- The table entry `readHeadTable` returns for record 1 of
`unsupportedFormatFont`. -/
def unsupportedHeadEntry : TTFTableInfo :=
  { Tag := 0x68656164, CheckSum := 0, Offset := 0, Length := 54,
    Table := TTFTable.head
      { Version := 65536, FontRevision := 131104, CheckSumAdjustment := 65536,
        MagicNumber := 1668112752, Flags := 0, UnitPerEm := 0, Created := 188978561062,
        Modified := 7522525834716905472, XMin := 0, YMin := 0, XMax := 0, YMax := 54,
        MacStyle := 0, LowestRecPPEM := 2, FontDirectionHint := 0, IndexToLocFormat := 4,
        GlyphDataFormat := 0 } }

/-- What `NewTTF` returns on `unsupportedFormatFont`. -/
def unsupportedFormatFontParsed : TTF :=
  { File := "unsupported.ttf", ScalerType := 65536, NumTables := 2, SearchRange := 32,
    EntrySelector := 1, RangeShift := 0, Tables := [unsupportedEntry, unsupportedHeadEntry] }

/-- A font whose only table is a `cmap` table with one well-formed format-12
subtable at position 40: format 12, a reserved word 0, the 32-bit length 28, the
32-bit language 0, one group.  The code reads the reserved word as `Length`. -/
def format12Font : List Byte :=
  [0x00, 0x01, 0x00, 0x00, 0, 1, 0, 16, 0, 0, 0, 0,
   0x63, 0x6D, 0x61, 0x70, 0, 0, 0, 0, 0, 0, 0, 28, 0, 0, 0, 40,
   0, 0, 0, 1,
   0, 3, 0, 10, 0, 0, 0, 12,
   0, 12, 0, 0, 0, 0, 0, 28, 0, 0, 0, 0,
   0, 0, 0, 1,
   0, 0, 0, 0x41, 0, 0, 0, 0x5A, 0, 0, 0, 1]

/-- The two's-complement reading of the big-endian 16-bit word with high byte
`hi` and low byte `lo`, as claim C21 states it. -/
def twosComplement16 (hi lo : Nat) : Int :=
  if hi < 128 then ((256 * hi + lo : Nat) : Int) else ((256 * hi + lo : Nat) : Int) - 65536

/-- The signed big-endian 16-bit value stored at positions `p`, `p+1`, read in
two's complement. -/
def int16At (buf : List Byte) (p : Nat) : Option Int :=
  match buf[p]?, buf[p + 1]? with
  | some hi, some lo => some (twosComplement16 hi.val lo.val)
  | _, _ => none

/-- A font of 54 bytes with one `head` record of offset 0 and length 54, so
that the head table is the first 54 bytes of the file.  The signed fields are
`FF FE` at 36, `80 00` at 38, `7F FF` at 40, `00 05` at 42, `FF FF` at 48,
`00 01` at 50 and `00 00` at 52. -/
def signedHeadFont : List Byte :=
  [0x00, 0x01, 0x00, 0x00, 0, 1, 0, 16, 0, 0, 0, 0,
   0x68, 0x65, 0x61, 0x64, 0, 0, 0, 0, 0, 0, 0, 0, 0, 0, 0, 54,
   0, 0, 0, 0, 0, 0, 0, 0,
   0xFF, 0xFE, 0x80, 0x00, 0x7F, 0xFF, 0x00, 0x05,
   0, 0, 0, 8,
   0xFF, 0xFF, 0x00, 0x01, 0x00, 0x00]

/-- The font `shiftedHeadFont` with the last 28 bytes, positions 54..81, all
set to `0xFF`. -/
def alteredHeadFont : List Byte :=
  [0x00, 0x01, 0x00, 0x00, 0, 1, 0, 16, 0, 0, 0, 0,
   0x68, 0x65, 0x61, 0x64, 0, 0, 0, 0, 0, 0, 0, 28, 0, 0, 0, 54,
   0x00, 0x01, 0x00, 0x00, 0x00, 0x01, 0x00, 0x00, 0, 0, 0, 0, 0x5F, 0x0F, 0x3C, 0xF5,
   0, 0, 0x08, 0x00,
   0, 0, 0, 0, 0, 0,
   0xFF, 0xFF, 0xFF, 0xFF, 0xFF, 0xFF, 0xFF, 0xFF, 0xFF, 0xFF, 0xFF, 0xFF, 0xFF, 0xFF,
   0xFF, 0xFF, 0xFF, 0xFF, 0xFF, 0xFF, 0xFF, 0xFF, 0xFF, 0xFF, 0xFF, 0xFF, 0xFF, 0xFF]

/-- The head table `readHeadTable` decodes from `signedHeadFont`. -/
def signedHeadTable : HeadTable :=
  { Version := 65536, FontRevision := 65552, CheckSumAdjustment := 0,
    MagicNumber := 0x68656164, Flags := 0, UnitPerEm := 0, Created := 54, Modified := 0,
    XMin := -2, YMin := -32768, XMax := 32767, YMax := 5, MacStyle := 0,
    LowestRecPPEM := 8, FontDirectionHint := -1, IndexToLocFormat := 1,
    GlyphDataFormat := 0 }

/-- The table entry `readHeadTable` returns for record 0 of `signedHeadFont`. -/
def signedHeadEntry : TTFTableInfo :=
  { Tag := 0x68656164, CheckSum := 0, Offset := 0, Length := 54,
    Table := TTFTable.head signedHeadTable }

/-- The head table `readHeadTable` decodes from `shiftedHeadFont`, and from
`alteredHeadFont`. -/
def shiftedHeadTable : HeadTable :=
  { Version := 65536, FontRevision := 65552, CheckSumAdjustment := 0,
    MagicNumber := 0x68656164, Flags := 0, UnitPerEm := 0,
    Created := 120259084342, Modified := 281474976776192,
    XMin := 0, YMin := 0, XMax := 24335, YMax := 15605, MacStyle := 0,
    LowestRecPPEM := 2048, FontDirectionHint := 0, IndexToLocFormat := 0,
    GlyphDataFormat := 0 }

/-- The table entry `readHeadTable` returns for record 0 of `shiftedHeadFont`. -/
def shiftedHeadEntry : TTFTableInfo :=
  { Tag := 0x68656164, CheckSum := 0, Offset := 28, Length := 54,
    Table := TTFTable.head shiftedHeadTable }

/-- The table entry `readHeadTable` returns when it is pointed at the 16 bytes
at position 60 of `alteredHeadFont`, directory index 3. -/
def alteredHeadEntry : TTFTableInfo :=
  { Tag := 0xFFFFFFFF, CheckSum := 0xFFFFFFFF, Offset := 0xFFFFFFFF, Length := 0xFFFFFFFF,
    Table := TTFTable.head shiftedHeadTable }

/-- A font of 60 bytes with three directory records tagged `head`, `xyz ` and
`head`; both `head` records have offset 0 and length 54. -/
def mixedTagsFont : List Byte :=
  [0x00, 0x01, 0x00, 0x00, 0, 3, 0, 32, 0, 1, 0, 16,
   0x68, 0x65, 0x61, 0x64, 0, 0, 0, 0, 0, 0, 0, 0, 0, 0, 0, 54,
   0x78, 0x79, 0x7A, 0x20, 0, 0, 0, 0, 0, 0, 0, 0, 0, 0, 0, 0,
   0x68, 0x65, 0x61, 0x64, 0, 0, 0, 0, 0, 0, 0, 0, 0, 0, 0, 54]

/-- The header `readTTFInfo` decodes from `mixedTagsFont`. -/
def mixedTagsHeader : TTF :=
  { File := "mixed.ttf", ScalerType := 65536, NumTables := 3, SearchRange := 32,
    EntrySelector := 1, RangeShift := 16, Tables := [] }

/-- The table entry `readHeadTable` returns for records 0 and 2 of
`mixedTagsFont`. -/
def mixedTagsEntry : TTFTableInfo :=
  { Tag := 0x68656164, CheckSum := 0, Offset := 0, Length := 54,
    Table := TTFTable.head
      { Version := 65536, FontRevision := 196640, CheckSumAdjustment := 65552,
        MagicNumber := 0x68656164, Flags := 0, UnitPerEm := 0, Created := 54,
        Modified := 8681104034590883840, XMin := 0, YMin := 0, XMax := 0, YMax := 0,
        MacStyle := 26725, LowestRecPPEM := 24932, FontDirectionHint := 0,
        IndexToLocFormat := 0, GlyphDataFormat := 0 } }

/-- What `readTTFTables` makes of `mixedTagsHeader` on `mixedTagsFont`. -/
def mixedTagsFontParsed : TTF :=
  { File := "mixed.ttf", ScalerType := 65536, NumTables := 3, SearchRange := 32,
    EntrySelector := 1, RangeShift := 16, Tables := [mixedTagsEntry, mixedTagsEntry] }

/-- The first 46 bytes of `shortLengthFormat0Font`: the header, one `cmap`
record (offset 28), the cmap header with one encoding record (platform 1,
encoding 0, sub-offset 12), and at position 40 the preamble of a subtable of
format 0 whose length field is 0. -/
def shortLengthFormat0Head : List Byte :=
  [0x00, 0x01, 0x00, 0x00, 0, 1, 0, 16, 0, 0, 0, 0,
   0x63, 0x6D, 0x61, 0x70, 0, 0, 0, 0, 0, 0, 0, 28, 0, 1, 0, 12,
   0, 0, 0, 1,
   0, 1, 0, 0, 0, 0, 0, 12,
   0, 0, 0, 0, 0, 0]

/-- A font of 65576 bytes: `shortLengthFormat0Head` and 65530 zero bytes after
the preamble of its subtable. -/
def shortLengthFormat0Font : List Byte := shortLengthFormat0Head ++ List.replicate 65530 0

/-- The first 48 bytes of `shortLengthFormat4Font`: the header, one `cmap`
record (offset 28), the cmap header with one encoding record (platform 3,
encoding 1, sub-offset 12), at position 40 the preamble of a subtable of format
4 whose length field is 0, and at position 46 the word `0xFFFE`, its
`segCountX2`. -/
def shortLengthFormat4Head : List Byte :=
  [0x00, 0x01, 0x00, 0x00, 0, 1, 0, 16, 0, 0, 0, 0,
   0x63, 0x6D, 0x61, 0x70, 0, 0, 0, 0, 0, 0, 0, 28, 0, 1, 0, 12,
   0, 0, 0, 1,
   0, 3, 0, 1, 0, 0, 0, 12,
   0, 4, 0, 0, 0, 0,
   0xFF, 0xFE]

/-- A font of 65576 bytes: `shortLengthFormat4Head` and 65528 zero bytes, so
that 65530 bytes follow the preamble of its subtable. -/
def shortLengthFormat4Font : List Byte := shortLengthFormat4Head ++ List.replicate 65528 0

/-- The font `format6Font` with the length field of its subtable set to 6: the
subtable declares no byte after its preamble, and still `firstCode = 0x41` and
`entryCount = 2`. -/
def format6ShortFont : List Byte :=
  [0x00, 0x01, 0x00, 0x00, 0, 1, 0, 16, 0, 0, 0, 0,
   0x63, 0x6D, 0x61, 0x70, 0, 0, 0, 0, 0, 0, 0, 28, 0, 0, 0, 26,
   0, 0, 0, 1,
   0, 1, 0, 0, 0, 0, 0, 12,
   0, 6, 0, 6, 0, 0,
   0, 0x41, 0, 2,
   0, 1, 0, 2]

/-- The subtable `readCmapTable` decodes from `format6ShortFont`. -/
def format6ShortSubtable : CmapSubTable :=
  { PlatformID := 1, EncodingID := 0, SubOffset := 12, Format := 6, Length := 6,
    Language := 0, GlyphIndexArray := [], FirstCode := 65, EntryCount := 2 }

/-- The cmap table `readCmapTable` decodes from `format6ShortFont`. -/
def format6ShortCmap : CmapTable :=
  { Version := 0, NumberSubtables := 1, EncodingSubtables := [format6ShortSubtable] }

/-- The table entry `readCmapTable` returns for record 0 of
`format6ShortFont`. -/
def format6ShortEntry : TTFTableInfo :=
  { Tag := 0x636D6170, CheckSum := 0, Offset := 28, Length := 26,
    Table := TTFTable.cmap format6ShortCmap }

/-! ## Basic facts about outcomes, reads and loops -/

namespace Outcome

@[simp] theorem pure_eq_ok {α : Type} (a : α) : (pure a : Outcome α) = Outcome.ok a := rfl

@[simp] theorem bind_eq_bind {α β : Type} (x : Outcome α) (f : α → Outcome β) :
    (x >>= f) = Outcome.bind x f := rfl

@[simp] theorem ok_bind {α β : Type} (a : α) (f : α → Outcome β) :
    Outcome.bind (Outcome.ok a) f = f a := rfl

@[simp] theorem err_bind {α β : Type} (m : String) (f : α → Outcome β) :
    Outcome.bind (Outcome.err m) f = Outcome.err m := rfl

@[simp] theorem panicked_bind {α β : Type} (f : α → Outcome β) :
    Outcome.bind Outcome.panicked f = Outcome.panicked := rfl

theorem bind_eq_ok {α β : Type} {x : Outcome α} {f : α → Outcome β} {b : β} :
    Outcome.bind x f = Outcome.ok b ↔ ∃ a, x = Outcome.ok a ∧ f a = Outcome.ok b := by
  cases x <;> simp

theorem bind_eq_err {α β : Type} {x : Outcome α} {f : α → Outcome β} {m : String} :
    Outcome.bind x f = Outcome.err m ↔
      x = Outcome.err m ∨ ∃ a, x = Outcome.ok a ∧ f a = Outcome.err m := by
  cases x <;> simp

theorem bind_eq_panicked {α β : Type} {x : Outcome α} {f : α → Outcome β} :
    Outcome.bind x f = Outcome.panicked ↔
      x = Outcome.panicked ∨ ∃ a, x = Outcome.ok a ∧ f a = Outcome.panicked := by
  cases x <;> simp

theorem NoErr.bind {α β : Type} {x : Outcome α} {f : α → Outcome β}
    (hx : NoErr x) (hf : ∀ a, NoErr (f a)) : NoErr (Outcome.bind x f) := by
  intro m h
  rcases bind_eq_err.1 h with h | ⟨a, _, h⟩
  · exact hx m h
  · exact hf a m h

theorem NoErr.ok {α : Type} (a : α) : NoErr (Outcome.ok a) := by
  intro m h; cases h

end Outcome

open Outcome

theorem index_eq_ok {buf : List Byte} {i : Nat} {b : Byte} :
    index buf i = Outcome.ok b ↔ buf[i]? = some b := by
  unfold index
  cases h : buf[i]? <;> simp

theorem index_eq_panicked {buf : List Byte} {i : Nat} :
    index buf i = Outcome.panicked ↔ buf.length ≤ i := by
  unfold index
  cases h : buf[i]? with
  | none => simpa using h
  | some b =>
    have := (List.getElem?_eq_some.1 h).1
    simp; omega

theorem index_noErr (buf : List Byte) (i : Nat) : NoErr (index buf i) := by
  intro m h
  unfold index at h
  cases hb : buf[i]? <;> simp [hb] at h

theorem index_of_lt {buf : List Byte} {i : Nat} (h : i < buf.length) :
    index buf i = Outcome.ok (buf.get ⟨i, h⟩) := by
  rw [index_eq_ok]
  simp [List.getElem?_eq_getElem h]

theorem lt_of_index_ok {buf : List Byte} {i : Nat} {b : Byte}
    (h : index buf i = Outcome.ok b) : i < buf.length :=
  (List.getElem?_eq_some.1 (index_eq_ok.1 h)).1

/-! ### Big-endian words -/

theorem shiftLeft_lor_eq_add (a b i : Nat) (hb : b < 2 ^ i) :
    a <<< i ||| b = a * 2 ^ i + b := by
  rw [Nat.shiftLeft_eq, Nat.mul_comm, ← Nat.mul_add_lt_is_or hb]

theorem be16_eq {b0 b1 : Nat} (h0 : b0 < 256) (h1 : b1 < 256) :
    be16 b0 b1 = 256 * b0 + b1 := by
  unfold be16 u16
  have e : b0 <<< 8 % 2 ^ 16 = b0 <<< 8 := by
    rw [Nat.shiftLeft_eq]; omega
  rw [e, shiftLeft_lor_eq_add _ _ _ (by omega)]
  omega

theorem be32_eq {b0 b1 b2 b3 : Nat} (h0 : b0 < 256) (h1 : b1 < 256) (h2 : b2 < 256)
    (h3 : b3 < 256) :
    be32 b0 b1 b2 b3 = 16777216 * b0 + 65536 * b1 + 256 * b2 + b3 := by
  unfold be32 u32
  have e0 : b0 <<< 24 % 2 ^ 32 = b0 <<< 24 := by rw [Nat.shiftLeft_eq]; omega
  have e1 : b1 <<< 16 % 2 ^ 32 = b1 <<< 16 := by rw [Nat.shiftLeft_eq]; omega
  have e2 : b2 <<< 8 % 2 ^ 32 = b2 <<< 8 := by rw [Nat.shiftLeft_eq]; omega
  rw [e0, e1, e2]
  have s2 : b2 <<< 8 ||| b3 = b2 * 2 ^ 8 + b3 := shiftLeft_lor_eq_add _ _ _ (by omega)
  have s1 : b1 <<< 16 ||| (b2 * 2 ^ 8 + b3) = b1 * 2 ^ 16 + (b2 * 2 ^ 8 + b3) :=
    shiftLeft_lor_eq_add _ _ _ (by omega)
  have s0 : b0 <<< 24 ||| (b1 * 2 ^ 16 + (b2 * 2 ^ 8 + b3)) =
      b0 * 2 ^ 24 + (b1 * 2 ^ 16 + (b2 * 2 ^ 8 + b3)) := shiftLeft_lor_eq_add _ _ _ (by omega)
  rw [Nat.lor_assoc, Nat.lor_assoc, s2, s1, s0]
  omega

theorem be16_lt (b0 b1 : Nat) : be16 b0 b1 < 2 ^ 16 := by
  unfold be16 u16; exact Nat.mod_lt _ (by decide)

theorem be32_lt (b0 b1 b2 b3 : Nat) : be32 b0 b1 b2 b3 < 2 ^ 32 := by
  unfold be32 u32; exact Nat.mod_lt _ (by decide)

theorem PrintTagName_be32 (b0 b1 b2 b3 : Byte) :
    PrintTagName (be32 b0.val b1.val b2.val b3.val) = [b0, b1, b2, b3] := by
  have h0 := b0.isLt
  have h1 := b1.isLt
  have h2 := b2.isLt
  have h3 := b3.isLt
  rw [be32_eq h0 h1 h2 h3]
  unfold PrintTagName toByte
  simp only [Nat.shiftRight_eq_div_pow, List.cons.injEq, and_true]
  refine ⟨?_, ?_, ?_, ?_⟩ <;> apply Fin.ext <;> simp only [] <;> omega

/-! ### Reads -/

theorem read16_eq_ok {buf : List Byte} {i0 i1 v : Nat} :
    read16 buf i0 i1 = Outcome.ok v ↔ be16Of buf i0 i1 = some v := by
  unfold read16 be16Of index
  cases h0 : buf[i0]? with
  | none => simp
  | some b0 =>
    cases h1 : buf[i1]? with
    | none => simp
    | some b1 =>
      simp [be16_eq b0.isLt b1.isLt]

theorem read32_eq_ok {buf : List Byte} {i0 i1 i2 i3 v : Nat} :
    read32 buf i0 i1 i2 i3 = Outcome.ok v ↔ be32Of buf i0 i1 i2 i3 = some v := by
  unfold read32 be32Of index
  cases h0 : buf[i0]? with
  | none => simp
  | some b0 =>
    cases h1 : buf[i1]? with
    | none => simp
    | some b1 =>
      cases h2 : buf[i2]? with
      | none => simp
      | some b2 =>
        cases h3 : buf[i3]? with
        | none => simp
        | some b3 =>
          simp [be32_eq b0.isLt b1.isLt b2.isLt b3.isLt]

theorem read16_noErr (buf : List Byte) (i0 i1 : Nat) : NoErr (read16 buf i0 i1) := by
  unfold read16
  exact NoErr.bind (index_noErr _ _) fun _ => NoErr.bind (index_noErr _ _) fun _ => NoErr.ok _

theorem read32_noErr (buf : List Byte) (i0 i1 i2 i3 : Nat) : NoErr (read32 buf i0 i1 i2 i3) := by
  unfold read32
  exact NoErr.bind (index_noErr _ _) fun _ => NoErr.bind (index_noErr _ _) fun _ =>
    NoErr.bind (index_noErr _ _) fun _ => NoErr.bind (index_noErr _ _) fun _ => NoErr.ok _

theorem read64_noErr (buf : List Byte) (i0 i1 i2 i3 i4 i5 i6 i7 : Nat) :
    NoErr (read64 buf i0 i1 i2 i3 i4 i5 i6 i7) := by
  unfold read64
  exact NoErr.bind (index_noErr _ _) fun _ => NoErr.bind (index_noErr _ _) fun _ =>
    NoErr.bind (index_noErr _ _) fun _ => NoErr.bind (index_noErr _ _) fun _ =>
    NoErr.bind (index_noErr _ _) fun _ => NoErr.bind (index_noErr _ _) fun _ =>
    NoErr.bind (index_noErr _ _) fun _ => NoErr.bind (index_noErr _ _) fun _ => NoErr.ok _

theorem readInt16_noErr (buf : List Byte) (i0 i1 : Nat) : NoErr (readInt16 buf i0 i1) := by
  unfold readInt16
  exact NoErr.bind (index_noErr _ _) fun _ => NoErr.bind (index_noErr _ _) fun _ => NoErr.ok _

theorem be16Of_lt_length {buf : List Byte} {i0 i1 v : Nat} (h : be16Of buf i0 i1 = some v) :
    i0 < buf.length ∧ i1 < buf.length := by
  unfold be16Of at h
  cases h0 : buf[i0]? with
  | none => simp [h0] at h
  | some b0 =>
    cases h1 : buf[i1]? with
    | none => simp [h0, h1] at h
    | some b1 =>
      exact ⟨(List.getElem?_eq_some.1 h0).1, (List.getElem?_eq_some.1 h1).1⟩

theorem be16Of_lt {buf : List Byte} {i0 i1 v : Nat} (h : be16Of buf i0 i1 = some v) :
    v < 2 ^ 16 := by
  unfold be16Of at h
  cases h0 : buf[i0]? with
  | none => simp [h0] at h
  | some b0 =>
    cases h1 : buf[i1]? with
    | none => simp [h0, h1] at h
    | some b1 =>
      simp [h0, h1] at h
      have := b0.isLt
      have := b1.isLt
      omega

theorem be32Of_lt {buf : List Byte} {i0 i1 i2 i3 v : Nat}
    (h : be32Of buf i0 i1 i2 i3 = some v) : v < 2 ^ 32 := by
  rw [← read32_eq_ok] at h
  unfold read32 at h
  simp only [bind_eq_bind, pure_eq_ok, bind_eq_ok] at h
  obtain ⟨b0, -, b1, -, b2, -, b3, -, h⟩ := h
  cases h
  exact be32_lt _ _ _ _

/-! ### Loops -/

theorem forRangeFrom_eq_ok {α : Type} {f : Nat → Outcome α} {n s : Nat} {xs : List α} :
    forRangeFrom f s n = Outcome.ok xs ↔
      xs.length = n ∧ ∀ k, k < n → ∃ x, xs[k]? = some x ∧ f (s + k) = Outcome.ok x := by
  induction n generalizing s xs with
  | zero =>
    simp only [forRangeFrom]
    constructor
    · intro h
      cases h
      simp
    · rintro ⟨h, -⟩
      rw [List.length_eq_zero.1 h]
  | succ n ih =>
    simp only [forRangeFrom, bind_eq_bind, pure_eq_ok, bind_eq_ok]
    constructor
    · rintro ⟨x, hx, ys, hys, h⟩
      cases h
      obtain ⟨hl, hk⟩ := ih.1 hys
      refine ⟨by simp [hl], ?_⟩
      intro k hk'
      cases k with
      | zero => exact ⟨x, by simp, by simpa using hx⟩
      | succ k =>
        obtain ⟨y, hy, hf⟩ := hk k (by omega)
        refine ⟨y, by simpa using hy, ?_⟩
        have e : s + (k + 1) = s + 1 + k := by omega
        rw [e]; exact hf
    · rintro ⟨hl, hk⟩
      cases xs with
      | nil => simp at hl
      | cons x ys =>
        obtain ⟨x0, hx0, hf0⟩ := hk 0 (by omega)
        simp at hx0
        subst hx0
        refine ⟨x, by simpa using hf0, ys, ?_, rfl⟩
        rw [ih]
        refine ⟨by simpa using hl, ?_⟩
        intro k hk'
        obtain ⟨y, hy, hf⟩ := hk (k + 1) (by omega)
        refine ⟨y, by simpa using hy, ?_⟩
        have e : s + 1 + k = s + (k + 1) := by omega
        rw [e]; exact hf

theorem forRange_eq_ok {α : Type} {f : Nat → Outcome α} {n : Nat} {xs : List α} :
    forRange n f = Outcome.ok xs ↔
      xs.length = n ∧ ∀ k, k < n → ∃ x, xs[k]? = some x ∧ f k = Outcome.ok x := by
  unfold forRange
  rw [forRangeFrom_eq_ok]
  simp

theorem forRangeFrom_noErr {α : Type} {f : Nat → Outcome α} (hf : ∀ k, NoErr (f k))
    (s n : Nat) : NoErr (forRangeFrom f s n) := by
  induction n generalizing s with
  | zero => simp only [forRangeFrom]; exact NoErr.ok _
  | succ n ih =>
    simp only [forRangeFrom, bind_eq_bind, pure_eq_ok]
    exact NoErr.bind (hf _) fun _ => NoErr.bind (ih _) fun _ => NoErr.ok _

theorem forRange_noErr {α : Type} {f : Nat → Outcome α} (hf : ∀ k, NoErr (f k)) (n : Nat) :
    NoErr (forRange n f) :=
  forRangeFrom_noErr hf 0 n

/-! ### The header -/

theorem exists_header_of_length {buf : List Byte} (h : 12 ≤ buf.length) :
    ∃ b0 b1 b2 b3 b4 b5 b6 b7 b8 b9 b10 b11 rest,
      buf = b0 :: b1 :: b2 :: b3 :: b4 :: b5 :: b6 :: b7 :: b8 :: b9 :: b10 :: b11 :: rest := by
  rcases buf with _ | ⟨b0, _ | ⟨b1, _ | ⟨b2, _ | ⟨b3, _ | ⟨b4, _ | ⟨b5, _ | ⟨b6, _ | ⟨b7,
    _ | ⟨b8, _ | ⟨b9, _ | ⟨b10, _ | ⟨b11, rest⟩⟩⟩⟩⟩⟩⟩⟩⟩⟩⟩⟩ <;> simp at h
  exact ⟨b0, b1, b2, b3, b4, b5, b6, b7, b8, b9, b10, b11, rest, rfl⟩

theorem readTTFInfo_cons (ttf : TTF) (b0 b1 b2 b3 b4 b5 b6 b7 b8 b9 b10 b11 : Byte)
    (rest : List Byte) :
    readTTFInfo ttf (b0 :: b1 :: b2 :: b3 :: b4 :: b5 :: b6 :: b7 :: b8 :: b9 :: b10 :: b11 :: rest) =
      if (16777216 * b0.val + 65536 * b1.val + 256 * b2.val + b3.val ≠ TTF_MAGIC ∧
          16777216 * b0.val + 65536 * b1.val + 256 * b2.val + b3.val ≠ OTF_MAGIC) then
        Outcome.err "not a ttf or otf file"
      else
        Outcome.ok { ttf with
          ScalerType := 16777216 * b0.val + 65536 * b1.val + 256 * b2.val + b3.val,
          NumTables := 256 * b4.val + b5.val,
          SearchRange := 256 * b6.val + b7.val,
          EntrySelector := 256 * b8.val + b9.val,
          RangeShift := 256 * b10.val + b11.val } := by
  simp only [readTTFInfo, read32, read16, index, List.getElem?_cons_zero, List.getElem?_cons_succ,
    bind_eq_bind, pure_eq_ok, ok_bind,
    be32_eq b0.isLt b1.isLt b2.isLt b3.isLt, be16_eq b4.isLt b5.isLt, be16_eq b6.isLt b7.isLt,
    be16_eq b8.isLt b9.isLt, be16_eq b10.isLt b11.isLt]

theorem readTTFInfo_panicked_iff (ttf : TTF) (buf : List Byte) :
    readTTFInfo ttf buf = Outcome.panicked ↔ buf.length < 12 := by
  constructor
  · intro h
    by_contra hc
    obtain ⟨b0, b1, b2, b3, b4, b5, b6, b7, b8, b9, b10, b11, rest, rfl⟩ :=
      exists_header_of_length (Nat.le_of_not_lt hc)
    rw [readTTFInfo_cons] at h
    split at h <;> cases h
  · intro h
    rcases buf with _ | ⟨b0, _ | ⟨b1, _ | ⟨b2, _ | ⟨b3, _ | ⟨b4, _ | ⟨b5, _ | ⟨b6, _ | ⟨b7,
      _ | ⟨b8, _ | ⟨b9, _ | ⟨b10, _ | ⟨b11, rest⟩⟩⟩⟩⟩⟩⟩⟩⟩⟩⟩⟩ <;>
      first
      | (simp at h; omega)
      | simp [readTTFInfo, read32, read16, index]

/-! ### The table loop -/

theorem dirTag_eq_some {buf : List Byte} {i : Nat} {t : List Byte} :
    dirTag buf i = some t ↔
      ∃ b0 b1 b2 b3, index buf (12 + i * 16) = Outcome.ok b0 ∧
        index buf (13 + i * 16) = Outcome.ok b1 ∧ index buf (14 + i * 16) = Outcome.ok b2 ∧
        index buf (15 + i * 16) = Outcome.ok b3 ∧ t = [b0, b1, b2, b3] := by
  simp only [index_eq_ok]
  unfold dirTag
  cases h0 : buf[12 + i * 16]? <;> cases h1 : buf[13 + i * 16]? <;>
    cases h2 : buf[14 + i * 16]? <;> cases h3 : buf[15 + i * 16]? <;> simp [eq_comm]

/-- One iteration of the loop of `readTTFTables`, in terms of the tag of the record. -/
theorem readTTFTablesFrom_succ (buf : List Byte) (i n : Nat) (tables : List TTFTableInfo) :
    readTTFTablesFrom buf i (n + 1) tables =
      match dirTag buf i with
      | none => Outcome.panicked
      | some t =>
        if t = cmapTag ∨ t = headTag then
          Outcome.bind (decodeRecord buf i) fun e =>
            readTTFTablesFrom buf (i + 1) n (tables ++ [e])
        else readTTFTablesFrom buf (i + 1) n tables := by
  have hne : ¬ (headTag = cmapTag) := by decide
  rcases h0 : buf[12 + i * 16]? with _ | b0
  · simp [readTTFTablesFrom, dirTag, index, h0]
  rcases h1 : buf[13 + i * 16]? with _ | b1
  · simp [readTTFTablesFrom, dirTag, index, h0, h1]
  rcases h2 : buf[14 + i * 16]? with _ | b2
  · simp [readTTFTablesFrom, dirTag, index, h0, h1, h2]
  rcases h3 : buf[15 + i * 16]? with _ | b3
  · simp [readTTFTablesFrom, dirTag, index, h0, h1, h2, h3]
  by_cases hc : [b0, b1, b2, b3] = cmapTag
  · simp [readTTFTablesFrom, decodeRecord, dirTag, index, h0, h1, h2, h3, hc]
  · by_cases hh : [b0, b1, b2, b3] = headTag
    · simp [readTTFTablesFrom, decodeRecord, dirTag, index, h0, h1, h2, h3, hh, hne]
    · simp [readTTFTablesFrom, decodeRecord, dirTag, index, h0, h1, h2, h3, hc, hh]

theorem isDecoded_iff {buf : List Byte} {i : Nat} :
    isDecoded buf i = true ↔ dirTag buf i = some cmapTag ∨ dirTag buf i = some headTag := by
  simp [isDecoded]

theorem decodedIndices_zero (buf : List Byte) (i : Nat) : decodedIndices buf i 0 = [] := by
  simp [decodedIndices]

theorem decodedIndices_succ (buf : List Byte) (i n : Nat) :
    decodedIndices buf i (n + 1) =
      if isDecoded buf i = true then i :: decodedIndices buf (i + 1) n
      else decodedIndices buf (i + 1) n := by
  simp only [decodedIndices, List.range'_succ, List.filter_cons]

/-- What the loop of `readTTFTables` returns: it returns exactly when every tag
of the records `i, ..., i+n-1` is inside the buffer and every record tagged
`cmap` or `head` decodes, and it appends the decoded records in order. -/
theorem readTTFTablesFrom_eq_ok {buf : List Byte} {n i : Nat} {tables ts : List TTFTableInfo} :
    readTTFTablesFrom buf i n tables = Outcome.ok ts ↔
      (∀ k, i ≤ k → k < i + n → (dirTag buf k).isSome = true) ∧
      ∃ new, ts = tables ++ new ∧
        List.Forall₂ (fun k e => decodeRecord buf k = Outcome.ok e) (decodedIndices buf i n) new := by
  induction n generalizing i tables with
  | zero =>
    simp only [readTTFTablesFrom, decodedIndices_zero, List.forall₂_nil_left_iff]
    constructor
    · intro h
      cases h
      exact ⟨fun k h1 h2 => by omega, [], by simp, rfl⟩
    · rintro ⟨-, new, rfl, rfl⟩
      simp
  | succ n ih =>
    rw [readTTFTablesFrom_succ, decodedIndices_succ]
    cases ht : dirTag buf i with
    | none =>
      simp only []
      constructor
      · intro h; cases h
      · rintro ⟨h, -⟩
        have := h i (Nat.le_refl _) (by omega)
        simp [ht] at this
    | some t =>
      have hsome : (∀ k, i ≤ k → k < i + (n + 1) → (dirTag buf k).isSome = true) ↔
          (∀ k, i + 1 ≤ k → k < i + 1 + n → (dirTag buf k).isSome = true) := by
        constructor
        · intro h k h1 h2
          exact h k (by omega) (by omega)
        · intro h k h1 h2
          by_cases hk : k = i
          · subst hk; simp [ht]
          · exact h k (by omega) (by omega)
      have hdec : isDecoded buf i = true ↔ (t = cmapTag ∨ t = headTag) := by
        rw [isDecoded_iff, ht]; simp
      simp only []
      by_cases hc : t = cmapTag ∨ t = headTag
      · rw [if_pos hc, if_pos (hdec.2 hc), bind_eq_ok]
        constructor
        · rintro ⟨e, he, hrest⟩
          obtain ⟨h1, new, rfl, hnew⟩ := ih.1 hrest
          exact ⟨(hsome).2 h1, e :: new, by simp, List.Forall₂.cons he hnew⟩
        · rintro ⟨h1, new, rfl, hnew⟩
          cases hnew with
          | cons he hnew' =>
            rename_i e new'
            exact ⟨e, he, ih.2 ⟨hsome.1 h1, new', by simp, hnew'⟩⟩
      · have hd : ¬ (isDecoded buf i = true) := fun h => hc (hdec.1 h)
        rw [if_neg hc, if_neg hd, ih]
        constructor
        · rintro ⟨h1, rest⟩
          exact ⟨hsome.2 h1, rest⟩
        · rintro ⟨h1, rest⟩
          exact ⟨hsome.1 h1, rest⟩

/-! ### No decoder returns an error value -/

theorem ite_noErr {α : Type} {c : Prop} [Decidable c] {x y : Outcome α}
    (hx : NoErr x) (hy : NoErr y) : NoErr (if c then x else y) := by
  split
  · exact hx
  · exact hy

theorem NoErr.bind_do {α β : Type} {x : Outcome α} {f : α → Outcome β}
    (hx : NoErr x) (hf : ∀ a, NoErr (f a)) : NoErr (x >>= f) := NoErr.bind hx hf

theorem NoErr.pure_do {α : Type} (a : α) : NoErr (pure a : Outcome α) := NoErr.ok a

theorem readFormat2_noErr (buf : List Byte) (Offset : Nat) (st : CmapSubTable) :
    NoErr (readFormat2 buf Offset st) := by
  unfold readFormat2
  refine NoErr.bind_do (forRange_noErr (fun _ => ?_) _) fun _ => ?_
  · exact NoErr.bind_do (index_noErr _ _) fun _ => NoErr.pure_do _
  refine NoErr.bind_do (forRange_noErr (fun _ => ?_) _) fun _ => ?_
  · exact NoErr.bind_do (index_noErr _ _) fun _ => NoErr.bind_do (index_noErr _ _) fun _ =>
      NoErr.bind_do (index_noErr _ _) fun _ => NoErr.bind_do (index_noErr _ _) fun _ =>
      NoErr.pure_do _
  refine NoErr.bind_do (forRange_noErr (fun _ => ?_) _) fun _ => NoErr.pure_do _
  exact NoErr.bind_do (index_noErr _ _) fun _ => NoErr.pure_do _

theorem readFormat4_noErr (buf : List Byte) (Offset : Nat) (st : CmapSubTable) :
    NoErr (readFormat4 buf Offset st) := by
  unfold readFormat4
  refine NoErr.bind_do (read16_noErr _ _ _) fun _ => ?_
  refine NoErr.bind_do (read16_noErr _ _ _) fun _ => ?_
  refine NoErr.bind_do (read16_noErr _ _ _) fun _ => ?_
  refine NoErr.bind_do (read16_noErr _ _ _) fun _ => ?_
  refine NoErr.bind_do (forRange_noErr (fun _ => read16_noErr _ _ _) _) fun _ => ?_
  refine NoErr.bind_do (read16_noErr _ _ _) fun _ => ?_
  refine NoErr.bind_do (forRange_noErr (fun _ => read16_noErr _ _ _) _) fun _ => ?_
  refine NoErr.bind_do (forRange_noErr (fun _ => read16_noErr _ _ _) _) fun _ => ?_
  exact NoErr.bind_do (forRange_noErr (fun _ => read16_noErr _ _ _) _) fun _ => NoErr.pure_do _

theorem readFormat6_noErr (buf : List Byte) (Offset : Nat) (st : CmapSubTable) :
    NoErr (readFormat6 buf Offset st) := by
  unfold readFormat6
  exact NoErr.bind_do (read16_noErr _ _ _) fun _ => NoErr.bind_do (read16_noErr _ _ _) fun _ =>
    NoErr.pure_do _

theorem readFormat8_noErr (buf : List Byte) (Offset : Nat) (st : CmapSubTable) :
    NoErr (readFormat8 buf Offset st) := by
  unfold readFormat8
  refine NoErr.bind_do (read16_noErr _ _ _) fun _ => ?_
  refine NoErr.bind_do
    (forRange_noErr (fun _ => NoErr.bind_do (index_noErr _ _) fun _ => NoErr.pure_do _) _)
    fun _ => ?_
  refine NoErr.bind_do (read32_noErr _ _ _ _ _) fun _ => ?_
  refine NoErr.bind_do (forRange_noErr (fun _ => ?_) _) fun _ => NoErr.pure_do _
  exact NoErr.bind_do (read32_noErr _ _ _ _ _) fun _ =>
    NoErr.bind_do (read32_noErr _ _ _ _ _) fun _ =>
    NoErr.bind_do (read32_noErr _ _ _ _ _) fun _ => NoErr.pure_do _

theorem readEncodingSubtable_noErr (buf : List Byte) (Offset j : Nat) :
    NoErr (readEncodingSubtable buf Offset j) := by
  unfold readEncodingSubtable
  refine NoErr.bind_do (read16_noErr _ _ _) fun _ => ?_
  refine NoErr.bind_do (read16_noErr _ _ _) fun _ => ?_
  refine NoErr.bind_do (read32_noErr _ _ _ _ _) fun _ => ?_
  refine NoErr.bind_do (read16_noErr _ _ _) fun _ => ?_
  refine NoErr.bind_do (read16_noErr _ _ _) fun _ => ?_
  refine NoErr.bind_do (read16_noErr _ _ _) fun _ => ?_
  refine NoErr.bind_do
    (forRange_noErr (fun _ => NoErr.bind_do (index_noErr _ _) fun _ => NoErr.pure_do _) _)
    fun _ => ?_
  refine ite_noErr (readFormat2_noErr _ _ _) ?_
  refine ite_noErr (readFormat4_noErr _ _ _) ?_
  refine ite_noErr (readFormat6_noErr _ _ _) ?_
  exact ite_noErr (readFormat8_noErr _ _ _) (NoErr.pure_do _)

theorem readCmapTable_noErr (buf : List Byte) (i : Nat) : NoErr (readCmapTable buf i) := by
  unfold readCmapTable
  refine NoErr.bind_do (read32_noErr _ _ _ _ _) fun _ => ?_
  refine NoErr.bind_do (read32_noErr _ _ _ _ _) fun _ => ?_
  refine NoErr.bind_do (read32_noErr _ _ _ _ _) fun _ => ?_
  refine NoErr.bind_do (read32_noErr _ _ _ _ _) fun _ => ?_
  refine NoErr.bind_do (read16_noErr _ _ _) fun _ => ?_
  refine NoErr.bind_do (read16_noErr _ _ _) fun _ => ?_
  exact NoErr.bind_do (forRange_noErr (fun _ => readEncodingSubtable_noErr _ _ _) _) fun _ =>
    NoErr.pure_do _

theorem readHeadTable_noErr (buf : List Byte) (i : Nat) : NoErr (readHeadTable buf i) := by
  unfold readHeadTable
  refine NoErr.bind_do (read32_noErr _ _ _ _ _) fun _ => ?_
  refine NoErr.bind_do (read32_noErr _ _ _ _ _) fun _ => ?_
  refine NoErr.bind_do (read32_noErr _ _ _ _ _) fun _ => ?_
  refine NoErr.bind_do (read32_noErr _ _ _ _ _) fun _ => ?_
  refine NoErr.bind_do (read32_noErr _ _ _ _ _) fun _ => ?_
  refine NoErr.bind_do (read32_noErr _ _ _ _ _) fun _ => ?_
  refine NoErr.bind_do (read32_noErr _ _ _ _ _) fun _ => ?_
  refine NoErr.bind_do (read32_noErr _ _ _ _ _) fun _ => ?_
  refine NoErr.bind_do (read16_noErr _ _ _) fun _ => ?_
  refine NoErr.bind_do (read16_noErr _ _ _) fun _ => ?_
  refine NoErr.bind_do (read64_noErr _ _ _ _ _ _ _ _ _) fun _ => ?_
  refine NoErr.bind_do (read64_noErr _ _ _ _ _ _ _ _ _) fun _ => ?_
  refine NoErr.bind_do (readInt16_noErr _ _ _) fun _ => ?_
  refine NoErr.bind_do (readInt16_noErr _ _ _) fun _ => ?_
  refine NoErr.bind_do (readInt16_noErr _ _ _) fun _ => ?_
  refine NoErr.bind_do (readInt16_noErr _ _ _) fun _ => ?_
  refine NoErr.bind_do (read16_noErr _ _ _) fun _ => ?_
  refine NoErr.bind_do (read16_noErr _ _ _) fun _ => ?_
  refine NoErr.bind_do (readInt16_noErr _ _ _) fun _ => ?_
  refine NoErr.bind_do (readInt16_noErr _ _ _) fun _ => ?_
  exact NoErr.bind_do (readInt16_noErr _ _ _) fun _ => NoErr.pure_do _

theorem decodeRecord_noErr (buf : List Byte) (i : Nat) : NoErr (decodeRecord buf i) := by
  unfold decodeRecord
  exact ite_noErr (readCmapTable_noErr _ _) (readHeadTable_noErr _ _)

theorem readTTFTablesFrom_noErr (buf : List Byte) (i n : Nat) (tables : List TTFTableInfo) :
    NoErr (readTTFTablesFrom buf i n tables) := by
  induction n generalizing i tables with
  | zero => simp only [readTTFTablesFrom]; exact NoErr.ok _
  | succ n ih =>
    rw [readTTFTablesFrom_succ]
    cases dirTag buf i with
    | none => intro m h; cases h
    | some t =>
      simp only []
      exact ite_noErr (NoErr.bind (decodeRecord_noErr _ _) fun _ => ih _ _) (ih _ _)

theorem readTTFTables_noErr (ttf : TTF) (buf : List Byte) : NoErr (readTTFTables ttf buf) := by
  unfold readTTFTables
  simp only [bind_eq_bind, pure_eq_ok]
  exact NoErr.bind (readTTFTablesFrom_noErr _ _ _ _) fun _ => NoErr.ok _

/-! ### The whole parse -/

theorem NewTTF_eq_ok {fileName : String} {buf : List Byte} {font : TTF} :
    NewTTF fileName (Outcome.ok buf) = Outcome.ok font ↔
      ∃ hdr, readTTFInfo (emptyTTF fileName) buf = Outcome.ok hdr ∧
        ∃ ts, readTTFTablesFrom buf 0 hdr.NumTables hdr.Tables = Outcome.ok ts ∧
          font = { hdr with Tables := ts } := by
  simp only [NewTTF, readTTFTables, emptyTTF, bind_eq_bind, pure_eq_ok, ok_bind, bind_eq_ok]
  constructor
  · rintro ⟨hdr, h1, t, ⟨ts, h2, h4⟩, h3⟩
    cases h3
    cases h4
    exact ⟨hdr, h1, ts, h2, rfl⟩
  · rintro ⟨hdr, h1, ts, h2, rfl⟩
    exact ⟨hdr, h1, _, ⟨ts, h2, rfl⟩, rfl⟩

theorem readTTFInfo_eq_ok {ttf hdr : TTF} {buf : List Byte}
    (h : readTTFInfo ttf buf = Outcome.ok hdr) :
    12 ≤ buf.length ∧ u32At buf 0 = some hdr.ScalerType ∧ u16At buf 4 = some hdr.NumTables ∧
      u16At buf 6 = some hdr.SearchRange ∧ u16At buf 8 = some hdr.EntrySelector ∧
      u16At buf 10 = some hdr.RangeShift ∧
      (hdr.ScalerType = TTF_MAGIC ∨ hdr.ScalerType = OTF_MAGIC) ∧
      hdr.Tables = ttf.Tables ∧ hdr.File = ttf.File := by
  have hlen : 12 ≤ buf.length := by
    by_contra hc
    rw [(readTTFInfo_panicked_iff ttf buf).2 (by omega)] at h
    cases h
  obtain ⟨b0, b1, b2, b3, b4, b5, b6, b7, b8, b9, b10, b11, rest, rfl⟩ :=
    exists_header_of_length hlen
  rw [readTTFInfo_cons] at h
  split at h
  · cases h
  · rename_i hm
    cases h
    refine ⟨hlen, ?_, ?_, ?_, ?_, ?_, ?_, rfl, rfl⟩
    · simp [u32At, be32Of]
    · simp [u16At, be16Of]
    · simp [u16At, be16Of]
    · simp [u16At, be16Of]
    · simp [u16At, be16Of]
    · simp only []
      by_contra hc
      exact hm ⟨fun h => hc (Or.inl h), fun h => hc (Or.inr h)⟩

theorem forall₂_exists_of_mem_right {α β : Type} {R : α → β → Prop} {l1 : List α}
    {l2 : List β} (h : List.Forall₂ R l1 l2) {b : β} (hb : b ∈ l2) : ∃ a, a ∈ l1 ∧ R a b := by
  induction h with
  | nil => cases hb
  | @cons a0 b0 l1 l2 hr _ ih =>
    rcases List.mem_cons.1 hb with rfl | hb'
    · exact ⟨a0, List.mem_cons_self _ _, hr⟩
    · obtain ⟨a, ha, hab⟩ := ih hb'
      exact ⟨a, List.mem_cons_of_mem _ ha, hab⟩

theorem mem_decodedIndices {buf : List Byte} {i n k : Nat} :
    k ∈ decodedIndices buf i n ↔
      (i ≤ k ∧ k < i + n) ∧ (dirTag buf k = some cmapTag ∨ dirTag buf k = some headTag) := by
  simp [decodedIndices, List.mem_filter, List.mem_range', isDecoded_iff]
  intro _
  constructor
  · rintro ⟨j, hj, rfl⟩; omega
  · rintro ⟨h1, h2⟩; exact ⟨k - i, by omega, by omega⟩

/-- The tables of a parsed font: the header fields come from `readTTFInfo`, and
the tables are the decoded records, in directory order. -/
theorem NewTTF_tables {fileName : String} {buf : List Byte} {font : TTF}
    (h : NewTTF fileName (Outcome.ok buf) = Outcome.ok font) :
    (∃ hdr, readTTFInfo (emptyTTF fileName) buf = Outcome.ok hdr ∧
        font = { hdr with Tables := font.Tables }) ∧
      (∀ k, k < font.NumTables → (dirTag buf k).isSome = true) ∧
      List.Forall₂ (fun k e => decodeRecord buf k = Outcome.ok e)
        (decodedIndices buf 0 font.NumTables) font.Tables := by
  obtain ⟨hdr, h1, ts, h2, rfl⟩ := NewTTF_eq_ok.1 h
  obtain ⟨h3, new, rfl, hnew⟩ := readTTFTablesFrom_eq_ok.1 h2
  have ht : hdr.Tables = [] := (readTTFInfo_eq_ok h1).2.2.2.2.2.2.2.1
  refine ⟨⟨hdr, h1, rfl⟩, ?_, ?_⟩
  · intro k hk
    exact h3 k (Nat.zero_le _) (by simpa using hk)
  · simpa [ht] using hnew

/-- Every table of a parsed font was decoded from a directory record below
`NumTables` whose tag is `cmap` or `head`, by the decoder of that tag. -/
theorem NewTTF_mem_tables {fileName : String} {buf : List Byte} {font : TTF}
    (h : NewTTF fileName (Outcome.ok buf) = Outcome.ok font) {e : TTFTableInfo}
    (he : e ∈ font.Tables) :
    ∃ i, i < font.NumTables ∧
      ((dirTag buf i = some cmapTag ∧ readCmapTable buf i = Outcome.ok e) ∨
       (dirTag buf i = some headTag ∧ readHeadTable buf i = Outcome.ok e)) := by
  obtain ⟨-, -, hall⟩ := NewTTF_tables h
  obtain ⟨i, hi, hdec⟩ := forall₂_exists_of_mem_right hall he
  obtain ⟨⟨-, hlt⟩, htag⟩ := mem_decodedIndices.1 hi
  refine ⟨i, by omega, ?_⟩
  unfold decodeRecord at hdec
  rcases htag with hc | hh
  · left
    rw [if_pos hc] at hdec
    exact ⟨hc, hdec⟩
  · right
    have hne : ¬ (dirTag buf i = some cmapTag) := by
      rw [hh]; decide
    rw [if_neg hne] at hdec
    exact ⟨hh, hdec⟩

/-! ### Inversion of the two table decoders -/

theorem readCmapTable_eq_ok {buf : List Byte} {i : Nat} {ti : TTFTableInfo} :
    readCmapTable buf i = Outcome.ok ti ↔
      ∃ Tag, be32Of buf (12 + i * 16) (13 + i * 16) (14 + i * 16) (15 + i * 16) = some Tag ∧
      ∃ CheckSum, be32Of buf (16 + i * 16) (17 + i * 16) (18 + i * 16) (19 + i * 16)
        = some CheckSum ∧
      ∃ Offset, be32Of buf (20 + i * 16) (21 + i * 16) (22 + i * 16) (23 + i * 16)
        = some Offset ∧
      ∃ Length, be32Of buf (24 + i * 16) (25 + i * 16) (26 + i * 16) (27 + i * 16)
        = some Length ∧
      ∃ Version, be16Of buf (u32 (Offset + 0)) (u32 (Offset + 1)) = some Version ∧
      ∃ NumberSubtables, be16Of buf (u32 (Offset + 2)) (u32 (Offset + 3))
        = some NumberSubtables ∧
      ∃ subs, forRange NumberSubtables (fun j => readEncodingSubtable buf Offset j)
        = Outcome.ok subs ∧
      ti = { Tag := Tag, CheckSum := CheckSum, Offset := Offset, Length := Length,
             Table := TTFTable.cmap { Version := Version, NumberSubtables := NumberSubtables,
                                      EncodingSubtables := subs } } := by
  simp only [readCmapTable, bind_eq_bind, pure_eq_ok, bind_eq_ok, read32_eq_ok, read16_eq_ok,
    Outcome.ok.injEq, eq_comm (a := ti)]

theorem u32_of_lt {n : Nat} (h : n < 2 ^ 32) : u32 n = n := Nat.mod_eq_of_lt h

/-- The decoder `readHeadTable` reads the directory record `i` and the 54 bytes
at positions 0..53 of the buffer. -/
theorem readHeadTable_eq_ok {buf : List Byte} {i : Nat} {ti : TTFTableInfo} :
    readHeadTable buf i = Outcome.ok ti ↔
      ∃ Tag, be32Of buf (12 + i * 16) (13 + i * 16) (14 + i * 16) (15 + i * 16) = some Tag ∧
      ∃ CheckSum, be32Of buf (16 + i * 16) (17 + i * 16) (18 + i * 16) (19 + i * 16)
        = some CheckSum ∧
      ∃ Offset, be32Of buf (20 + i * 16) (21 + i * 16) (22 + i * 16) (23 + i * 16)
        = some Offset ∧
      ∃ Length, be32Of buf (24 + i * 16) (25 + i * 16) (26 + i * 16) (27 + i * 16)
        = some Length ∧
      ∃ Version, read32 buf 0 1 2 3 = Outcome.ok Version ∧
      ∃ FontRevision, read32 buf 4 5 6 7 = Outcome.ok FontRevision ∧
      ∃ CheckSumAdjustment, read32 buf 8 9 10 11 = Outcome.ok CheckSumAdjustment ∧
      ∃ MagicNumber, read32 buf 12 13 14 15 = Outcome.ok MagicNumber ∧
      ∃ Flags, read16 buf 16 17 = Outcome.ok Flags ∧
      ∃ UnitPerEm, read16 buf 18 19 = Outcome.ok UnitPerEm ∧
      ∃ Created, read64 buf 20 21 22 23 24 25 26 27 = Outcome.ok Created ∧
      ∃ Modified, read64 buf 28 29 30 31 32 33 34 35 = Outcome.ok Modified ∧
      ∃ XMin, readInt16 buf 36 37 = Outcome.ok XMin ∧
      ∃ YMin, readInt16 buf 38 39 = Outcome.ok YMin ∧
      ∃ XMax, readInt16 buf 40 41 = Outcome.ok XMax ∧
      ∃ YMax, readInt16 buf 42 43 = Outcome.ok YMax ∧
      ∃ MacStyle, read16 buf 44 45 = Outcome.ok MacStyle ∧
      ∃ LowestRecPPEM, read16 buf 46 47 = Outcome.ok LowestRecPPEM ∧
      ∃ FontDirectionHint, readInt16 buf 48 49 = Outcome.ok FontDirectionHint ∧
      ∃ IndexToLocFormat, readInt16 buf 50 51 = Outcome.ok IndexToLocFormat ∧
      ∃ GlyphDataFormat, readInt16 buf 52 53 = Outcome.ok GlyphDataFormat ∧
      ti = { Tag := Tag, CheckSum := CheckSum, Offset := Offset, Length := Length,
             Table := TTFTable.head
               { Version := Version, FontRevision := FontRevision, CheckSumAdjustment :=
                 CheckSumAdjustment, MagicNumber := MagicNumber, Flags := Flags, UnitPerEm :=
                 UnitPerEm, Created := Created, Modified := Modified, XMin := XMin, YMin :=
                 YMin, XMax := XMax, YMax := YMax, MacStyle := MacStyle, LowestRecPPEM :=
                 LowestRecPPEM, FontDirectionHint := FontDirectionHint, IndexToLocFormat :=
                 IndexToLocFormat, GlyphDataFormat := GlyphDataFormat } } := by
  have e : ∀ n, n < 54 → u32 (0 + n) = n := by
    intro n hn
    rw [Nat.zero_add]
    exact u32_of_lt (by omega)
  simp only [readHeadTable, bind_eq_bind, pure_eq_ok, bind_eq_ok, read32_eq_ok,
    Outcome.ok.injEq, eq_comm (a := ti)]
  simp only [e 0 (by decide), e 1 (by decide), e 2 (by decide), e 3 (by decide), e 4 (by decide), e 5 (by decide), e 6 (by decide), e 7 (by decide), e 8 (by decide), e 9 (by decide), e 10 (by decide), e 11 (by decide), e 12 (by decide), e 13 (by decide), e 14 (by decide), e 15 (by decide), e 16 (by decide), e 17 (by decide), e 18 (by decide), e 19 (by decide), e 20 (by decide), e 21 (by decide), e 22 (by decide), e 23 (by decide), e 24 (by decide), e 25 (by decide), e 26 (by decide), e 27 (by decide), e 28 (by decide), e 29 (by decide), e 30 (by decide), e 31 (by decide), e 32 (by decide), e 33 (by decide), e 34 (by decide), e 35 (by decide), e 36 (by decide), e 37 (by decide), e 38 (by decide), e 39 (by decide), e 40 (by decide), e 41 (by decide), e 42 (by decide), e 43 (by decide), e 44 (by decide), e 45 (by decide), e 46 (by decide), e 47 (by decide), e 48 (by decide), e 49 (by decide), e 50 (by decide), e 51 (by decide), e 52 (by decide), e 53 (by decide)]

theorem readHeadTable_ok {buf : List Byte} {i : Nat} {ti : TTFTableInfo}
    (h : readHeadTable buf i = Outcome.ok ti) :
    be32Of buf (12 + i * 16) (13 + i * 16) (14 + i * 16) (15 + i * 16) = some ti.Tag ∧
    be32Of buf (16 + i * 16) (17 + i * 16) (18 + i * 16) (19 + i * 16) = some ti.CheckSum ∧
    be32Of buf (20 + i * 16) (21 + i * 16) (22 + i * 16) (23 + i * 16) = some ti.Offset ∧
    be32Of buf (24 + i * 16) (25 + i * 16) (26 + i * 16) (27 + i * 16) = some ti.Length ∧
    (∃ t, ti.Table = TTFTable.head t) ∧ 54 ≤ buf.length := by
  obtain ⟨Tag, hTag, CheckSum, hCk, Offset, hOff, Length, hLen, _, _, _, _, _, _, _, _, _, _,
    _, _, _, _, _, _, _, _, _, _, _, _, _, _, _, _, _, _, _, _, _, _, gdf, hg, rfl⟩ :=
    readHeadTable_eq_ok.1 h
  refine ⟨hTag, hCk, hOff, hLen, ⟨_, rfl⟩, ?_⟩
  simp only [readInt16, bind_eq_bind, pure_eq_ok, bind_eq_ok] at hg
  obtain ⟨b0, -, b1, hb1, -⟩ := hg
  have := lt_of_index_ok hb1
  omega

theorem u32At_of_be32Of {buf : List Byte} {i0 i1 i2 i3 v : Nat} (p : Nat)
    (h : be32Of buf i0 i1 i2 i3 = some v) (h0 : i0 = p) (h1 : i1 = p + 1) (h2 : i2 = p + 2)
    (h3 : i3 = p + 3) : u32At buf p = some v := by
  subst h0 h1 h2 h3
  exact h

theorem dirTag_of_be32Of {buf : List Byte} {i Tag : Nat}
    (h : be32Of buf (12 + i * 16) (13 + i * 16) (14 + i * 16) (15 + i * 16) = some Tag) :
    dirTag buf i = some (PrintTagName Tag) := by
  rw [← read32_eq_ok] at h
  simp only [read32, bind_eq_bind, pure_eq_ok, bind_eq_ok, Outcome.ok.injEq] at h
  obtain ⟨b0, h0, b1, h1, b2, h2, b3, h3, rfl⟩ := h
  rw [PrintTagName_be32, dirTag_eq_some]
  exact ⟨b0, b1, b2, b3, h0, h1, h2, h3, rfl⟩

theorem NewTTF_eq_err {fileName : String} {buf : List Byte} {m : String}
    (h : NewTTF fileName (Outcome.ok buf) = Outcome.err m) :
    m = "not a ttf or otf file" ∧ 12 ≤ buf.length ∧
      ∃ s, u32At buf 0 = some s ∧ s ≠ TTF_MAGIC ∧ s ≠ OTF_MAGIC := by
  simp only [NewTTF, bind_eq_bind, ok_bind, pure_eq_ok] at h
  rw [show ({ File := fileName, Tables := [] } : TTF) = emptyTTF fileName from rfl] at h
  rcases bind_eq_err.1 h with h1 | ⟨hdr, -, h2⟩
  · have hlen : 12 ≤ buf.length := by
      by_contra hc
      rw [(readTTFInfo_panicked_iff _ buf).2 (by omega)] at h1
      cases h1
    obtain ⟨b0, b1, b2, b3, b4, b5, b6, b7, b8, b9, b10, b11, rest, rfl⟩ :=
      exists_header_of_length hlen
    rw [readTTFInfo_cons] at h1
    split at h1
    · rename_i hm
      cases h1
      exact ⟨rfl, hlen, _, by simp [u32At, be32Of], hm.1, hm.2⟩
    · cases h1
  · rcases bind_eq_err.1 h2 with h3 | ⟨t, -, h3⟩
    · exact absurd h3 (readTTFTables_noErr _ _ _)
    · cases h3

/-! ### Inversion of the subtable decoder -/

theorem readFormat2_base {buf : List Byte} {Offset : Nat} {s st : CmapSubTable}
    (h : readFormat2 buf Offset s = Outcome.ok st) : beforeSwitch st = beforeSwitch s := by
  simp only [readFormat2, bind_eq_bind, pure_eq_ok, bind_eq_ok] at h
  obtain ⟨_, -, _, -, _, -, h⟩ := h
  cases h
  rfl

theorem readFormat4_base {buf : List Byte} {Offset : Nat} {s st : CmapSubTable}
    (h : readFormat4 buf Offset s = Outcome.ok st) : beforeSwitch st = beforeSwitch s := by
  simp only [readFormat4, bind_eq_bind, pure_eq_ok, bind_eq_ok] at h
  obtain ⟨_, -, _, -, _, -, _, -, _, -, _, -, _, -, _, -, _, -, h⟩ := h
  cases h
  rfl

theorem readFormat6_base {buf : List Byte} {Offset : Nat} {s st : CmapSubTable}
    (h : readFormat6 buf Offset s = Outcome.ok st) : beforeSwitch st = beforeSwitch s := by
  simp only [readFormat6, bind_eq_bind, pure_eq_ok, bind_eq_ok] at h
  obtain ⟨_, -, _, -, h⟩ := h
  cases h
  rfl

theorem readFormat8_base {buf : List Byte} {Offset : Nat} {s st : CmapSubTable}
    (h : readFormat8 buf Offset s = Outcome.ok st) : beforeSwitch st = beforeSwitch s := by
  simp only [readFormat8, bind_eq_bind, pure_eq_ok, bind_eq_ok] at h
  obtain ⟨_, -, _, -, _, -, _, -, h⟩ := h
  cases h
  rfl

/-- What a decoded subtable holds: the encoding record `j` of the table at
`Offset`, the preamble at `Offset + SubOffset`, the glyph index array after
it, and the result of the branch its format selects. -/
theorem readEncodingSubtable_ok {buf : List Byte} {Offset j : Nat} {st : CmapSubTable}
    (h : readEncodingSubtable buf Offset j = Outcome.ok st) :
    be16Of buf (u32 (Offset + 4 + j * 8)) (u32 (Offset + 5 + j * 8)) = some st.PlatformID ∧
    be16Of buf (u32 (Offset + 6 + j * 8)) (u32 (Offset + 7 + j * 8)) = some st.EncodingID ∧
    be32Of buf (u32 (Offset + 8 + j * 8)) (u32 (Offset + 9 + j * 8))
      (u32 (Offset + 10 + j * 8)) (u32 (Offset + 11 + j * 8)) = some st.SubOffset ∧
    be16Of buf (u32 (Offset + st.SubOffset + 0)) (u32 (Offset + st.SubOffset + 1))
      = some st.Format ∧
    be16Of buf (u32 (Offset + st.SubOffset + 2)) (u32 (Offset + st.SubOffset + 3))
      = some st.Length ∧
    be16Of buf (u32 (Offset + st.SubOffset + 4)) (u32 (Offset + st.SubOffset + 5))
      = some st.Language ∧
    (forRange (u16 (st.Length + 2 ^ 16 - 6)) fun k =>
        Outcome.bind (index buf (Offset + st.SubOffset + 6 + k)) fun b => Outcome.ok b.val)
      = Outcome.ok st.GlyphIndexArray ∧
    (if st.Format = 2 then readFormat2 buf Offset (beforeSwitch st)
     else if st.Format = 4 then readFormat4 buf Offset (beforeSwitch st)
     else if st.Format = 6 then readFormat6 buf Offset (beforeSwitch st)
     else if st.Format = 8 then readFormat8 buf Offset (beforeSwitch st)
     else Outcome.ok (beforeSwitch st)) = Outcome.ok st := by
  simp only [readEncodingSubtable, bind_eq_bind, pure_eq_ok, bind_eq_ok, read16_eq_ok,
    read32_eq_ok] at h
  obtain ⟨P, hP, E, hE, S, hS, F, hF, L, hL, La, hLa, G, hG, hsw⟩ := h
  have hb : beforeSwitch st =
      { PlatformID := P, EncodingID := E, SubOffset := S, Format := F, Length := L,
        Language := La, GlyphIndexArray := G } := by
    split_ifs at hsw
    · exact readFormat2_base hsw
    · exact readFormat4_base hsw
    · exact readFormat6_base hsw
    · exact readFormat8_base hsw
    · cases hsw; rfl
  have e1 : st.PlatformID = P := congrArg CmapSubTable.PlatformID hb
  have e2 : st.EncodingID = E := congrArg CmapSubTable.EncodingID hb
  have e3 : st.SubOffset = S := congrArg CmapSubTable.SubOffset hb
  have e4 : st.Format = F := congrArg CmapSubTable.Format hb
  have e5 : st.Length = L := congrArg CmapSubTable.Length hb
  have e6 : st.Language = La := congrArg CmapSubTable.Language hb
  have e7 : st.GlyphIndexArray = G := congrArg CmapSubTable.GlyphIndexArray hb
  rw [hb, e1, e2, e3, e4, e5, e6, e7]
  exact ⟨hP, hE, hS, hF, hL, hLa, hG, hsw⟩

/-- The subtables of a decoded cmap table are the decoded encoding records
`0, ..., NumberSubtables - 1`, in order. -/
theorem readCmapTable_subtables {buf : List Byte} {i : Nat} {ti : TTFTableInfo}
    (h : readCmapTable buf i = Outcome.ok ti) :
    ∃ c, ti.Table = TTFTable.cmap c ∧
      be16Of buf (u32 (ti.Offset + 0)) (u32 (ti.Offset + 1)) = some c.Version ∧
      be16Of buf (u32 (ti.Offset + 2)) (u32 (ti.Offset + 3)) = some c.NumberSubtables ∧
      c.EncodingSubtables.length = c.NumberSubtables ∧
      ∀ j, j < c.NumberSubtables → ∃ st, c.EncodingSubtables[j]? = some st ∧
        readEncodingSubtable buf ti.Offset j = Outcome.ok st := by
  obtain ⟨Tag, -, CheckSum, -, Offset, -, Length, -, Version, hV, N, hN, subs, hsubs, rfl⟩ :=
    readCmapTable_eq_ok.1 h
  obtain ⟨hlen, hk⟩ := forRange_eq_ok.1 hsubs
  exact ⟨_, rfl, hV, hN, hlen, hk⟩

theorem readCmapTable_offset_lt {buf : List Byte} {i : Nat} {ti : TTFTableInfo}
    (h : readCmapTable buf i = Outcome.ok ti) : ti.Offset < buf.length := by
  obtain ⟨Tag, -, CheckSum, -, Offset, hOff, Length, -, Version, hV, N, -, subs, -, rfl⟩ :=
    readCmapTable_eq_ok.1 h
  have h0 := (be16Of_lt_length hV).1
  rw [Nat.add_zero, u32_of_lt (be32Of_lt hOff)] at h0
  exact h0

/-! ### Words at positions -/

theorem u16AtMod_of_be16Of {buf : List Byte} {i0 i1 v : Nat} (p : Nat)
    (h : be16Of buf (u32 i0) (u32 i1) = some v) (h0 : i0 = p) (h1 : i1 = p + 1) :
    u16AtMod buf p = some v := by
  subst h0 h1
  exact h

theorem u32AtMod_of_be32Of {buf : List Byte} {i0 i1 i2 i3 v : Nat} (p : Nat)
    (h : be32Of buf (u32 i0) (u32 i1) (u32 i2) (u32 i3) = some v) (h0 : i0 = p)
    (h1 : i1 = p + 1) (h2 : i2 = p + 2) (h3 : i3 = p + 3) : u32AtMod buf p = some v := by
  subst h0 h1 h2 h3
  exact h

theorem u16AtMod_eq_u16At (buf : List Byte) {p : Nat} (h : p + 1 < 2 ^ 32) :
    u16AtMod buf p = u16At buf p := by
  unfold u16AtMod u16At
  rw [Nat.mod_eq_of_lt (by omega : p < 2 ^ 32), Nat.mod_eq_of_lt h]

theorem u32AtMod_eq_u32At (buf : List Byte) {p : Nat} (h : p + 3 < 2 ^ 32) :
    u32AtMod buf p = u32At buf p := by
  unfold u32AtMod u32At
  rw [Nat.mod_eq_of_lt (by omega : p < 2 ^ 32), Nat.mod_eq_of_lt (by omega : p + 1 < 2 ^ 32),
    Nat.mod_eq_of_lt (by omega : p + 2 < 2 ^ 32), Nat.mod_eq_of_lt h]

/-! ### Evaluation on the concrete buffers -/

set_option maxRecDepth 100000 in
theorem NewTTF_format4Font :
    NewTTF "format4.ttf" (Outcome.ok format4Font) = Outcome.ok format4FontParsed := by
  decide

theorem NewTTF_oversizeCmapFont :
    NewTTF "cmap.ttf" (Outcome.ok oversizeCmapFont) = Outcome.ok oversizeCmapFontParsed := by
  decide

set_option maxRecDepth 100000 in
theorem NewTTF_shiftedHeadFont :
    NewTTF "head.ttf" (Outcome.ok shiftedHeadFont) = Outcome.ok shiftedHeadFontParsed := by
  decide

set_option maxRecDepth 100000 in
theorem readCmapTable_format4Font :
    readCmapTable format4Font 0 = Outcome.ok format4Entry := by
  decide

/-! ### The buffer of `2^32 + 1` bytes

The evaluation goes through `GiantShape`, so that no proof has to unfold the
buffer itself. -/

theorem giantFont_shape : GiantShape giantFont := by
  have hl : giantPrefix.length = 28 := rfl
  refine ⟨?_, ?_, ?_⟩
  · intro i h
    unfold giantFont
    exact List.getElem?_append_left (by rw [hl]; exact h)
  · intro i h1 h2
    unfold giantFont
    rw [List.getElem?_append_right (by rw [hl]; exact h1), hl,
      List.getElem?_append_left (by rw [List.length_replicate]; omega)]
    exact List.getElem?_replicate_of_lt (by omega)
  · unfold giantFont
    rw [List.getElem?_append_right (by rw [hl]; omega), hl,
      List.getElem?_append_right
        (by rw [List.length_replicate] :
          (List.replicate 4294967268 (0 : Byte)).length ≤ 4294967296 - 28),
      List.length_replicate]
    rfl

theorem be32Of_of_giantShape {buf : List Byte} (h : GiantShape buf) {i0 i1 i2 i3 : Nat}
    (h0 : i0 < 28) (h1 : i1 < 28) (h2 : i2 < 28) (h3 : i3 < 28) :
    be32Of buf i0 i1 i2 i3 = be32Of giantPrefix i0 i1 i2 i3 := by
  unfold be32Of
  rw [h.1 i0 h0, h.1 i1 h1, h.1 i2 h2, h.1 i3 h3]

theorem be16Of_of_giantShape {buf : List Byte} (h : GiantShape buf) {i0 i1 : Nat}
    (h0 : i0 < 28) (h1 : i1 < 28) :
    be16Of buf i0 i1 = be16Of giantPrefix i0 i1 := by
  unfold be16Of
  rw [h.1 i0 h0, h.1 i1 h1]

theorem readTTFInfo_congr (ttf : TTF) {buf buf2 : List Byte}
    (h : ∀ i, i < 12 → buf[i]? = buf2[i]?) : readTTFInfo ttf buf = readTTFInfo ttf buf2 := by
  simp only [readTTFInfo, read32, read16, index, h 0 (by decide), h 1 (by decide),
    h 2 (by decide), h 3 (by decide), h 4 (by decide), h 5 (by decide), h 6 (by decide),
    h 7 (by decide), h 8 (by decide), h 9 (by decide), h 10 (by decide), h 11 (by decide)]

theorem readTTFInfo_of_giantShape {buf : List Byte} (h : GiantShape buf) :
    readTTFInfo (emptyTTF "giant.ttf") buf =
      Outcome.ok { File := "giant.ttf", ScalerType := 65536, NumTables := 1, SearchRange := 16,
                   Tables := [] } := by
  rw [readTTFInfo_congr _ (fun i hi => h.1 i (by omega))]
  decide

theorem readCmapTable_of_giantShape {buf : List Byte} (h : GiantShape buf) :
    readCmapTable buf 0 =
      Outcome.ok { Tag := 0x636D6170, CheckSum := 0, Offset := 0xFFFFFFFD, Length := 4,
                   Table := TTFTable.cmap
                     { Version := 0, NumberSubtables := 0, EncodingSubtables := [] } } := by
  rw [readCmapTable_eq_ok]
  refine ⟨0x636D6170, ?_, 0, ?_, 0xFFFFFFFD, ?_, 4, ?_, 0, ?_, 0, ?_, [], rfl, rfl⟩
  · rw [be32Of_of_giantShape h (by decide) (by decide) (by decide) (by decide)]; decide
  · rw [be32Of_of_giantShape h (by decide) (by decide) (by decide) (by decide)]; decide
  · rw [be32Of_of_giantShape h (by decide) (by decide) (by decide) (by decide)]; decide
  · rw [be32Of_of_giantShape h (by decide) (by decide) (by decide) (by decide)]; decide
  · have e0 : u32 (0xFFFFFFFD + 0) = 4294967293 := by decide
    have e1 : u32 (0xFFFFFFFD + 1) = 4294967294 := by decide
    rw [e0, e1]
    unfold be16Of
    rw [h.2.1 _ (by omega) (by omega), h.2.1 _ (by omega) (by omega)]
    rfl
  · have e0 : u32 (0xFFFFFFFD + 2) = 4294967295 := by decide
    have e1 : u32 (0xFFFFFFFD + 3) = 0 := by decide
    rw [e0, e1]
    unfold be16Of
    rw [h.2.1 _ (by omega) (by omega), h.1 0 (by omega)]
    rfl

theorem dirTag_of_giantShape {buf : List Byte} (h : GiantShape buf) :
    dirTag buf 0 = some cmapTag := by
  unfold dirTag
  rw [h.1 _ (by decide), h.1 _ (by decide), h.1 _ (by decide), h.1 _ (by decide)]
  rfl

theorem NewTTF_of_giantShape {buf : List Byte} (h : GiantShape buf) :
    NewTTF "giant.ttf" (Outcome.ok buf) = Outcome.ok giantFontParsed := by
  rw [NewTTF_eq_ok]
  refine ⟨_, readTTFInfo_of_giantShape h, giantFontParsed.Tables, ?_, rfl⟩
  rw [readTTFTablesFrom_eq_ok]
  refine ⟨?_, giantFontParsed.Tables, rfl, ?_⟩
  · intro k _ hk
    have hk0 : k = 0 := by
      have : k < 0 + 1 := hk
      omega
    rw [hk0, dirTag_of_giantShape h]
    rfl
  · have hd : decodedIndices buf 0 1 = [0] := by
      rw [decodedIndices_succ, decodedIndices_zero,
        if_pos (isDecoded_iff.2 (Or.inl (dirTag_of_giantShape h)))]
    have hdec : decodeRecord buf 0 = readCmapTable buf 0 := by
      unfold decodeRecord
      rw [if_pos (dirTag_of_giantShape h)]
    show List.Forall₂ _ (decodedIndices buf 0 1) giantFontParsed.Tables
    rw [hd]
    refine List.Forall₂.cons ?_ List.Forall₂.nil
    rw [hdec]
    exact readCmapTable_of_giantShape h

theorem u16At_of_giantShape {buf : List Byte} (h : GiantShape buf) :
    u16At buf (0xFFFFFFFD + 2) = some 5 := by
  unfold u16At be16Of
  have e0 : 0xFFFFFFFD + 2 = 4294967295 := by decide
  have e1 : 4294967295 + 1 = 4294967296 := by decide
  rw [e0, e1, h.2.1 _ (by omega) (by omega), h.2.2]
  rfl

set_option maxRecDepth 100000 in
theorem NewTTF_wrappedFormat4Font :
    NewTTF "wrapped.ttf" (Outcome.ok wrappedFormat4Font) =
      Outcome.ok wrappedFormat4FontParsed := by
  decide

/-! ### The format-4 branch -/

theorem forRange_read16_mod {buf : List Byte} {n : Nat} {f g : Nat → Nat} {xs : List Nat}
    (h : forRange n (fun k => read16 buf (u32 (f k)) (u32 (g k))) = Outcome.ok xs)
    (p : Nat → Nat) (hf : ∀ k, f k = p k) (hg : ∀ k, g k = p k + 1) :
    xs.length = n ∧ ∀ k, k < n → ∃ x, xs[k]? = some x ∧ u16AtMod buf (p k) = some x := by
  obtain ⟨hl, hk⟩ := forRange_eq_ok.1 h
  refine ⟨hl, fun k hkn => ?_⟩
  obtain ⟨x, hx, hr⟩ := hk k hkn
  exact ⟨x, hx, u16AtMod_of_be16Of _ (read16_eq_ok.1 hr) (hf k) (hg k)⟩

theorem readFormat4_layout {buf : List Byte} {Offset : Nat} {s st : CmapSubTable}
    (h : readFormat4 buf Offset s = Outcome.ok st) :
    Format4Layout (u16AtMod buf) (Offset + s.SubOffset) st := by
  simp only [readFormat4, bind_eq_bind, pure_eq_ok, bind_eq_ok, read16_eq_ok] at h
  obtain ⟨X2, hX2, SR, -, ES, -, RS, -, EC, hEC, RP, hRP, SC, hSC, ID, hID, IRO, hIRO, h⟩ := h
  cases h
  unfold Format4Layout
  dsimp only
  obtain ⟨hEC1, hEC2⟩ := forRange_read16_mod hEC (fun k => Offset + s.SubOffset + 14 + 2 * k)
    (fun k => by simp only []; omega) (fun k => by simp only []; omega)
  obtain ⟨hSC1, hSC2⟩ := forRange_read16_mod hSC
    (fun k => Offset + s.SubOffset + 16 + 2 * (X2 / 2) + 2 * k)
    (fun k => by simp only []; omega) (fun k => by simp only []; omega)
  obtain ⟨hID1, hID2⟩ := forRange_read16_mod hID
    (fun k => Offset + s.SubOffset + 16 + 4 * (X2 / 2) + 2 * k)
    (fun k => by simp only []; omega) (fun k => by simp only []; omega)
  obtain ⟨hIRO1, hIRO2⟩ := forRange_read16_mod hIRO
    (fun k => Offset + s.SubOffset + 16 + 6 * (X2 / 2) + 2 * k)
    (fun k => by simp only []; omega) (fun k => by simp only []; omega)
  exact ⟨hEC1, hSC1, hID1, hIRO1, u16AtMod_of_be16Of _ hX2 rfl rfl,
    u16AtMod_of_be16Of _ hRP (by omega) (by omega),
    fun k hk => ⟨hEC2 k hk, hSC2 k hk, hID2 k hk, hIRO2 k hk⟩⟩

theorem Format4Layout_of_mod {buf : List Byte} {base : Nat} {st : CmapSubTable}
    (h : Format4Layout (u16AtMod buf) base st)
    (hb : base + 16 + 8 * (st.SegCountX2 / 2) ≤ 2 ^ 32) :
    Format4Layout (u16At buf) base st := by
  obtain ⟨h1, h2, h3, h4, h5, h6, h7⟩ := h
  refine ⟨h1, h2, h3, h4, ?_, ?_, ?_⟩
  · rw [← u16AtMod_eq_u16At buf (by omega)]; exact h5
  · rw [← u16AtMod_eq_u16At buf (by omega)]; exact h6
  · intro k hk
    obtain ⟨⟨a, ha, ha2⟩, ⟨b, hb1, hb2⟩, ⟨c, hc, hc2⟩, ⟨d, hd, hd2⟩⟩ := h7 k hk
    refine ⟨⟨a, ha, ?_⟩, ⟨b, hb1, ?_⟩, ⟨c, hc, ?_⟩, ⟨d, hd, ?_⟩⟩
    · rw [← u16AtMod_eq_u16At buf (by omega)]; exact ha2
    · rw [← u16AtMod_eq_u16At buf (by omega)]; exact hb2
    · rw [← u16AtMod_eq_u16At buf (by omega)]; exact hc2
    · rw [← u16AtMod_eq_u16At buf (by omega)]; exact hd2

/-! ### Truncated buffers

Every function of the package, run on a prefix of a buffer, panics or returns
what it returns on the whole buffer. -/

theorem PanicsOrEq.refl {α : Type} (x : Outcome α) : Outcome.PanicsOrEq x x := Or.inr rfl

theorem PanicsOrEq.seq {α β : Type} {x y : Outcome α} {f g : α → Outcome β}
    (hx : Outcome.PanicsOrEq x y) (hf : ∀ a, Outcome.PanicsOrEq (f a) (g a)) :
    Outcome.PanicsOrEq (x >>= f) (y >>= g) := by
  rcases hx with hx | hx
  · left
    rw [hx]
    rfl
  · rw [hx]
    cases y with
    | ok a => exact hf a
    | err m => right; rfl
    | panicked => left; rfl

theorem PanicsOrEq.ite {α : Type} {c : Prop} [Decidable c] {x y x2 y2 : Outcome α}
    (hx : Outcome.PanicsOrEq x x2) (hy : Outcome.PanicsOrEq y y2) :
    Outcome.PanicsOrEq (if c then x else y) (if c then x2 else y2) := by
  split
  · exact hx
  · exact hy

theorem index_extend {buf buf2 : List Byte} (h : buf <+: buf2) (i : Nat) :
    Outcome.PanicsOrEq (index buf i) (index buf2 i) := by
  obtain ⟨t, rfl⟩ := h
  by_cases hi : i < buf.length
  · right
    unfold index
    rw [List.getElem?_append_left hi]
  · left
    exact index_eq_panicked.2 (Nat.le_of_not_lt hi)

theorem read16_extend {buf buf2 : List Byte} (h : buf <+: buf2) (i0 i1 : Nat) :
    Outcome.PanicsOrEq (read16 buf i0 i1) (read16 buf2 i0 i1) := by
  unfold read16
  exact PanicsOrEq.seq (index_extend h _) fun _ => PanicsOrEq.seq (index_extend h _) fun _ =>
    PanicsOrEq.refl _

theorem readInt16_extend {buf buf2 : List Byte} (h : buf <+: buf2) (i0 i1 : Nat) :
    Outcome.PanicsOrEq (readInt16 buf i0 i1) (readInt16 buf2 i0 i1) := by
  unfold readInt16
  exact PanicsOrEq.seq (index_extend h _) fun _ => PanicsOrEq.seq (index_extend h _) fun _ =>
    PanicsOrEq.refl _

theorem read32_extend {buf buf2 : List Byte} (h : buf <+: buf2) (i0 i1 i2 i3 : Nat) :
    Outcome.PanicsOrEq (read32 buf i0 i1 i2 i3) (read32 buf2 i0 i1 i2 i3) := by
  unfold read32
  exact PanicsOrEq.seq (index_extend h _) fun _ => PanicsOrEq.seq (index_extend h _) fun _ =>
    PanicsOrEq.seq (index_extend h _) fun _ => PanicsOrEq.seq (index_extend h _) fun _ =>
    PanicsOrEq.refl _

theorem read64_extend {buf buf2 : List Byte} (h : buf <+: buf2)
    (i0 i1 i2 i3 i4 i5 i6 i7 : Nat) :
    Outcome.PanicsOrEq (read64 buf i0 i1 i2 i3 i4 i5 i6 i7)
      (read64 buf2 i0 i1 i2 i3 i4 i5 i6 i7) := by
  unfold read64
  exact PanicsOrEq.seq (index_extend h _) fun _ => PanicsOrEq.seq (index_extend h _) fun _ =>
    PanicsOrEq.seq (index_extend h _) fun _ => PanicsOrEq.seq (index_extend h _) fun _ =>
    PanicsOrEq.seq (index_extend h _) fun _ => PanicsOrEq.seq (index_extend h _) fun _ =>
    PanicsOrEq.seq (index_extend h _) fun _ => PanicsOrEq.seq (index_extend h _) fun _ =>
    PanicsOrEq.refl _

theorem forRangeFrom_extend {α : Type} {f g : Nat → Outcome α}
    (h : ∀ k, Outcome.PanicsOrEq (f k) (g k)) (s n : Nat) :
    Outcome.PanicsOrEq (forRangeFrom f s n) (forRangeFrom g s n) := by
  induction n generalizing s with
  | zero => exact PanicsOrEq.refl _
  | succ n ih =>
    simp only [forRangeFrom]
    exact PanicsOrEq.seq (h _) fun _ => PanicsOrEq.seq (ih _) fun _ => PanicsOrEq.refl _

theorem forRange_extend {α : Type} {f g : Nat → Outcome α}
    (h : ∀ k, Outcome.PanicsOrEq (f k) (g k)) (n : Nat) :
    Outcome.PanicsOrEq (forRange n f) (forRange n g) :=
  forRangeFrom_extend h 0 n

theorem readFormat2_extend {buf buf2 : List Byte} (h : buf <+: buf2) (Offset : Nat)
    (st : CmapSubTable) :
    Outcome.PanicsOrEq (readFormat2 buf Offset st) (readFormat2 buf2 Offset st) := by
  unfold readFormat2
  refine PanicsOrEq.seq (forRange_extend (fun _ => ?_) _) fun _ => ?_
  · exact PanicsOrEq.seq (index_extend h _) fun _ => PanicsOrEq.refl _
  refine PanicsOrEq.seq (forRange_extend (fun _ => ?_) _) fun _ => ?_
  · exact PanicsOrEq.seq (index_extend h _) fun _ => PanicsOrEq.seq (index_extend h _) fun _ =>
      PanicsOrEq.seq (index_extend h _) fun _ => PanicsOrEq.seq (index_extend h _) fun _ =>
      PanicsOrEq.refl _
  refine PanicsOrEq.seq (forRange_extend (fun _ => ?_) _) fun _ => PanicsOrEq.refl _
  exact PanicsOrEq.seq (index_extend h _) fun _ => PanicsOrEq.refl _

theorem readFormat4_extend {buf buf2 : List Byte} (h : buf <+: buf2) (Offset : Nat)
    (st : CmapSubTable) :
    Outcome.PanicsOrEq (readFormat4 buf Offset st) (readFormat4 buf2 Offset st) := by
  unfold readFormat4
  refine PanicsOrEq.seq (read16_extend h _ _) fun _ => ?_
  refine PanicsOrEq.seq (read16_extend h _ _) fun _ => ?_
  refine PanicsOrEq.seq (read16_extend h _ _) fun _ => ?_
  refine PanicsOrEq.seq (read16_extend h _ _) fun _ => ?_
  refine PanicsOrEq.seq (forRange_extend (fun _ => read16_extend h _ _) _) fun _ => ?_
  refine PanicsOrEq.seq (read16_extend h _ _) fun _ => ?_
  refine PanicsOrEq.seq (forRange_extend (fun _ => read16_extend h _ _) _) fun _ => ?_
  refine PanicsOrEq.seq (forRange_extend (fun _ => read16_extend h _ _) _) fun _ => ?_
  exact PanicsOrEq.seq (forRange_extend (fun _ => read16_extend h _ _) _) fun _ =>
    PanicsOrEq.refl _

theorem readFormat6_extend {buf buf2 : List Byte} (h : buf <+: buf2) (Offset : Nat)
    (st : CmapSubTable) :
    Outcome.PanicsOrEq (readFormat6 buf Offset st) (readFormat6 buf2 Offset st) := by
  unfold readFormat6
  exact PanicsOrEq.seq (read16_extend h _ _) fun _ =>
    PanicsOrEq.seq (read16_extend h _ _) fun _ => PanicsOrEq.refl _

theorem readFormat8_extend {buf buf2 : List Byte} (h : buf <+: buf2) (Offset : Nat)
    (st : CmapSubTable) :
    Outcome.PanicsOrEq (readFormat8 buf Offset st) (readFormat8 buf2 Offset st) := by
  unfold readFormat8
  refine PanicsOrEq.seq (read16_extend h _ _) fun _ => ?_
  refine PanicsOrEq.seq
    (forRange_extend (fun _ => PanicsOrEq.seq (index_extend h _) fun _ => PanicsOrEq.refl _) _)
    fun _ => ?_
  refine PanicsOrEq.seq (read32_extend h _ _ _ _) fun _ => ?_
  refine PanicsOrEq.seq (forRange_extend (fun _ => ?_) _) fun _ => PanicsOrEq.refl _
  exact PanicsOrEq.seq (read32_extend h _ _ _ _) fun _ =>
    PanicsOrEq.seq (read32_extend h _ _ _ _) fun _ =>
    PanicsOrEq.seq (read32_extend h _ _ _ _) fun _ => PanicsOrEq.refl _

theorem readEncodingSubtable_extend {buf buf2 : List Byte} (h : buf <+: buf2)
    (Offset j : Nat) :
    Outcome.PanicsOrEq (readEncodingSubtable buf Offset j)
      (readEncodingSubtable buf2 Offset j) := by
  unfold readEncodingSubtable
  refine PanicsOrEq.seq (read16_extend h _ _) fun _ => ?_
  refine PanicsOrEq.seq (read16_extend h _ _) fun _ => ?_
  refine PanicsOrEq.seq (read32_extend h _ _ _ _) fun _ => ?_
  refine PanicsOrEq.seq (read16_extend h _ _) fun _ => ?_
  refine PanicsOrEq.seq (read16_extend h _ _) fun _ => ?_
  refine PanicsOrEq.seq (read16_extend h _ _) fun _ => ?_
  refine PanicsOrEq.seq
    (forRange_extend (fun _ => PanicsOrEq.seq (index_extend h _) fun _ => PanicsOrEq.refl _) _)
    fun _ => ?_
  refine PanicsOrEq.ite (readFormat2_extend h _ _) ?_
  refine PanicsOrEq.ite (readFormat4_extend h _ _) ?_
  refine PanicsOrEq.ite (readFormat6_extend h _ _) ?_
  exact PanicsOrEq.ite (readFormat8_extend h _ _) (PanicsOrEq.refl _)

theorem readCmapTable_extend {buf buf2 : List Byte} (h : buf <+: buf2) (i : Nat) :
    Outcome.PanicsOrEq (readCmapTable buf i) (readCmapTable buf2 i) := by
  unfold readCmapTable
  refine PanicsOrEq.seq (read32_extend h _ _ _ _) fun _ => ?_
  refine PanicsOrEq.seq (read32_extend h _ _ _ _) fun _ => ?_
  refine PanicsOrEq.seq (read32_extend h _ _ _ _) fun _ => ?_
  refine PanicsOrEq.seq (read32_extend h _ _ _ _) fun _ => ?_
  refine PanicsOrEq.seq (read16_extend h _ _) fun _ => ?_
  refine PanicsOrEq.seq (read16_extend h _ _) fun _ => ?_
  exact PanicsOrEq.seq (forRange_extend (fun _ => readEncodingSubtable_extend h _ _) _)
    fun _ => PanicsOrEq.refl _

theorem readHeadTable_extend {buf buf2 : List Byte} (h : buf <+: buf2) (i : Nat) :
    Outcome.PanicsOrEq (readHeadTable buf i) (readHeadTable buf2 i) := by
  unfold readHeadTable
  refine PanicsOrEq.seq (read32_extend h _ _ _ _) fun _ => ?_
  refine PanicsOrEq.seq (read32_extend h _ _ _ _) fun _ => ?_
  refine PanicsOrEq.seq (read32_extend h _ _ _ _) fun _ => ?_
  refine PanicsOrEq.seq (read32_extend h _ _ _ _) fun _ => ?_
  refine PanicsOrEq.seq (read32_extend h _ _ _ _) fun _ => ?_
  refine PanicsOrEq.seq (read32_extend h _ _ _ _) fun _ => ?_
  refine PanicsOrEq.seq (read32_extend h _ _ _ _) fun _ => ?_
  refine PanicsOrEq.seq (read32_extend h _ _ _ _) fun _ => ?_
  refine PanicsOrEq.seq (read16_extend h _ _) fun _ => ?_
  refine PanicsOrEq.seq (read16_extend h _ _) fun _ => ?_
  refine PanicsOrEq.seq (read64_extend h _ _ _ _ _ _ _ _) fun _ => ?_
  refine PanicsOrEq.seq (read64_extend h _ _ _ _ _ _ _ _) fun _ => ?_
  refine PanicsOrEq.seq (readInt16_extend h _ _) fun _ => ?_
  refine PanicsOrEq.seq (readInt16_extend h _ _) fun _ => ?_
  refine PanicsOrEq.seq (readInt16_extend h _ _) fun _ => ?_
  refine PanicsOrEq.seq (readInt16_extend h _ _) fun _ => ?_
  refine PanicsOrEq.seq (read16_extend h _ _) fun _ => ?_
  refine PanicsOrEq.seq (read16_extend h _ _) fun _ => ?_
  refine PanicsOrEq.seq (readInt16_extend h _ _) fun _ => ?_
  refine PanicsOrEq.seq (readInt16_extend h _ _) fun _ => ?_
  exact PanicsOrEq.seq (readInt16_extend h _ _) fun _ => PanicsOrEq.refl _

theorem readTTFTablesFrom_extend {buf buf2 : List Byte} (h : buf <+: buf2)
    (i n : Nat) (tables : List TTFTableInfo) :
    Outcome.PanicsOrEq (readTTFTablesFrom buf i n tables) (readTTFTablesFrom buf2 i n tables) := by
  induction n generalizing i tables with
  | zero => exact PanicsOrEq.refl _
  | succ n ih =>
    simp only [readTTFTablesFrom]
    refine PanicsOrEq.seq (index_extend h _) fun _ => ?_
    refine PanicsOrEq.seq (index_extend h _) fun _ => ?_
    refine PanicsOrEq.seq (index_extend h _) fun _ => ?_
    refine PanicsOrEq.seq (index_extend h _) fun _ => ?_
    refine PanicsOrEq.ite (PanicsOrEq.seq (readCmapTable_extend h _) fun _ => ih _ _) ?_
    exact PanicsOrEq.ite (PanicsOrEq.seq (readHeadTable_extend h _) fun _ => ih _ _) (ih _ _)

theorem readTTFInfo_extend {buf buf2 : List Byte} (h : buf <+: buf2) (ttf : TTF) :
    Outcome.PanicsOrEq (readTTFInfo ttf buf) (readTTFInfo ttf buf2) := by
  unfold readTTFInfo
  refine PanicsOrEq.seq (read32_extend h _ _ _ _) fun _ => ?_
  refine PanicsOrEq.seq (read16_extend h _ _) fun _ => ?_
  refine PanicsOrEq.seq (read16_extend h _ _) fun _ => ?_
  refine PanicsOrEq.seq (read16_extend h _ _) fun _ => ?_
  exact PanicsOrEq.seq (read16_extend h _ _) fun _ => PanicsOrEq.refl _

theorem readTTFTables_extend {buf buf2 : List Byte} (h : buf <+: buf2) (ttf : TTF) :
    Outcome.PanicsOrEq (readTTFTables ttf buf) (readTTFTables ttf buf2) := by
  unfold readTTFTables
  exact PanicsOrEq.seq (readTTFTablesFrom_extend h _ _ _) fun _ => PanicsOrEq.refl _

theorem NewTTF_extend {buf buf2 : List Byte} (h : buf <+: buf2) (fileName : String) :
    Outcome.PanicsOrEq (NewTTF fileName (Outcome.ok buf)) (NewTTF fileName (Outcome.ok buf2)) := by
  simp only [NewTTF, bind_eq_bind, ok_bind]
  exact PanicsOrEq.seq (readTTFInfo_extend h _) fun _ =>
    PanicsOrEq.seq (readTTFTables_extend h _) fun _ => PanicsOrEq.refl _

/-! ### The subtables of a decoded table -/

theorem readCmapTable_subtable_at {buf : List Byte} {i j : Nat} {ti : TTFTableInfo}
    {c : CmapTable} {st : CmapSubTable} (h : readCmapTable buf i = Outcome.ok ti)
    (hc : ti.Table = TTFTable.cmap c) (hst : c.EncodingSubtables[j]? = some st) :
    readEncodingSubtable buf ti.Offset j = Outcome.ok st := by
  obtain ⟨c2, hc2, -, -, hlen, hsub⟩ := readCmapTable_subtables h
  rw [hc] at hc2
  cases hc2
  have hj : j < c.NumberSubtables := by
    rw [← hlen]
    exact (List.getElem?_eq_some.1 hst).1
  obtain ⟨st2, hst2, hdec⟩ := hsub j hj
  rw [hst] at hst2
  cases hst2
  exact hdec

/-- Every subtable of every cmap entry of a parsed font was decoded by
`readEncodingSubtable` from the offset of its entry. -/
theorem NewTTF_subtable {fileName : String} {buf : List Byte} {font : TTF}
    (h : NewTTF fileName (Outcome.ok buf) = Outcome.ok font) {e : TTFTableInfo}
    (he : e ∈ font.Tables) {c : CmapTable} (hc : e.Table = TTFTable.cmap c)
    {st : CmapSubTable} (hst : st ∈ c.EncodingSubtables) :
    ∃ i j, i < font.NumTables ∧ readCmapTable buf i = Outcome.ok e ∧
      c.EncodingSubtables[j]? = some st ∧
      readEncodingSubtable buf e.Offset j = Outcome.ok st := by
  obtain ⟨i, hi, hdec⟩ := NewTTF_mem_tables h he
  rcases hdec with ⟨-, hcm⟩ | ⟨-, hh⟩
  · obtain ⟨j, hj, hjst⟩ := List.getElem_of_mem hst
    have hj2 : c.EncodingSubtables[j]? = some st := by
      rw [List.getElem?_eq_getElem hj, hjst]
    exact ⟨i, j, hi, hcm, hj2, readCmapTable_subtable_at hcm hc hj2⟩
  · obtain ⟨-, -, -, -, ⟨t, ht⟩, -⟩ := readHeadTable_ok hh
    rw [ht] at hc
    cases hc

/-- The glyph index array of a decoded subtable, whatever its format: it has
`(Length - 6) mod 2^16` elements, element `k` being the byte at position
`Offset + SubOffset + 6 + k`, a plain sum. -/
theorem readEncodingSubtable_glyphs {buf : List Byte} {Offset j : Nat} {st : CmapSubTable}
    (h : readEncodingSubtable buf Offset j = Outcome.ok st) :
    st.GlyphIndexArray.length = u16 (st.Length + 2 ^ 16 - 6) ∧
    ∀ k, k < u16 (st.Length + 2 ^ 16 - 6) →
      ∃ b, buf[Offset + st.SubOffset + 6 + k]? = some b ∧
        st.GlyphIndexArray[k]? = some b.val := by
  have hG := (readEncodingSubtable_ok h).2.2.2.2.2.2.1
  obtain ⟨hl, hk⟩ := forRange_eq_ok.1 hG
  refine ⟨hl, fun k hkn => ?_⟩
  obtain ⟨x, hx, hr⟩ := hk k hkn
  obtain ⟨b, hb, hbx⟩ := bind_eq_ok.1 hr
  cases hbx
  exact ⟨b, index_eq_ok.1 hb, hx⟩

theorem readEncodingSubtable_length_lt {buf : List Byte} {Offset j : Nat} {st : CmapSubTable}
    (h : readEncodingSubtable buf Offset j = Outcome.ok st) : st.Length < 2 ^ 16 :=
  be16Of_lt (readEncodingSubtable_ok h).2.2.2.2.1

/-- The extent of a decoded subtable lies inside the buffer, unless its length
field is 6 and `Offset + SubOffset + 6` passes `2^32`. -/
theorem readEncodingSubtable_extent {buf : List Byte} {Offset j : Nat} {st : CmapSubTable}
    (h : readEncodingSubtable buf Offset j = Outcome.ok st)
    (hw : st.Length ≠ 6 ∨ Offset + st.SubOffset + 6 ≤ 2 ^ 32) :
    Offset + st.SubOffset + st.Length ≤ buf.length := by
  have hL := readEncodingSubtable_length_lt h
  by_cases h6 : st.Length = 6
  · have hb : Offset + st.SubOffset + 6 ≤ 2 ^ 32 := by
      rcases hw with hw | hw
      · exact absurd h6 hw
      · exact hw
    have hLa := (be16Of_lt_length (readEncodingSubtable_ok h).2.2.2.2.2.1).2
    rw [u32_of_lt (by omega)] at hLa
    omega
  · obtain ⟨-, hk⟩ := readEncodingSubtable_glyphs h
    have hn : 0 < u16 (st.Length + 2 ^ 16 - 6) := by
      unfold u16
      omega
    obtain ⟨b, hb, -⟩ := hk (u16 (st.Length + 2 ^ 16 - 6) - 1) (by omega)
    have hlt := (List.getElem?_eq_some.1 hb).1
    unfold u16 at hlt hn
    omega

/-! ### Evaluation on the cmap fonts of formats 2, 6, 8 and 12 -/

set_option maxRecDepth 100000 in
theorem NewTTF_format6Font :
    NewTTF "format6.ttf" (Outcome.ok format6Font) = Outcome.ok format6FontParsed := by
  decide

set_option maxRecDepth 100000 in
theorem readCmapTable_format6Font :
    readCmapTable format6Font 0 = Outcome.ok format6Entry := by
  decide

set_option maxRecDepth 100000 in
theorem NewTTF_format2Font :
    NewTTF "format2.ttf" (Outcome.ok format2Font) = Outcome.ok format2FontParsed := by
  decide

set_option maxRecDepth 100000 in
theorem NewTTF_format8Font :
    NewTTF "format8.ttf" (Outcome.ok format8Font) = Outcome.ok format8FontParsed := by
  decide

set_option maxRecDepth 100000 in
theorem NewTTF_unsupportedFormatFont :
    NewTTF "unsupported.ttf" (Outcome.ok unsupportedFormatFont) =
      Outcome.ok unsupportedFormatFontParsed := by
  decide

set_option maxRecDepth 100000 in
theorem readCmapTable_unsupportedFormatFont :
    readCmapTable unsupportedFormatFont 0 = Outcome.ok unsupportedEntry := by
  decide

/-! ### The format-6 branch -/

theorem readFormat6_eq_ok {buf : List Byte} {Offset : Nat} {s st : CmapSubTable} :
    readFormat6 buf Offset s = Outcome.ok st ↔
      ∃ FirstCode, be16Of buf (u32 (Offset + s.SubOffset + 6)) (u32 (Offset + s.SubOffset + 7))
        = some FirstCode ∧
      ∃ EntryCount, be16Of buf (u32 (Offset + s.SubOffset + 8))
        (u32 (Offset + s.SubOffset + 9)) = some EntryCount ∧
      st = { s with FirstCode := FirstCode, EntryCount := EntryCount } := by
  simp only [readFormat6, bind_eq_bind, pure_eq_ok, bind_eq_ok, read16_eq_ok,
    Outcome.ok.injEq, eq_comm (a := st)]

set_option maxRecDepth 100000 in
theorem NewTTF_format12Font :
    NewTTF "format12.ttf" (Outcome.ok format12Font) = Outcome.panicked := by
  decide

/-! ### Loops that succeed -/

theorem forRangeFrom_ok_of_forall {α : Type} {f : Nat → Outcome α} {n s : Nat}
    (h : ∀ k, k < n → ∃ x, f (s + k) = Outcome.ok x) :
    ∃ xs, forRangeFrom f s n = Outcome.ok xs := by
  induction n generalizing s with
  | zero => exact ⟨[], rfl⟩
  | succ n ih =>
    obtain ⟨x, hx⟩ := h 0 (by omega)
    have h2 : ∀ k, k < n → ∃ y, f (s + 1 + k) = Outcome.ok y := by
      intro k hk
      obtain ⟨y, hy⟩ := h (k + 1) (by omega)
      have e : s + 1 + k = s + (k + 1) := by omega
      rw [e]
      exact ⟨y, hy⟩
    obtain ⟨xs, hxs⟩ := ih h2
    refine ⟨x :: xs, ?_⟩
    simp only [forRangeFrom, bind_eq_bind, pure_eq_ok]
    rw [Nat.add_zero] at hx
    rw [hx, ok_bind, hxs, ok_bind]

theorem forRange_ok_of_forall {α : Type} {f : Nat → Outcome α} {n : Nat}
    (h : ∀ k, k < n → ∃ x, f k = Outcome.ok x) : ∃ xs, forRange n f = Outcome.ok xs := by
  unfold forRange
  apply forRangeFrom_ok_of_forall
  intro k hk
  rw [Nat.zero_add]
  exact h k hk

/-- A subtable whose format has no case in the switch is returned as soon as
its encoding record, its preamble and the bytes of its glyph index array can be
read. -/
theorem readEncodingSubtable_other_format {buf : List Byte} {Offset j : Nat}
    {P E S F L La : Nat}
    (hP : be16Of buf (u32 (Offset + 4 + j * 8)) (u32 (Offset + 5 + j * 8)) = some P)
    (hE : be16Of buf (u32 (Offset + 6 + j * 8)) (u32 (Offset + 7 + j * 8)) = some E)
    (hS : be32Of buf (u32 (Offset + 8 + j * 8)) (u32 (Offset + 9 + j * 8))
      (u32 (Offset + 10 + j * 8)) (u32 (Offset + 11 + j * 8)) = some S)
    (hF : be16Of buf (u32 (Offset + S + 0)) (u32 (Offset + S + 1)) = some F)
    (hL : be16Of buf (u32 (Offset + S + 2)) (u32 (Offset + S + 3)) = some L)
    (hLa : be16Of buf (u32 (Offset + S + 4)) (u32 (Offset + S + 5)) = some La)
    (hf : F ≠ 2 ∧ F ≠ 4 ∧ F ≠ 6 ∧ F ≠ 8)
    (hin : ∀ k, k < u16 (L + 2 ^ 16 - 6) → Offset + S + 6 + k < buf.length) :
    ∃ G, readEncodingSubtable buf Offset j = Outcome.ok
      { PlatformID := P, EncodingID := E, SubOffset := S, Format := F, Length := L,
        Language := La, GlyphIndexArray := G } := by
  have hG : ∃ G, (forRange (u16 (L + 2 ^ 16 - 6)) fun k =>
      Outcome.bind (index buf (Offset + S + 6 + k)) fun b => Outcome.ok b.val)
      = Outcome.ok G := by
    apply forRange_ok_of_forall
    intro k hk
    have hlt := hin k hk
    refine ⟨(buf.get ⟨Offset + S + 6 + k, hlt⟩).val, ?_⟩
    have hi : index buf (Offset + S + 6 + k) = Outcome.ok (buf.get ⟨Offset + S + 6 + k, hlt⟩) :=
      index_eq_ok.2 (by rw [List.getElem?_eq_getElem hlt]; rfl)
    rw [hi, ok_bind]
  obtain ⟨G, hG⟩ := hG
  refine ⟨G, ?_⟩
  simp only [readEncodingSubtable, bind_eq_bind, pure_eq_ok]
  rw [read16_eq_ok.2 hP, ok_bind, read16_eq_ok.2 hE, ok_bind, read32_eq_ok.2 hS, ok_bind,
    read16_eq_ok.2 hF, ok_bind, read16_eq_ok.2 hL, ok_bind, read16_eq_ok.2 hLa, ok_bind,
    hG, ok_bind, if_neg hf.1, if_neg hf.2.1, if_neg hf.2.2.1, if_neg hf.2.2.2]

/-! ### Reads that depend on a few bytes only -/

theorem index_congr {buf buf2 : List Byte} {i : Nat} (h : buf[i]? = buf2[i]?) :
    index buf i = index buf2 i := by
  unfold index
  rw [h]

theorem read16_congr {buf buf2 : List Byte} {i0 i1 : Nat} (h0 : buf[i0]? = buf2[i0]?)
    (h1 : buf[i1]? = buf2[i1]?) : read16 buf i0 i1 = read16 buf2 i0 i1 := by
  unfold read16
  rw [index_congr h0, index_congr h1]

theorem readInt16_congr {buf buf2 : List Byte} {i0 i1 : Nat} (h0 : buf[i0]? = buf2[i0]?)
    (h1 : buf[i1]? = buf2[i1]?) : readInt16 buf i0 i1 = readInt16 buf2 i0 i1 := by
  unfold readInt16
  rw [index_congr h0, index_congr h1]

theorem read32_congr {buf buf2 : List Byte} {i0 i1 i2 i3 : Nat} (h0 : buf[i0]? = buf2[i0]?)
    (h1 : buf[i1]? = buf2[i1]?) (h2 : buf[i2]? = buf2[i2]?) (h3 : buf[i3]? = buf2[i3]?) :
    read32 buf i0 i1 i2 i3 = read32 buf2 i0 i1 i2 i3 := by
  unfold read32
  rw [index_congr h0, index_congr h1, index_congr h2, index_congr h3]

theorem read64_congr {buf buf2 : List Byte} {i0 i1 i2 i3 i4 i5 i6 i7 : Nat}
    (h0 : buf[i0]? = buf2[i0]?) (h1 : buf[i1]? = buf2[i1]?) (h2 : buf[i2]? = buf2[i2]?)
    (h3 : buf[i3]? = buf2[i3]?) (h4 : buf[i4]? = buf2[i4]?) (h5 : buf[i5]? = buf2[i5]?)
    (h6 : buf[i6]? = buf2[i6]?) (h7 : buf[i7]? = buf2[i7]?) :
    read64 buf i0 i1 i2 i3 i4 i5 i6 i7 = read64 buf2 i0 i1 i2 i3 i4 i5 i6 i7 := by
  unfold read64
  rw [index_congr h0, index_congr h1, index_congr h2, index_congr h3, index_congr h4,
    index_congr h5, index_congr h6, index_congr h7]

theorem getElem?_eq_of_take_eq {buf buf2 : List Byte} {n : Nat}
    (h : buf.take n = buf2.take n) {p : Nat} (hp : p < n) : buf[p]? = buf2[p]? := by
  rw [← List.getElem?_take_of_lt hp, h, List.getElem?_take_of_lt hp]

/-- The head table that `readHeadTable` returns depends on the bytes at
positions 0..53 only. -/
theorem readHeadTable_table_congr {buf buf2 : List Byte} {i i2 : Nat} {ti ti2 : TTFTableInfo}
    (h : readHeadTable buf i = Outcome.ok ti) (h2 : readHeadTable buf2 i2 = Outcome.ok ti2)
    (ha : ∀ p, p < 54 → buf[p]? = buf2[p]?) : ti.Table = ti2.Table := by
  obtain ⟨_, -, _, -, _, -, _, -, v0, r0, v1, r1, v2, r2, v3, r3, v4, r4, v5, r5, v6, r6, v7, r7, v8, r8, v9, r9, v10, r10, v11, r11, v12, r12, v13, r13, v14, r14, v15, r15, v16, r16, rfl⟩ :=
    readHeadTable_eq_ok.1 h
  obtain ⟨_, -, _, -, _, -, _, -, w0, g0, w1, g1, w2, g2, w3, g3, w4, g4, w5, g5, w6, g6, w7, g7, w8, g8, w9, g9, w10, g10, w11, g11, w12, g12, w13, g13, w14, g14, w15, g15, w16, g16, rfl⟩ :=
    readHeadTable_eq_ok.1 h2
  rw [read32_congr (ha 0 (by decide)) (ha 1 (by decide)) (ha 2 (by decide)) (ha 3 (by decide))] at r0
  have e0 : v0 = w0 := Outcome.ok.inj (r0.symm.trans g0)
  rw [read32_congr (ha 4 (by decide)) (ha 5 (by decide)) (ha 6 (by decide)) (ha 7 (by decide))] at r1
  have e1 : v1 = w1 := Outcome.ok.inj (r1.symm.trans g1)
  rw [read32_congr (ha 8 (by decide)) (ha 9 (by decide)) (ha 10 (by decide)) (ha 11 (by decide))] at r2
  have e2 : v2 = w2 := Outcome.ok.inj (r2.symm.trans g2)
  rw [read32_congr (ha 12 (by decide)) (ha 13 (by decide)) (ha 14 (by decide)) (ha 15 (by decide))] at r3
  have e3 : v3 = w3 := Outcome.ok.inj (r3.symm.trans g3)
  rw [read16_congr (ha 16 (by decide)) (ha 17 (by decide))] at r4
  have e4 : v4 = w4 := Outcome.ok.inj (r4.symm.trans g4)
  rw [read16_congr (ha 18 (by decide)) (ha 19 (by decide))] at r5
  have e5 : v5 = w5 := Outcome.ok.inj (r5.symm.trans g5)
  rw [read64_congr (ha 20 (by decide)) (ha 21 (by decide)) (ha 22 (by decide)) (ha 23 (by decide)) (ha 24 (by decide)) (ha 25 (by decide)) (ha 26 (by decide)) (ha 27 (by decide))] at r6
  have e6 : v6 = w6 := Outcome.ok.inj (r6.symm.trans g6)
  rw [read64_congr (ha 28 (by decide)) (ha 29 (by decide)) (ha 30 (by decide)) (ha 31 (by decide)) (ha 32 (by decide)) (ha 33 (by decide)) (ha 34 (by decide)) (ha 35 (by decide))] at r7
  have e7 : v7 = w7 := Outcome.ok.inj (r7.symm.trans g7)
  rw [readInt16_congr (ha 36 (by decide)) (ha 37 (by decide))] at r8
  have e8 : v8 = w8 := Outcome.ok.inj (r8.symm.trans g8)
  rw [readInt16_congr (ha 38 (by decide)) (ha 39 (by decide))] at r9
  have e9 : v9 = w9 := Outcome.ok.inj (r9.symm.trans g9)
  rw [readInt16_congr (ha 40 (by decide)) (ha 41 (by decide))] at r10
  have e10 : v10 = w10 := Outcome.ok.inj (r10.symm.trans g10)
  rw [readInt16_congr (ha 42 (by decide)) (ha 43 (by decide))] at r11
  have e11 : v11 = w11 := Outcome.ok.inj (r11.symm.trans g11)
  rw [read16_congr (ha 44 (by decide)) (ha 45 (by decide))] at r12
  have e12 : v12 = w12 := Outcome.ok.inj (r12.symm.trans g12)
  rw [read16_congr (ha 46 (by decide)) (ha 47 (by decide))] at r13
  have e13 : v13 = w13 := Outcome.ok.inj (r13.symm.trans g13)
  rw [readInt16_congr (ha 48 (by decide)) (ha 49 (by decide))] at r14
  have e14 : v14 = w14 := Outcome.ok.inj (r14.symm.trans g14)
  rw [readInt16_congr (ha 50 (by decide)) (ha 51 (by decide))] at r15
  have e15 : v15 = w15 := Outcome.ok.inj (r15.symm.trans g15)
  rw [readInt16_congr (ha 52 (by decide)) (ha 53 (by decide))] at r16
  have e16 : v16 = w16 := Outcome.ok.inj (r16.symm.trans g16)
  subst e0 e1 e2 e3 e4 e5 e6 e7 e8 e9 e10 e11 e12 e13 e14 e15 e16
  rfl

/-! ### Signed 16-bit words -/

theorem beInt16_eq (hi lo : Byte) : beInt16 hi.val lo.val = twosComplement16 hi.val lo.val := by
  have h0 := hi.isLt
  have h1 := lo.isLt
  unfold beInt16 asInt16 twosComplement16 u16
  have e : hi.val <<< 8 % 2 ^ 16 = hi.val <<< 8 := by
    rw [Nat.shiftLeft_eq]; omega
  rw [e, shiftLeft_lor_eq_add _ _ _ (by omega)]
  have e2 : (hi.val * 2 ^ 8 + lo.val) % 2 ^ 16 = 256 * hi.val + lo.val := by omega
  rw [e2]
  by_cases hlt : hi.val < 128
  · rw [if_pos hlt, if_pos (by omega)]
  · rw [if_neg hlt, if_neg (by omega)]
    norm_num

theorem readInt16_eq_ok {buf : List Byte} {i0 i1 : Nat} {v : Int} :
    readInt16 buf i0 i1 = Outcome.ok v ↔
      ∃ hi lo, buf[i0]? = some hi ∧ buf[i1]? = some lo ∧ v = beInt16 hi.val lo.val := by
  simp only [readInt16, bind_eq_bind, pure_eq_ok, bind_eq_ok, index_eq_ok, Outcome.ok.injEq,
    eq_comm (a := v)]
  constructor
  · rintro ⟨hi, h0, lo, h1, h⟩
    exact ⟨hi, lo, h0, h1, h⟩
  · rintro ⟨hi, lo, h0, h1, h⟩
    exact ⟨hi, h0, lo, h1, h⟩

theorem int16At_of_readInt16 {buf : List Byte} {p : Nat} {v : Int}
    (h : readInt16 buf p (p + 1) = Outcome.ok v) : int16At buf p = some v := by
  obtain ⟨hi, lo, h0, h1, rfl⟩ := readInt16_eq_ok.1 h
  unfold int16At
  rw [h0, h1, beInt16_eq]

/-- The seven signed fields of a decoded head table, as `readHeadTable` reads
them. -/
theorem readHeadTable_signed {buf : List Byte} {i : Nat} {ti : TTFTableInfo} {t : HeadTable}
    (h : readHeadTable buf i = Outcome.ok ti) (ht : ti.Table = TTFTable.head t) :
    readInt16 buf 36 37 = Outcome.ok t.XMin ∧ readInt16 buf 38 39 = Outcome.ok t.YMin ∧
    readInt16 buf 40 41 = Outcome.ok t.XMax ∧ readInt16 buf 42 43 = Outcome.ok t.YMax ∧
    readInt16 buf 48 49 = Outcome.ok t.FontDirectionHint ∧
    readInt16 buf 50 51 = Outcome.ok t.IndexToLocFormat ∧
    readInt16 buf 52 53 = Outcome.ok t.GlyphDataFormat ∧
    read32 buf 0 1 2 3 = Outcome.ok t.Version ∧
    read32 buf 12 13 14 15 = Outcome.ok t.MagicNumber := by
  obtain ⟨_, -, _, -, _, -, _, -, _, hV, _, -, _, -, _, hM, _, -, _, -, _, -, _, -, _, h1,
    _, h2, _, h3, _, h4, _, -, _, -, _, h5, _, h6, _, h7, rfl⟩ := readHeadTable_eq_ok.1 h
  cases ht
  exact ⟨h1, h2, h3, h4, h5, h6, h7, hV, hM⟩

/-! ### The records that `readTTFTables` decodes -/

theorem decodeRecord_fields {buf : List Byte} {k : Nat} {e : TTFTableInfo}
    (h : decodeRecord buf k = Outcome.ok e) :
    u32At buf (12 + 16 * k) = some e.Tag ∧ u32At buf (12 + 16 * k + 4) = some e.CheckSum ∧
    u32At buf (12 + 16 * k + 8) = some e.Offset ∧
    u32At buf (12 + 16 * k + 12) = some e.Length := by
  have key : ∀ Tag CheckSum Offset Length,
      be32Of buf (12 + k * 16) (13 + k * 16) (14 + k * 16) (15 + k * 16) = some Tag →
      be32Of buf (16 + k * 16) (17 + k * 16) (18 + k * 16) (19 + k * 16) = some CheckSum →
      be32Of buf (20 + k * 16) (21 + k * 16) (22 + k * 16) (23 + k * 16) = some Offset →
      be32Of buf (24 + k * 16) (25 + k * 16) (26 + k * 16) (27 + k * 16) = some Length →
      u32At buf (12 + 16 * k) = some Tag ∧ u32At buf (12 + 16 * k + 4) = some CheckSum ∧
      u32At buf (12 + 16 * k + 8) = some Offset ∧ u32At buf (12 + 16 * k + 12) = some Length := by
    intro Tag CheckSum Offset Length hTag hCk hOff hLen
    exact ⟨u32At_of_be32Of _ hTag (by omega) (by omega) (by omega) (by omega),
      u32At_of_be32Of _ hCk (by omega) (by omega) (by omega) (by omega),
      u32At_of_be32Of _ hOff (by omega) (by omega) (by omega) (by omega),
      u32At_of_be32Of _ hLen (by omega) (by omega) (by omega) (by omega)⟩
  unfold decodeRecord at h
  split_ifs at h
  · obtain ⟨Tag, hTag, CheckSum, hCk, Offset, hOff, Length, hLen, Version, -, N, -, subs, -,
      rfl⟩ := readCmapTable_eq_ok.1 h
    exact key _ _ _ _ hTag hCk hOff hLen
  · obtain ⟨hTag, hCk, hOff, hLen, -, -⟩ := readHeadTable_ok h
    exact key _ _ _ _ hTag hCk hOff hLen

theorem decodedIndices_pairwise (buf : List Byte) (i n : Nat) :
    (decodedIndices buf i n).Pairwise (fun a b => a < b) := by
  unfold decodedIndices
  exact List.Pairwise.filter _ (List.pairwise_lt_range' i n)

theorem decodedIndices_length_eq_iff (buf : List Byte) (n : Nat) :
    (decodedIndices buf 0 n).length = n ↔
      ∀ k, k < n → dirTag buf k = some cmapTag ∨ dirTag buf k = some headTag := by
  unfold decodedIndices
  have hl : (List.range' 0 n).length = n := List.length_range' 0 1 n
  constructor
  · intro h k hk
    have h2 : ((List.range' 0 n).filter (isDecoded buf)).length = (List.range' 0 n).length := by
      rw [hl]; exact h
    have h3 := List.filter_length_eq_length.1 h2 k (List.mem_range'_1.2 ⟨by omega, by omega⟩)
    exact isDecoded_iff.1 h3
  · intro h
    have h2 : ((List.range' 0 n).filter (isDecoded buf)).length = (List.range' 0 n).length := by
      rw [List.filter_length_eq_length]
      intro k hk
      have := List.mem_range'_1.1 hk
      exact isDecoded_iff.2 (h k (by omega))
    rw [h2, hl]

set_option maxRecDepth 100000 in
theorem readHeadTable_signedHeadFont :
    readHeadTable signedHeadFont 0 = Outcome.ok signedHeadEntry := by
  decide

set_option maxRecDepth 100000 in
theorem readHeadTable_shiftedHeadFont :
    readHeadTable shiftedHeadFont 0 = Outcome.ok shiftedHeadEntry := by
  decide

set_option maxRecDepth 100000 in
theorem readHeadTable_alteredHeadFont :
    readHeadTable alteredHeadFont 3 = Outcome.ok alteredHeadEntry := by
  decide

set_option maxRecDepth 100000 in
theorem readTTFTables_mixedTagsFont :
    readTTFTables mixedTagsHeader mixedTagsFont = Outcome.ok mixedTagsFontParsed := by
  decide

/-! ### Subtables whose length field is below 6 -/

theorem be16Of_of_lt {buf : List Byte} {i0 i1 : Nat} (h0 : i0 < buf.length)
    (h1 : i1 < buf.length) : ∃ v, be16Of buf i0 i1 = some v := by
  unfold be16Of
  rw [List.getElem?_eq_getElem h0, List.getElem?_eq_getElem h1]
  exact ⟨_, rfl⟩

/-- A format-6 subtable is returned as soon as its encoding record, its
preamble, the bytes of its glyph index array and the two words after the
preamble can be read. -/
theorem readEncodingSubtable_format6 {buf : List Byte} {Offset j : Nat}
    {P E S L La : Nat}
    (hP : be16Of buf (u32 (Offset + 4 + j * 8)) (u32 (Offset + 5 + j * 8)) = some P)
    (hE : be16Of buf (u32 (Offset + 6 + j * 8)) (u32 (Offset + 7 + j * 8)) = some E)
    (hS : be32Of buf (u32 (Offset + 8 + j * 8)) (u32 (Offset + 9 + j * 8))
      (u32 (Offset + 10 + j * 8)) (u32 (Offset + 11 + j * 8)) = some S)
    (hF : be16Of buf (u32 (Offset + S + 0)) (u32 (Offset + S + 1)) = some 6)
    (hL : be16Of buf (u32 (Offset + S + 2)) (u32 (Offset + S + 3)) = some L)
    (hLa : be16Of buf (u32 (Offset + S + 4)) (u32 (Offset + S + 5)) = some La)
    (hin : ∀ k, k < u16 (L + 2 ^ 16 - 6) → Offset + S + 6 + k < buf.length)
    (h4 : Offset + S + 10 ≤ buf.length) :
    ∃ st, readEncodingSubtable buf Offset j = Outcome.ok st ∧ st.SubOffset = S ∧
      st.Format = 6 ∧ st.Length = L := by
  have hG : ∃ G, (forRange (u16 (L + 2 ^ 16 - 6)) fun k =>
      Outcome.bind (index buf (Offset + S + 6 + k)) fun b => Outcome.ok b.val)
      = Outcome.ok G := by
    apply forRange_ok_of_forall
    intro k hk
    have hlt := hin k hk
    refine ⟨(buf.get ⟨Offset + S + 6 + k, hlt⟩).val, ?_⟩
    rw [index_of_lt hlt, ok_bind]
  obtain ⟨G, hG⟩ := hG
  have hle : ∀ n, u32 n ≤ n := fun n => Nat.mod_le n _
  obtain ⟨FC, hFC⟩ := @be16Of_of_lt buf (u32 (Offset + S + 6)) (u32 (Offset + S + 7))
    (Nat.lt_of_le_of_lt (hle _) (by omega)) (Nat.lt_of_le_of_lt (hle _) (by omega))
  obtain ⟨EC, hEC⟩ := @be16Of_of_lt buf (u32 (Offset + S + 8)) (u32 (Offset + S + 9))
    (Nat.lt_of_le_of_lt (hle _) (by omega)) (Nat.lt_of_le_of_lt (hle _) (by omega))
  have h6 : readFormat6 buf Offset
      { PlatformID := P, EncodingID := E, SubOffset := S, Format := 6, Length := L,
        Language := La, GlyphIndexArray := G } =
      Outcome.ok
        { PlatformID := P, EncodingID := E, SubOffset := S, Format := 6, Length := L,
          Language := La, GlyphIndexArray := G, FirstCode := FC, EntryCount := EC } :=
    readFormat6_eq_ok.2 ⟨FC, hFC, EC, hEC, rfl⟩
  refine ⟨{ PlatformID := P, EncodingID := E, SubOffset := S, Format := 6, Length := L,
            Language := La, GlyphIndexArray := G, FirstCode := FC, EntryCount := EC },
    ?_, rfl, rfl, rfl⟩
  simp only [readEncodingSubtable, bind_eq_bind, pure_eq_ok]
  rw [read16_eq_ok.2 hP, ok_bind, read16_eq_ok.2 hE, ok_bind, read32_eq_ok.2 hS, ok_bind,
    read16_eq_ok.2 hF, ok_bind, read16_eq_ok.2 hL, ok_bind, read16_eq_ok.2 hLa, ok_bind,
    hG, ok_bind, if_neg (by decide), if_neg (by decide), if_pos rfl]
  exact h6

/-- A subtable whose length field is below 6 and whose format is none of 2, 4,
8 is returned as soon as its encoding record, its preamble and the
`65530 + Length` bytes after the preamble can be read. -/
theorem readEncodingSubtable_short_length {buf : List Byte} {Offset j : Nat}
    {P E S F L La : Nat}
    (hP : be16Of buf (u32 (Offset + 4 + j * 8)) (u32 (Offset + 5 + j * 8)) = some P)
    (hE : be16Of buf (u32 (Offset + 6 + j * 8)) (u32 (Offset + 7 + j * 8)) = some E)
    (hS : be32Of buf (u32 (Offset + 8 + j * 8)) (u32 (Offset + 9 + j * 8))
      (u32 (Offset + 10 + j * 8)) (u32 (Offset + 11 + j * 8)) = some S)
    (hF : be16Of buf (u32 (Offset + S + 0)) (u32 (Offset + S + 1)) = some F)
    (hL : be16Of buf (u32 (Offset + S + 2)) (u32 (Offset + S + 3)) = some L)
    (hLa : be16Of buf (u32 (Offset + S + 4)) (u32 (Offset + S + 5)) = some La)
    (hl : L < 6) (hf : F ≠ 2 ∧ F ≠ 4 ∧ F ≠ 8)
    (hin : Offset + S + 6 + (65530 + L) ≤ buf.length) :
    ∃ st, readEncodingSubtable buf Offset j = Outcome.ok st ∧ st.SubOffset = S ∧
      st.Format = F ∧ st.Length = L := by
  have hn : u16 (L + 2 ^ 16 - 6) = 65530 + L := by
    unfold u16
    omega
  have hin2 : ∀ k, k < u16 (L + 2 ^ 16 - 6) → Offset + S + 6 + k < buf.length := by
    intro k hk
    rw [hn] at hk
    omega
  by_cases h6 : F = 6
  · subst h6
    exact readEncodingSubtable_format6 hP hE hS hF hL hLa hin2 (by omega)
  · obtain ⟨G, hG⟩ := readEncodingSubtable_other_format hP hE hS hF hL hLa
      ⟨hf.1, hf.2.1, h6, hf.2.2⟩ hin2
    exact ⟨_, hG, rfl, rfl, rfl⟩

/-- The glyph index array of a decoded subtable whose length field is below 6
has `65530 + Length` elements, and these bytes lie in the buffer. -/
theorem readEncodingSubtable_short_glyphs {buf : List Byte} {Offset j : Nat}
    {st : CmapSubTable} (h : readEncodingSubtable buf Offset j = Outcome.ok st)
    (hl : st.Length < 6) :
    st.GlyphIndexArray.length = 65530 + st.Length ∧
    Offset + st.SubOffset + 6 + (65530 + st.Length) ≤ buf.length := by
  have hn : u16 (st.Length + 2 ^ 16 - 6) = 65530 + st.Length := by
    unfold u16
    omega
  obtain ⟨hlen, hk⟩ := readEncodingSubtable_glyphs h
  rw [hn] at hlen hk
  refine ⟨hlen, ?_⟩
  obtain ⟨b, hb, -⟩ := hk (65529 + st.Length) (by omega)
  have := (List.getElem?_eq_some.1 hb).1
  omega

theorem be16Of_append_left {l r : List Byte} {i0 i1 : Nat} (h0 : i0 < l.length)
    (h1 : i1 < l.length) : be16Of (l ++ r) i0 i1 = be16Of l i0 i1 := by
  unfold be16Of
  rw [List.getElem?_append_left h0, List.getElem?_append_left h1]

theorem be32Of_append_left {l r : List Byte} {i0 i1 i2 i3 : Nat} (h0 : i0 < l.length)
    (h1 : i1 < l.length) (h2 : i2 < l.length) (h3 : i3 < l.length) :
    be32Of (l ++ r) i0 i1 i2 i3 = be32Of l i0 i1 i2 i3 := by
  unfold be32Of
  rw [List.getElem?_append_left h0, List.getElem?_append_left h1,
    List.getElem?_append_left h2, List.getElem?_append_left h3]

theorem dirTag_append_left {l r : List Byte} {i : Nat} (h : 15 + i * 16 < l.length) :
    dirTag (l ++ r) i = dirTag l i := by
  unfold dirTag
  rw [List.getElem?_append_left (by omega : 12 + i * 16 < l.length),
    List.getElem?_append_left (by omega : 13 + i * 16 < l.length),
    List.getElem?_append_left (by omega : 14 + i * 16 < l.length),
    List.getElem?_append_left h]

theorem shortLengthFormat0Font_be16Of {i0 i1 : Nat} (h0 : i0 < 46) (h1 : i1 < 46) :
    be16Of shortLengthFormat0Font i0 i1 = be16Of shortLengthFormat0Head i0 i1 :=
  be16Of_append_left h0 h1

theorem shortLengthFormat0Font_be32Of {i0 i1 i2 i3 : Nat} (h0 : i0 < 46) (h1 : i1 < 46)
    (h2 : i2 < 46) (h3 : i3 < 46) :
    be32Of shortLengthFormat0Font i0 i1 i2 i3 = be32Of shortLengthFormat0Head i0 i1 i2 i3 :=
  be32Of_append_left h0 h1 h2 h3

theorem shortLengthFormat4Font_be16Of {i0 i1 : Nat} (h0 : i0 < 48) (h1 : i1 < 48) :
    be16Of shortLengthFormat4Font i0 i1 = be16Of shortLengthFormat4Head i0 i1 :=
  be16Of_append_left h0 h1

theorem shortLengthFormat4Font_be32Of {i0 i1 i2 i3 : Nat} (h0 : i0 < 48) (h1 : i1 < 48)
    (h2 : i2 < 48) (h3 : i3 < 48) :
    be32Of shortLengthFormat4Font i0 i1 i2 i3 = be32Of shortLengthFormat4Head i0 i1 i2 i3 :=
  be32Of_append_left h0 h1 h2 h3

theorem shortLengthFormat0Font_length : shortLengthFormat0Font.length = 65576 := by
  unfold shortLengthFormat0Font
  rw [List.length_append, List.length_replicate]
  rfl

theorem shortLengthFormat4Font_length : shortLengthFormat4Font.length = 65576 := by
  unfold shortLengthFormat4Font
  rw [List.length_append, List.length_replicate]
  rfl

/-- The subtable of `shortLengthFormat4Font` does not decode: its first array
has 32767 elements and leaves the buffer. -/
theorem readEncodingSubtable_shortLengthFormat4Font (st : CmapSubTable) :
    readEncodingSubtable shortLengthFormat4Font 28 0 ≠ Outcome.ok st := by
  intro h
  obtain ⟨-, -, hS, hF, -, -, -, hsw⟩ := readEncodingSubtable_ok h
  have vS : be32Of shortLengthFormat4Font (u32 (28 + 8 + 0 * 8)) (u32 (28 + 9 + 0 * 8))
      (u32 (28 + 10 + 0 * 8)) (u32 (28 + 11 + 0 * 8)) = some 12 :=
    (shortLengthFormat4Font_be32Of (by decide) (by decide) (by decide) (by decide)).trans
      (by decide)
  rw [vS] at hS
  have eS : st.SubOffset = 12 := (Option.some.inj hS).symm
  rw [eS] at hF
  have vF : be16Of shortLengthFormat4Font (u32 (28 + 12 + 0)) (u32 (28 + 12 + 1)) = some 4 :=
    (shortLengthFormat4Font_be16Of (by decide) (by decide)).trans (by decide)
  rw [vF] at hF
  have eF : st.Format = 4 := (Option.some.inj hF).symm
  rw [eF, if_neg (by decide), if_pos rfl] at hsw
  obtain ⟨-, -, -, -, hX2, -, hk⟩ := readFormat4_layout hsw
  have hb : 28 + (beforeSwitch st).SubOffset = 40 := by
    show 28 + st.SubOffset = 40
    rw [eS]
  rw [hb] at hX2 hk
  have vX : u16AtMod shortLengthFormat4Font (40 + 6) = some 65534 :=
    (shortLengthFormat4Font_be16Of (by decide) (by decide)).trans (by decide)
  rw [vX] at hX2
  have eX : st.SegCountX2 = 65534 := (Option.some.inj hX2).symm
  obtain ⟨⟨x, -, hx⟩, -⟩ := hk 32761 (by rw [eX]; decide)
  have hlt := (be16Of_lt_length hx).1
  rw [shortLengthFormat4Font_length] at hlt
  exact absurd hlt (by decide)

set_option maxRecDepth 100000 in
theorem NewTTF_shortLengthFormat4Font :
    NewTTF "short4.ttf" (Outcome.ok shortLengthFormat4Font) = Outcome.panicked := by
  rcases hres : NewTTF "short4.ttf" (Outcome.ok shortLengthFormat4Font) with f | m | _
  · exfalso
    obtain ⟨⟨hdr, hhdr, hfEq⟩, -, hall⟩ := NewTTF_tables hres
    have hN0 := (readTTFInfo_eq_ok hhdr).2.2.1
    have vN : u16At shortLengthFormat4Font 4 = some 1 :=
      (shortLengthFormat4Font_be16Of (by decide) (by decide)).trans (by decide)
    rw [vN] at hN0
    have hN : f.NumTables = 1 := by
      rw [hfEq]
      exact (Option.some.inj hN0).symm
    rw [hN] at hall
    have htag : dirTag shortLengthFormat4Font 0 = some cmapTag :=
      (dirTag_append_left (by decide)).trans (by decide)
    have hd : decodedIndices shortLengthFormat4Font 0 1 = [0] := by
      rw [decodedIndices_succ, decodedIndices_zero, if_pos (isDecoded_iff.2 (Or.inl htag))]
    rw [hd] at hall
    obtain ⟨e, l, he, -, -⟩ := List.forall₂_cons_left_iff.1 hall
    have hdec : readCmapTable shortLengthFormat4Font 0 = Outcome.ok e := by
      unfold decodeRecord at he
      rw [if_pos htag] at he
      exact he
    have hOff := (decodeRecord_fields he).2.2.1
    have vO : u32At shortLengthFormat4Font (12 + 16 * 0 + 8) = some 28 :=
      (shortLengthFormat4Font_be32Of (by decide) (by decide) (by decide) (by decide)).trans
        (by decide)
    rw [vO] at hOff
    have eO : e.Offset = 28 := (Option.some.inj hOff).symm
    obtain ⟨c, -, -, hNs, -, hsub⟩ := readCmapTable_subtables hdec
    rw [eO] at hNs hsub
    have vNs : be16Of shortLengthFormat4Font (u32 (28 + 2)) (u32 (28 + 3)) = some 1 :=
      (shortLengthFormat4Font_be16Of (by decide) (by decide)).trans (by decide)
    rw [vNs] at hNs
    have eNs : c.NumberSubtables = 1 := (Option.some.inj hNs).symm
    obtain ⟨st, -, hst⟩ := hsub 0 (by rw [eNs]; decide)
    exact readEncodingSubtable_shortLengthFormat4Font st hst
  · exfalso
    obtain ⟨-, -, s, hs, h1, -⟩ := NewTTF_eq_err hres
    have vM : u32At shortLengthFormat4Font 0 = some 65536 :=
      (shortLengthFormat4Font_be32Of (by decide) (by decide) (by decide) (by decide)).trans
        (by decide)
    rw [vM] at hs
    exact h1 (Option.some.inj hs).symm
  · rfl

set_option maxRecDepth 100000 in
theorem readCmapTable_format6ShortFont :
    readCmapTable format6ShortFont 0 = Outcome.ok format6ShortEntry := by
  decide

/-! ## The claims -/

/-! ### C1: outcomes of parsing -/

/-- Claim C1, as stated, fails: eleven zero bytes are not rejected with an
error, `NewTTF` panics on them with an out-of-range index. -/
theorem short_buffer_panics :
    elevenZeroBytes.length = 11 ∧
      NewTTF "font.ttf" (Outcome.ok elevenZeroBytes) = Outcome.panicked := by
  decide

/-- Claim C1, amended: an out-of-range read is a panic, not an error.
`readTTFInfo` panics exactly on the buffers shorter than 12 bytes, and so does
`NewTTF` on each of them; an error from `NewTTF` is always the invalid-magic
error `not a ttf or otf file` of a buffer of at least 12 bytes whose first four
bytes are neither magic; `readTTFTables` never returns an error. -/
theorem parse_outcomes (fileName : String) (buf : List Byte) :
    (readTTFInfo (emptyTTF fileName) buf = Outcome.panicked ↔ buf.length < 12) ∧
    (buf.length < 12 → NewTTF fileName (Outcome.ok buf) = Outcome.panicked) ∧
    (∀ m, NewTTF fileName (Outcome.ok buf) = Outcome.err m →
      m = "not a ttf or otf file" ∧ 12 ≤ buf.length ∧
        ∃ s, u32At buf 0 = some s ∧ s ≠ TTF_MAGIC ∧ s ≠ OTF_MAGIC) ∧
    (∀ ttf m, readTTFTables ttf buf ≠ Outcome.err m) := by
  refine ⟨readTTFInfo_panicked_iff _ _, ?_, ?_, fun ttf m => readTTFTables_noErr ttf buf m⟩
  · intro h
    have hp := (readTTFInfo_panicked_iff (emptyTTF fileName) buf).2 h
    simp only [NewTTF, bind_eq_bind, ok_bind]
    rw [show ({ File := fileName, Tables := [] } : TTF) = emptyTTF fileName from rfl, hp]
    rfl
  · intro m h
    exact NewTTF_eq_err h

/-- The amended claim C1 at eleven zero bytes. -/
theorem parse_outcomes_witness :
    elevenZeroBytes.length < 12 ∧
      NewTTF "font.ttf" (Outcome.ok elevenZeroBytes) = Outcome.panicked :=
  ⟨by decide, (parse_outcomes "font.ttf" elevenZeroBytes).2.1 (by decide)⟩

/-! ### C2: the magic check -/

/-- Claim C2: on a buffer of at least 12 bytes `readTTFInfo` returns an error
if and only if the big-endian value of bytes 0..3 is neither `0x00010000` nor
`0x74727565`; it then returns the invalid-magic error, and so does `NewTTF`,
which decodes no table. -/
theorem readTTFInfo_error_iff (ttf : TTF) (buf : List Byte) (h : 12 ≤ buf.length) :
    ∃ s, u32At buf 0 = some s ∧
      ((∃ m, readTTFInfo ttf buf = Outcome.err m) ↔ (s ≠ 0x00010000 ∧ s ≠ 0x74727565)) ∧
      ((s ≠ 0x00010000 ∧ s ≠ 0x74727565) →
        readTTFInfo ttf buf = Outcome.err "not a ttf or otf file" ∧
        ∀ fileName, NewTTF fileName (Outcome.ok buf) = Outcome.err "not a ttf or otf file") := by
  obtain ⟨b0, b1, b2, b3, b4, b5, b6, b7, b8, b9, b10, b11, rest, rfl⟩ :=
    exists_header_of_length h
  refine ⟨16777216 * b0.val + 65536 * b1.val + 256 * b2.val + b3.val,
    by simp [u32At, be32Of], ?_, ?_⟩
  · rw [readTTFInfo_cons]
    simp only [TTF_MAGIC, OTF_MAGIC]
    split
    · rename_i hm
      exact ⟨fun _ => hm, fun _ => ⟨_, rfl⟩⟩
    · rename_i hm
      exact ⟨fun ⟨m, hm2⟩ => (by cases hm2), fun hc => absurd hc hm⟩
  · intro hm
    have e : ∀ t : TTF, readTTFInfo t
        (b0 :: b1 :: b2 :: b3 :: b4 :: b5 :: b6 :: b7 :: b8 :: b9 :: b10 :: b11 :: rest) =
          Outcome.err "not a ttf or otf file" := by
      intro t
      rw [readTTFInfo_cons]
      simp only [TTF_MAGIC, OTF_MAGIC]
      rw [if_pos hm]
    refine ⟨e ttf, fun fileName => ?_⟩
    simp only [NewTTF, bind_eq_bind, ok_bind, e, err_bind]

/-- Claim C2 at a 12-byte buffer whose scaler type is `0xDEADBEEF`: the
invalid-magic error. -/
theorem readTTFInfo_error_iff_witness :
    12 ≤ badMagicBuffer.length ∧ u32At badMagicBuffer 0 = some 0xDEADBEEF ∧
      NewTTF "bad.ttf" (Outcome.ok badMagicBuffer) = Outcome.err "not a ttf or otf file" := by
  obtain ⟨s, hs, -, h⟩ := readTTFInfo_error_iff (emptyTTF "bad.ttf") badMagicBuffer (by decide)
  have hs' : u32At badMagicBuffer 0 = some 0xDEADBEEF := by decide
  rw [hs'] at hs
  cases hs
  exact ⟨by decide, hs', (h (by decide)).2 "bad.ttf"⟩

/-! ### C3: the header fields -/

/-- Claim C3: on a buffer of at least 12 bytes with a valid scaler type
`readTTFInfo` returns, and the five header fields are the big-endian values of
bytes 0..3, 4..5, 6..7, 8..9 and 10..11, whatever the hint fields hold; a font
returned by `NewTTF` carries the same five values. -/
theorem readTTFInfo_fields (ttf : TTF) (buf : List Byte) (s : Nat) (h : 12 ≤ buf.length)
    (hs : u32At buf 0 = some s) (hm : s = 0x00010000 ∨ s = 0x74727565) :
    ∃ hdr, readTTFInfo ttf buf = Outcome.ok hdr ∧
      u32At buf 0 = some hdr.ScalerType ∧ u16At buf 4 = some hdr.NumTables ∧
      u16At buf 6 = some hdr.SearchRange ∧ u16At buf 8 = some hdr.EntrySelector ∧
      u16At buf 10 = some hdr.RangeShift ∧
      ∀ fileName font, NewTTF fileName (Outcome.ok buf) = Outcome.ok font →
        font.ScalerType = hdr.ScalerType ∧ font.NumTables = hdr.NumTables ∧
        font.SearchRange = hdr.SearchRange ∧ font.EntrySelector = hdr.EntrySelector ∧
        font.RangeShift = hdr.RangeShift := by
  obtain ⟨b0, b1, b2, b3, b4, b5, b6, b7, b8, b9, b10, b11, rest, rfl⟩ :=
    exists_header_of_length h
  have hs' : s = 16777216 * b0.val + 65536 * b1.val + 256 * b2.val + b3.val := by
    simpa [u32At, be32Of, eq_comm] using hs
  have hm' : ¬ (16777216 * b0.val + 65536 * b1.val + 256 * b2.val + b3.val ≠ TTF_MAGIC ∧
      16777216 * b0.val + 65536 * b1.val + 256 * b2.val + b3.val ≠ OTF_MAGIC) := by
    rw [← hs']
    simp only [TTF_MAGIC, OTF_MAGIC]
    rcases hm with hm | hm <;> simp [hm]
  have e : ∀ t : TTF, readTTFInfo t
      (b0 :: b1 :: b2 :: b3 :: b4 :: b5 :: b6 :: b7 :: b8 :: b9 :: b10 :: b11 :: rest) =
        Outcome.ok { t with
          ScalerType := 16777216 * b0.val + 65536 * b1.val + 256 * b2.val + b3.val,
          NumTables := 256 * b4.val + b5.val,
          SearchRange := 256 * b6.val + b7.val,
          EntrySelector := 256 * b8.val + b9.val,
          RangeShift := 256 * b10.val + b11.val } := by
    intro t
    rw [readTTFInfo_cons, if_neg hm']
  refine ⟨_, e ttf, ?_, ?_, ?_, ?_, ?_, ?_⟩
  · simp [u32At, be32Of]
  · simp [u16At, be16Of]
  · simp [u16At, be16Of]
  · simp [u16At, be16Of]
  · simp [u16At, be16Of]
  · intro fileName font hfont
    obtain ⟨hdr, h1, ts, -, rfl⟩ := NewTTF_eq_ok.1 hfont
    rw [e] at h1
    cases h1
    exact ⟨rfl, rfl, rfl, rfl, rfl⟩

/-- Claim C3 at the header of `format4Font`, whose search range 16 is carried
as it stands. -/
theorem readTTFInfo_fields_witness :
    ∃ hdr, readTTFInfo (emptyTTF "format4.ttf") format4Font = Outcome.ok hdr ∧
      u32At format4Font 0 = some hdr.ScalerType ∧ u16At format4Font 4 = some hdr.NumTables ∧
      u16At format4Font 6 = some hdr.SearchRange ∧
      u16At format4Font 8 = some hdr.EntrySelector ∧
      u16At format4Font 10 = some hdr.RangeShift ∧
      ∀ fileName font, NewTTF fileName (Outcome.ok format4Font) = Outcome.ok font →
        font.ScalerType = hdr.ScalerType ∧ font.NumTables = hdr.NumTables ∧
        font.SearchRange = hdr.SearchRange ∧ font.EntrySelector = hdr.EntrySelector ∧
        font.RangeShift = hdr.RangeShift :=
  readTTFInfo_fields (emptyTTF "format4.ttf") format4Font 0x00010000 (by decide) (by decide)
    (Or.inl rfl)

/-! ### C4: number of tables -/

/-- Claim C4, as stated, fails: the font whose only directory record is tagged
`xyz ` parses, with `NumTables = 1` and no table. -/
theorem unknown_tag_contributes_no_entry :
    ∃ font, NewTTF "xyz.ttf" (Outcome.ok unknownTagFont) = Outcome.ok font ∧
      font.NumTables = 1 ∧ font.Tables.length = 0 ∧ font.NumTables ≠ font.Tables.length :=
  ⟨{ File := "xyz.ttf", ScalerType := 65536, NumTables := 1, SearchRange := 16, Tables := [] },
    by decide, rfl, rfl, by decide⟩

/-- Claim C4, amended: the number of tables of a parsed font is the number of
directory records, among the first `NumTables`, whose tag is `cmap` or `head`;
it is at most `NumTables`.  A record with any other tag is not an error and
contributes no table. -/
theorem tables_length (fileName : String) (buf : List Byte) (font : TTF)
    (h : NewTTF fileName (Outcome.ok buf) = Outcome.ok font) :
    font.Tables.length = ((List.range font.NumTables).filter (isDecoded buf)).length ∧
      font.Tables.length ≤ font.NumTables := by
  obtain ⟨-, -, hall⟩ := NewTTF_tables h
  have hlen := hall.length_eq
  have e : decodedIndices buf 0 font.NumTables =
      (List.range font.NumTables).filter (isDecoded buf) := by
    rw [decodedIndices, List.range_eq_range']
  rw [e] at hlen
  refine ⟨hlen.symm, ?_⟩
  rw [← hlen]
  calc ((List.range font.NumTables).filter (isDecoded buf)).length
      ≤ (List.range font.NumTables).length := List.length_filter_le _ _
    _ = font.NumTables := List.length_range _

/-- The amended claim C4 at the font with the `xyz ` record and at the font
with one `cmap` record. -/
theorem tables_length_witness :
    (∃ font, NewTTF "xyz.ttf" (Outcome.ok unknownTagFont) = Outcome.ok font ∧
      font.Tables.length = ((List.range font.NumTables).filter (isDecoded unknownTagFont)).length
        ∧ font.Tables.length ≤ font.NumTables) ∧
    (format4FontParsed.Tables.length =
      ((List.range format4FontParsed.NumTables).filter (isDecoded format4Font)).length ∧
      format4FontParsed.Tables.length ≤ format4FontParsed.NumTables) :=
  ⟨⟨_, by decide, tables_length "xyz.ttf" unknownTagFont
      { File := "xyz.ttf", ScalerType := 65536, NumTables := 1, SearchRange := 16, Tables := [] }
      (by decide)⟩,
    tables_length "format4.ttf" format4Font format4FontParsed NewTTF_format4Font⟩

/-! ### C5: extents of the directory records -/

/-- Claim C5, as stated, fails: the 32-byte font whose `cmap` record has offset
28 and length 1000 parses, and its table entry reaches far beyond the buffer. -/
theorem oversize_entry_accepted :
    ∃ font e, NewTTF "cmap.ttf" (Outcome.ok oversizeCmapFont) = Outcome.ok font ∧
      e ∈ font.Tables ∧ e.Offset = 28 ∧ e.Length = 1000 ∧ oversizeCmapFont.length = 32 ∧
      ¬ (e.Offset + e.Length ≤ oversizeCmapFont.length) :=
  ⟨oversizeCmapFontParsed, _, NewTTF_oversizeCmapFont, List.mem_singleton.2 rfl, rfl, rfl, rfl,
    by decide⟩

/-- Claim C5, amended: every table entry of a parsed font was read from a
16-byte directory record lying inside the buffer, whose third and fourth words
are its offset and length, and the offset of a `cmap` entry is inside the
buffer.  The length field is never checked; the only error `NewTTF` returns is
the invalid-magic error. -/
theorem entry_bounds (fileName : String) (buf : List Byte) :
    (∀ font, NewTTF fileName (Outcome.ok buf) = Outcome.ok font → ∀ e, e ∈ font.Tables →
      (∃ i, i < font.NumTables ∧ 28 + 16 * i ≤ buf.length ∧
        u32At buf (20 + 16 * i) = some e.Offset ∧ u32At buf (24 + 16 * i) = some e.Length) ∧
      (∀ c, e.Table = TTFTable.cmap c → e.Offset < buf.length)) ∧
    (∀ m, NewTTF fileName (Outcome.ok buf) = Outcome.err m → m = "not a ttf or otf file") := by
  refine ⟨?_, fun m h => (NewTTF_eq_err h).1⟩
  intro font h e he
  obtain ⟨i, hi, hdec⟩ := NewTTF_mem_tables h he
  have key : ∀ Offset Length,
      be32Of buf (20 + i * 16) (21 + i * 16) (22 + i * 16) (23 + i * 16) = some Offset →
      be32Of buf (24 + i * 16) (25 + i * 16) (26 + i * 16) (27 + i * 16) = some Length →
      28 + 16 * i ≤ buf.length ∧ u32At buf (20 + 16 * i) = some Offset ∧
        u32At buf (24 + 16 * i) = some Length := by
    intro Offset Length hOff hLen
    refine ⟨?_, u32At_of_be32Of _ hOff (by omega) (by omega) (by omega) (by omega),
      u32At_of_be32Of _ hLen (by omega) (by omega) (by omega) (by omega)⟩
    rw [← read32_eq_ok] at hLen
    simp only [read32, bind_eq_bind, pure_eq_ok, bind_eq_ok] at hLen
    obtain ⟨_, -, _, -, _, -, b3, h3, -⟩ := hLen
    have := lt_of_index_ok h3
    omega
  rcases hdec with ⟨-, hc⟩ | ⟨-, hh⟩
  · obtain ⟨Tag, -, CheckSum, -, Offset, hOff, Length, hLen, Version, hV, N, -, subs, -, rfl⟩ :=
      readCmapTable_eq_ok.1 hc
    refine ⟨⟨i, hi, key Offset Length hOff hLen⟩, ?_⟩
    intro c _
    have h0 := (be16Of_lt_length hV).1
    rw [Nat.add_zero, u32_of_lt (be32Of_lt hOff)] at h0
    exact h0
  · obtain ⟨hTag, hCk, hOff, hLen, ⟨t, ht⟩, -⟩ := readHeadTable_ok hh
    refine ⟨⟨i, hi, key _ _ hOff hLen⟩, ?_⟩
    intro c hc
    rw [ht] at hc
    cases hc

/-- The amended claim C5 at the font whose `cmap` record has length 1000. -/
theorem entry_bounds_witness :
    ∀ e, e ∈ oversizeCmapFontParsed.Tables →
      (∃ i, i < oversizeCmapFontParsed.NumTables ∧ 28 + 16 * i ≤ oversizeCmapFont.length ∧
        u32At oversizeCmapFont (20 + 16 * i) = some e.Offset ∧
        u32At oversizeCmapFont (24 + 16 * i) = some e.Length) ∧
      (∀ c, e.Table = TTFTable.cmap c → e.Offset < oversizeCmapFont.length) :=
  (entry_bounds "cmap.ttf" oversizeCmapFont).1 oversizeCmapFontParsed NewTTF_oversizeCmapFont

/-! ### C9: the payload follows the tag -/

/-- Claim C9: in a parsed font, an entry whose tag prints as `cmap` holds a
`CmapTable` and an entry whose tag prints as `head` holds a `HeadTable`, so the
type assertions made after switching on `PrintTagName` succeed. -/
theorem payload_matches_tag (fileName : String) (buf : List Byte) (font : TTF)
    (h : NewTTF fileName (Outcome.ok buf) = Outcome.ok font) (e : TTFTableInfo)
    (he : e ∈ font.Tables) :
    (PrintTagName e.Tag = cmapTag →
      ∃ c, e.Table = TTFTable.cmap c ∧ assertCmapTable e.Table = Outcome.ok c) ∧
    (PrintTagName e.Tag = headTag →
      ∃ t, e.Table = TTFTable.head t ∧ assertHeadTable e.Table = Outcome.ok t) := by
  have hne : cmapTag ≠ headTag := by decide
  obtain ⟨i, -, hdec⟩ := NewTTF_mem_tables h he
  rcases hdec with ⟨htag, hc⟩ | ⟨htag, hh⟩
  · obtain ⟨Tag, hTag, CheckSum, -, Offset, -, Length, -, Version, -, N, -, subs, -, rfl⟩ :=
      readCmapTable_eq_ok.1 hc
    have hp : PrintTagName Tag = cmapTag := by
      have := dirTag_of_be32Of hTag
      rw [htag] at this
      exact (Option.some.inj this).symm
    refine ⟨fun _ => ⟨_, rfl, rfl⟩, fun hhead => ?_⟩
    exact absurd (hp.symm.trans hhead) hne
  · obtain ⟨hTag, -, -, -, ⟨t, ht⟩, -⟩ := readHeadTable_ok hh
    have hp : PrintTagName e.Tag = headTag := by
      have := dirTag_of_be32Of hTag
      rw [htag] at this
      exact (Option.some.inj this).symm
    refine ⟨fun hcmap => ?_, fun _ => ⟨t, ht, by rw [ht]; rfl⟩⟩
    exact absurd (hcmap.symm.trans hp) hne

/-- Claim C9 at the `cmap` entry of `format4Font` and at the `head` entry of
`shiftedHeadFont`. -/
theorem payload_matches_tag_witness :
    (∀ e, e ∈ format4FontParsed.Tables →
      PrintTagName e.Tag = cmapTag ∧
        ∃ c, e.Table = TTFTable.cmap c ∧ assertCmapTable e.Table = Outcome.ok c) ∧
    (∀ e, e ∈ shiftedHeadFontParsed.Tables →
      PrintTagName e.Tag = headTag ∧
        ∃ t, e.Table = TTFTable.head t ∧ assertHeadTable e.Table = Outcome.ok t) := by
  constructor
  · intro e he
    have hp : PrintTagName e.Tag = cmapTag := by
      rw [List.mem_singleton.1 he]; decide
    exact ⟨hp, (payload_matches_tag "format4.ttf" format4Font format4FontParsed
      NewTTF_format4Font e he).1 hp⟩
  · intro e he
    have hp : PrintTagName e.Tag = headTag := by
      rw [List.mem_singleton.1 he]; decide
    exact ⟨hp, (payload_matches_tag "head.ttf" shiftedHeadFont shiftedHeadFontParsed
      NewTTF_shiftedHeadFont e he).2 hp⟩

/-! ### C6: the head table -/

/-- Claim C6 fails on the code: `shiftedHeadFont` holds a head table at the
offset 28 of its `head` record, with magic number `0x5F0F3CF5`, 2048 units per
em and `indexToLocFormat = 1`, and `NewTTF` returns a `HeadTable` whose fields
are those of bytes 0..53 instead: magic number `0x68656164` (the tag of the
directory record), 0 units per em and `indexToLocFormat = 0`. -/
theorem head_decoded_from_buffer_start :
    ∃ font e t, NewTTF "head.ttf" (Outcome.ok shiftedHeadFont) = Outcome.ok font ∧
      font.Tables = [e] ∧ e.Table = TTFTable.head t ∧ e.Offset = 28 ∧
      u32At shiftedHeadFont (e.Offset + 12) = some 0x5F0F3CF5 ∧ t.MagicNumber = 0x68656164 ∧
      u16At shiftedHeadFont (e.Offset + 18) = some 2048 ∧ t.UnitPerEm = 0 ∧
      u16At shiftedHeadFont (e.Offset + 50) = some 1 ∧ t.IndexToLocFormat = 0 :=
  ⟨shiftedHeadFontParsed, _, _, NewTTF_shiftedHeadFont, rfl, rfl, rfl, by decide, rfl,
    by decide, rfl, by decide, rfl⟩

/-! ### C10: the directory record -/

/-- Claim C10: the tag, checksum, offset and length of a table entry decoded
from directory index `i`, by either decoder, are the big-endian values of the
four consecutive 4-byte words of the 16-byte record at byte `12 + 16 * i`. -/
theorem directory_record_fields (buf : List Byte) (i : Nat) (ti : TTFTableInfo)
    (h : readCmapTable buf i = Outcome.ok ti ∨ readHeadTable buf i = Outcome.ok ti) :
    u32At buf (12 + 16 * i) = some ti.Tag ∧ u32At buf (12 + 16 * i + 4) = some ti.CheckSum ∧
    u32At buf (12 + 16 * i + 8) = some ti.Offset ∧
    u32At buf (12 + 16 * i + 12) = some ti.Length := by
  have key : ∀ Tag CheckSum Offset Length,
      be32Of buf (12 + i * 16) (13 + i * 16) (14 + i * 16) (15 + i * 16) = some Tag →
      be32Of buf (16 + i * 16) (17 + i * 16) (18 + i * 16) (19 + i * 16) = some CheckSum →
      be32Of buf (20 + i * 16) (21 + i * 16) (22 + i * 16) (23 + i * 16) = some Offset →
      be32Of buf (24 + i * 16) (25 + i * 16) (26 + i * 16) (27 + i * 16) = some Length →
      u32At buf (12 + 16 * i) = some Tag ∧ u32At buf (12 + 16 * i + 4) = some CheckSum ∧
      u32At buf (12 + 16 * i + 8) = some Offset ∧ u32At buf (12 + 16 * i + 12) = some Length := by
    intro Tag CheckSum Offset Length hTag hCk hOff hLen
    exact ⟨u32At_of_be32Of _ hTag (by omega) (by omega) (by omega) (by omega),
      u32At_of_be32Of _ hCk (by omega) (by omega) (by omega) (by omega),
      u32At_of_be32Of _ hOff (by omega) (by omega) (by omega) (by omega),
      u32At_of_be32Of _ hLen (by omega) (by omega) (by omega) (by omega)⟩
  rcases h with hc | hh
  · obtain ⟨Tag, hTag, CheckSum, hCk, Offset, hOff, Length, hLen, Version, -, N, -, subs, -,
      rfl⟩ := readCmapTable_eq_ok.1 hc
    exact key _ _ _ _ hTag hCk hOff hLen
  · obtain ⟨hTag, hCk, hOff, hLen, -, -⟩ := readHeadTable_ok hh
    exact key _ _ _ _ hTag hCk hOff hLen

/-- Claim C10 at record 0 of `format4Font`: tag `cmap`, checksum 0, offset 28,
length 36. -/
theorem directory_record_fields_witness :
    readCmapTable format4Font 0 = Outcome.ok format4Entry ∧
      format4Entry.Tag = 0x636D6170 ∧ format4Entry.CheckSum = 0 ∧ format4Entry.Offset = 28 ∧
      format4Entry.Length = 36 ∧
      u32At format4Font (12 + 16 * 0) = some format4Entry.Tag ∧
      u32At format4Font (12 + 16 * 0 + 4) = some format4Entry.CheckSum ∧
      u32At format4Font (12 + 16 * 0 + 8) = some format4Entry.Offset ∧
      u32At format4Font (12 + 16 * 0 + 12) = some format4Entry.Length :=
  ⟨readCmapTable_format4Font, rfl, rfl, rfl, rfl,
    directory_record_fields format4Font 0 format4Entry (Or.inl readCmapTable_format4Font)⟩

/-! ### C8: the cmap header and the encoding records -/

/-- Claim C8, amended: for every cmap table that decodes, the version and the
number of subtables are the big-endian 16-bit words at `offset + 0` and
`offset + 2`, there are exactly `NumberSubtables` subtables, and subtable `j`
carries the platform ID, encoding ID and sub-offset stored in the 8-byte record
at `offset + 4 + 8 * j`, every position being reduced modulo `2^32`; the
positions are the plain sums whenever `offset + 4 + 8 * NumberSubtables` is at
most `2^32`, which is the case for every buffer of at most `2^32 - 2^19`
bytes. -/
theorem cmap_header_layout (buf : List Byte) (i : Nat) (ti : TTFTableInfo)
    (h : readCmapTable buf i = Outcome.ok ti) :
    ∃ c, ti.Table = TTFTable.cmap c ∧
      CmapHeaderLayout (u16AtMod buf) (u32AtMod buf) ti.Offset c ∧
      (ti.Offset + 4 + 8 * c.NumberSubtables ≤ 2 ^ 32 →
        CmapHeaderLayout (u16At buf) (u32At buf) ti.Offset c) ∧
      (buf.length + 2 ^ 19 ≤ 2 ^ 32 →
        CmapHeaderLayout (u16At buf) (u32At buf) ti.Offset c) := by
  obtain ⟨c, hc, hV, hN, hlen, hsub⟩ := readCmapTable_subtables h
  have hoff := readCmapTable_offset_lt h
  have hnum : c.NumberSubtables < 2 ^ 16 := be16Of_lt hN
  have hmod : CmapHeaderLayout (u16AtMod buf) (u32AtMod buf) ti.Offset c := by
    refine ⟨u16AtMod_of_be16Of _ hV rfl rfl, u16AtMod_of_be16Of _ hN rfl rfl, hlen, ?_⟩
    intro j hj
    obtain ⟨st, hst, hdec⟩ := hsub j hj
    obtain ⟨hP, hE, hS, -⟩ := readEncodingSubtable_ok hdec
    exact ⟨st, hst, u16AtMod_of_be16Of _ hP (by omega) (by omega),
      u16AtMod_of_be16Of _ hE (by omega) (by omega),
      u32AtMod_of_be32Of _ hS (by omega) (by omega) (by omega) (by omega)⟩
  have hlit : ti.Offset + 4 + 8 * c.NumberSubtables ≤ 2 ^ 32 →
      CmapHeaderLayout (u16At buf) (u32At buf) ti.Offset c := by
    intro hb
    obtain ⟨h1, h2, h3, h4⟩ := hmod
    refine ⟨?_, ?_, h3, ?_⟩
    · rw [← u16AtMod_eq_u16At buf (by omega)]; exact h1
    · rw [← u16AtMod_eq_u16At buf (by omega)]; exact h2
    · intro j hj
      obtain ⟨st, hst, hP, hE, hS⟩ := h4 j hj
      refine ⟨st, hst, ?_, ?_, ?_⟩
      · rw [← u16AtMod_eq_u16At buf (by omega)]; exact hP
      · rw [← u16AtMod_eq_u16At buf (by omega)]; exact hE
      · rw [← u32AtMod_eq_u32At buf (by omega)]; exact hS
  exact ⟨c, hc, hmod, hlit, fun hb => hlit (by omega)⟩

/-- The amended claim C8 at the cmap table of `format4Font`: version 0, one
subtable, platform 3, encoding 1, sub-offset 12, read at the plain positions
28, 30, 32, 34 and 36. -/
theorem cmap_header_layout_witness :
    readCmapTable format4Font 0 = Outcome.ok format4Entry ∧
    ∃ c, format4Entry.Table = TTFTable.cmap c ∧
      CmapHeaderLayout (u16AtMod format4Font) (u32AtMod format4Font) format4Entry.Offset c ∧
      CmapHeaderLayout (u16At format4Font) (u32At format4Font) format4Entry.Offset c := by
  obtain ⟨c, hc, hmod, hlit, -⟩ :=
    cmap_header_layout format4Font 0 format4Entry readCmapTable_format4Font
  have hn : c.NumberSubtables = 1 := by
    have e : TTFTable.cmap c = format4Entry.Table := hc.symm
    simp only [format4Entry, TTFTable.cmap.injEq] at e
    rw [e]
    rfl
  refine ⟨readCmapTable_format4Font, c, hc, hmod, hlit ?_⟩
  rw [hn]
  decide

/-! ### C8, continued -/

/-- Claim C8, as stated, fails on a buffer of `2^32 + 1` bytes: the cmap table
of `giantFont` is at offset `0xFFFFFFFD`, the code reads the second byte of its
subtable count at position `(offset + 3) mod 2^32 = 0` and decodes no subtable,
while the big-endian 16-bit word at `offset + 2` is 5. -/
theorem cmap_header_wraps :
    ∃ font e c, NewTTF "giant.ttf" (Outcome.ok giantFont) = Outcome.ok font ∧
      font.Tables = [e] ∧ e.Table = TTFTable.cmap c ∧ e.Offset = 0xFFFFFFFD ∧
      c.NumberSubtables = 0 ∧ c.EncodingSubtables = [] ∧
      u16At giantFont (e.Offset + 2) = some 5 ∧
      ¬ CmapHeaderLayout (u16At giantFont) (u32At giantFont) e.Offset c := by
  refine ⟨giantFontParsed, _, _, NewTTF_of_giantShape giantFont_shape, rfl, rfl, rfl, rfl, rfl,
    u16At_of_giantShape giantFont_shape, ?_⟩
  intro hl
  have h2 := hl.2.1
  rw [show (4294967293 : Nat) + 2 = 0xFFFFFFFD + 2 from rfl,
    u16At_of_giantShape giantFont_shape] at h2
  cases h2

/-! ### C7: the format-4 subtable -/

/-- Claim C7, as stated, fails: in `wrappedFormat4Font` the sum of the cmap
offset 60 and the sub-offset `0xFFFFFFE0` is `2^32 + 28`; the format-4
subtable decodes, with `endCode = [0xFFFF]` read at position
`(60 + 0xFFFFFFE0 + 14) mod 2^32 = 42`, and the 72-byte buffer has no byte at
position `60 + 0xFFFFFFE0 + 14`. -/
theorem format4_positions_wrap :
    ∃ font e c st, NewTTF "wrapped.ttf" (Outcome.ok wrappedFormat4Font) = Outcome.ok font ∧
      font.Tables = [e] ∧ e.Table = TTFTable.cmap c ∧ c.EncodingSubtables = [st] ∧
      st.Format = 4 ∧ e.Offset = 60 ∧ st.SubOffset = 0xFFFFFFE0 ∧ st.SegCountX2 / 2 = 1 ∧
      st.EndCode = [0xFFFF] ∧ wrappedFormat4Font.length = 72 ∧
      u16At wrappedFormat4Font (e.Offset + st.SubOffset + 14 + 2 * 0) = none ∧
      ¬ Format4Layout (u16At wrappedFormat4Font) (e.Offset + st.SubOffset) st := by
  refine ⟨wrappedFormat4FontParsed, _, _, _, NewTTF_wrappedFormat4Font, rfl, rfl, rfl, rfl, rfl,
    rfl, rfl, rfl, rfl, by decide, ?_⟩
  intro hl
  obtain ⟨x, -, hx⟩ := (hl.2.2.2.2.2.2 0 (by decide)).1
  have hnone : u16At wrappedFormat4Font
      (wrappedFormat4Entry.Offset + wrappedFormat4Subtable.SubOffset + 14 + 2 * 0) = none := by
    decide
  rw [hnone] at hx
  cases hx

/-- Claim C7, amended: for every format-4 subtable of a cmap table that
decodes, with `base = offset + SubOffset` and `segCount = SegCountX2 / 2`, the
four arrays have `segCount` elements each, `EndCode[k]` is the big-endian 16-bit
word at `base + 14 + 2k`, `ReservedPad` the one at `base + 14 + 2 segCount`,
`StartCode[k]`, `IdDelta[k]`, `IdRangeOffset[k]` the ones at
`base + 16 + 2 segCount + 2k`, `base + 16 + 4 segCount + 2k`,
`base + 16 + 6 segCount + 2k`, every position being reduced modulo `2^32`; the
positions are the plain sums whenever `base + 16 + 8 segCount` is at most
`2^32`. -/
theorem format4_layout (buf : List Byte) (i : Nat) (ti : TTFTableInfo) (c : CmapTable)
    (j : Nat) (st : CmapSubTable) (h : readCmapTable buf i = Outcome.ok ti)
    (hc : ti.Table = TTFTable.cmap c) (hst : c.EncodingSubtables[j]? = some st)
    (hf : st.Format = 4) :
    Format4Layout (u16AtMod buf) (ti.Offset + st.SubOffset) st ∧
    (ti.Offset + st.SubOffset + 16 + 8 * (st.SegCountX2 / 2) ≤ 2 ^ 32 →
      Format4Layout (u16At buf) (ti.Offset + st.SubOffset) st) := by
  obtain ⟨c2, hc2, -, -, hlen, hsub⟩ := readCmapTable_subtables h
  rw [hc] at hc2
  cases hc2
  have hj : j < c.NumberSubtables := by
    rw [← hlen]
    exact (List.getElem?_eq_some.1 hst).1
  obtain ⟨st2, hst2, hdec⟩ := hsub j hj
  rw [hst] at hst2
  cases hst2
  have hsw := (readEncodingSubtable_ok hdec).2.2.2.2.2.2.2
  rw [if_neg (by rw [hf]; decide), if_pos hf] at hsw
  have hmod := readFormat4_layout hsw
  have e : (beforeSwitch st).SubOffset = st.SubOffset := rfl
  rw [e] at hmod
  exact ⟨hmod, Format4Layout_of_mod hmod⟩

/-- The amended claim C7 at `format4Font`: the subtable with `segCount = 1` is
decoded to `endCode = [0xFFFF]`, `startCode = [0xFFFF]`, `idDelta = [1]`,
`idRangeOffset = [0]`, read at the plain positions. -/
theorem format4_layout_witness :
    ∃ c st, readCmapTable format4Font 0 = Outcome.ok format4Entry ∧
      format4Entry.Table = TTFTable.cmap c ∧ c.EncodingSubtables[0]? = some st ∧
      st.Format = 4 ∧ st.SegCountX2 / 2 = 1 ∧ st.EndCode = [0xFFFF] ∧
      st.StartCode = [0xFFFF] ∧ st.IdDelta = [1] ∧ st.IdRangeOffset = [0] ∧
      Format4Layout (u16At format4Font) (format4Entry.Offset + st.SubOffset) st :=
  ⟨format4Cmap, format4Subtable, readCmapTable_format4Font, rfl, rfl, rfl, rfl, rfl, rfl,
    rfl, rfl,
    (format4_layout format4Font 0 format4Entry format4Cmap 0 format4Subtable
      readCmapTable_format4Font rfl rfl rfl).2 (by decide)⟩

/-! ### C19: a font without tables -/

/-- Claim C19: a buffer of at least 12 bytes whose scaler type is `0x00010000`
or `0x74727565` and whose table count is 0 parses, whatever the three hint
fields hold, and the font has no table. -/
theorem empty_font_parses (fileName : String) (buf : List Byte) (s : Nat)
    (h : 12 ≤ buf.length) (hs : u32At buf 0 = some s)
    (hm : s = 0x00010000 ∨ s = 0x74727565) (hn : u16At buf 4 = some 0) :
    ∃ font, NewTTF fileName (Outcome.ok buf) = Outcome.ok font ∧ font.Tables = [] ∧
      font.NumTables = 0 ∧ font.ScalerType = s ∧
      u16At buf 6 = some font.SearchRange ∧ u16At buf 8 = some font.EntrySelector ∧
      u16At buf 10 = some font.RangeShift := by
  obtain ⟨b0, b1, b2, b3, b4, b5, b6, b7, b8, b9, b10, b11, rest, rfl⟩ :=
    exists_header_of_length h
  have hs2 : s = 16777216 * b0.val + 65536 * b1.val + 256 * b2.val + b3.val := by
    simpa [u32At, be32Of, eq_comm] using hs
  have hn2 : 256 * b4.val + b5.val = 0 := by
    simpa [u16At, be16Of] using hn
  have hm2 : ¬ (16777216 * b0.val + 65536 * b1.val + 256 * b2.val + b3.val ≠ TTF_MAGIC ∧
      16777216 * b0.val + 65536 * b1.val + 256 * b2.val + b3.val ≠ OTF_MAGIC) := by
    rw [← hs2]
    simp only [TTF_MAGIC, OTF_MAGIC]
    rcases hm with hm | hm <;> simp [hm]
  refine ⟨{ File := fileName, ScalerType := s, NumTables := 0,
            SearchRange := 256 * b6.val + b7.val, EntrySelector := 256 * b8.val + b9.val,
            RangeShift := 256 * b10.val + b11.val, Tables := [] }, ?_, rfl, rfl, rfl, ?_, ?_, ?_⟩
  · have e : readTTFInfo (emptyTTF fileName)
        (b0 :: b1 :: b2 :: b3 :: b4 :: b5 :: b6 :: b7 :: b8 :: b9 :: b10 :: b11 :: rest) =
          Outcome.ok { File := fileName, ScalerType := s, NumTables := 0,
                       SearchRange := 256 * b6.val + b7.val,
                       EntrySelector := 256 * b8.val + b9.val,
                       RangeShift := 256 * b10.val + b11.val, Tables := [] } := by
      rw [readTTFInfo_cons, if_neg hm2, hn2, ← hs2]
      rfl
    exact NewTTF_eq_ok.2 ⟨_, e, [], rfl, rfl⟩
  · simp [u16At, be16Of]
  · simp [u16At, be16Of]
  · simp [u16At, be16Of]

/-- Claim C19 at `emptyFont`, whose hint fields are `0xABCD`, `0x1234` and
`0xFFFF`. -/
theorem empty_font_parses_witness :
    ∃ font, NewTTF "empty.ttf" (Outcome.ok emptyFont) = Outcome.ok font ∧ font.Tables = [] ∧
      font.NumTables = 0 ∧ font.ScalerType = 0x00010000 ∧
      u16At emptyFont 6 = some font.SearchRange ∧ u16At emptyFont 8 = some font.EntrySelector ∧
      u16At emptyFont 10 = some font.RangeShift :=
  empty_font_parses "empty.ttf" emptyFont 0x00010000 (by decide) (by decide) (Or.inl rfl)
    (by decide)

/-! ### C20: printing a tag -/

/-- Claim C20: for a 32-bit tag, `PrintTagName` is the string of the four bytes
`tag >> 24`, `tag >> 16`, `tag >> 8`, `tag`, each taken modulo 256, and packing
these four bytes big-endian gives the tag back. -/
theorem PrintTagName_unpacks (tag : Nat) (h : tag < 2 ^ 32) :
    (PrintTagName tag).length = 4 ∧
    ∃ b0 b1 b2 b3 : Byte, PrintTagName tag = [b0, b1, b2, b3] ∧
      b0.val = tag / 2 ^ 24 % 256 ∧ b1.val = tag / 2 ^ 16 % 256 ∧
      b2.val = tag / 2 ^ 8 % 256 ∧ b3.val = tag % 256 ∧
      be32 b0.val b1.val b2.val b3.val = tag := by
  refine ⟨rfl, toByte (tag >>> 24), toByte (tag >>> 16), toByte (tag >>> 8), toByte tag, rfl,
    ?_, ?_, ?_, rfl, ?_⟩
  · simp only [toByte, Nat.shiftRight_eq_div_pow]
  · simp only [toByte, Nat.shiftRight_eq_div_pow]
  · simp only [toByte, Nat.shiftRight_eq_div_pow]
  · rw [be32_eq (toByte _).isLt (toByte _).isLt (toByte _).isLt (toByte _).isLt]
    simp only [toByte, Nat.shiftRight_eq_div_pow]
    omega

/-- Claim C20 at the tag `0x636D6170`, which prints as `cmap`. -/
theorem PrintTagName_unpacks_witness :
    PrintTagName 0x636D6170 = cmapTag ∧ (PrintTagName 0x636D6170).length = 4 ∧
    ∃ b0 b1 b2 b3 : Byte, PrintTagName 0x636D6170 = [b0, b1, b2, b3] ∧
      b0.val = 0x636D6170 / 2 ^ 24 % 256 ∧ b1.val = 0x636D6170 / 2 ^ 16 % 256 ∧
      b2.val = 0x636D6170 / 2 ^ 8 % 256 ∧ b3.val = 0x636D6170 % 256 ∧
      be32 b0.val b1.val b2.val b3.val = 0x636D6170 :=
  ⟨by decide, PrintTagName_unpacks 0x636D6170 (by decide)⟩

/-! ### C18: truncated files -/

/-- Claim C18, as stated, fails: `unknownTagFont` parses, and so does its
prefix of 28 bytes, to the same font; the four bytes cut off are never read. -/
theorem truncated_font_still_parses :
    28 < unknownTagFont.length ∧
    ∃ font, NewTTF "xyz.ttf" (Outcome.ok unknownTagFont) = Outcome.ok font ∧
      NewTTF "xyz.ttf" (Outcome.ok (unknownTagFont.take 28)) = Outcome.ok font :=
  ⟨by decide,
    { File := "xyz.ttf", ScalerType := 65536, NumTables := 1, SearchRange := 16, Tables := [] },
    by decide, by decide⟩

/-- Claim C18, amended: for a file `F` that parses and `k < len F`, parsing the
prefix `F[0..k]` never returns an error: it panics with an out-of-range index,
or it returns the very font of `F` (no byte from position `k` on being read);
for `k < 12` it panics. -/
theorem truncation_outcomes (fileName : String) (F : List Byte) (font : TTF) (k : Nat)
    (h : NewTTF fileName (Outcome.ok F) = Outcome.ok font) (hk : k < F.length) :
    (NewTTF fileName (Outcome.ok (F.take k)) = Outcome.panicked ∨
      NewTTF fileName (Outcome.ok (F.take k)) = Outcome.ok font) ∧
    (k < 12 → NewTTF fileName (Outcome.ok (F.take k)) = Outcome.panicked) := by
  constructor
  · have hpre : F.take k <+: F := ⟨F.drop k, List.take_append_drop k F⟩
    have hp := NewTTF_extend hpre fileName
    rw [h] at hp
    exact hp
  · intro hk12
    have hlen : (F.take k).length < 12 := by
      rw [List.length_take]
      omega
    have hp := (readTTFInfo_panicked_iff (emptyTTF fileName) (F.take k)).2 hlen
    simp only [NewTTF, bind_eq_bind, ok_bind]
    rw [show ({ File := fileName, Tables := [] } : TTF) = emptyTTF fileName from rfl, hp]
    rfl

set_option maxRecDepth 100000 in
/-- The amended claim C18 at `format4Font` cut to 63 of its 64 bytes: a
panic. -/
theorem truncation_outcomes_witness :
    format4Font.length = 64 ∧
    NewTTF "format4.ttf" (Outcome.ok (format4Font.take 63)) = Outcome.panicked ∧
    (NewTTF "format4.ttf" (Outcome.ok (format4Font.take 63)) = Outcome.panicked ∨
      NewTTF "format4.ttf" (Outcome.ok (format4Font.take 63)) = Outcome.ok format4FontParsed) :=
  ⟨by decide, by decide,
    (truncation_outcomes "format4.ttf" format4Font format4FontParsed 63 NewTTF_format4Font
      (by decide)).1⟩

/-! ### C13: the glyph index array of a format-0 subtable -/

/-- Claim C13: a format-0 subtable with length at least 6 of a cmap table that
decodes has a glyph index array of exactly `Length - 6` elements, element `k`
being the byte at position `offset + SubOffset + 6 + k`. -/
theorem format0_glyph_index_array (buf : List Byte) (i : Nat) (ti : TTFTableInfo)
    (c : CmapTable) (j : Nat) (st : CmapSubTable)
    (h : readCmapTable buf i = Outcome.ok ti) (hc : ti.Table = TTFTable.cmap c)
    (hst : c.EncodingSubtables[j]? = some st) (_hf : st.Format = 0) (hl : 6 ≤ st.Length) :
    st.GlyphIndexArray.length = st.Length - 6 ∧
    ∀ k, k < st.Length - 6 →
      ∃ b, buf[ti.Offset + st.SubOffset + 6 + k]? = some b ∧
        st.GlyphIndexArray[k]? = some b.val := by
  have hdec := readCmapTable_subtable_at h hc hst
  have hL := readEncodingSubtable_length_lt hdec
  have hn : u16 (st.Length + 2 ^ 16 - 6) = st.Length - 6 := by
    unfold u16
    omega
  have hg := readEncodingSubtable_glyphs hdec
  rw [hn] at hg
  exact hg

set_option maxRecDepth 100000 in
/-- Claim C13 at `format0Font`: the subtable of length 10 holds the four bytes
5, 6, 7, 8 found at positions 46..49. -/
theorem format0_glyph_index_array_witness :
    readCmapTable format0Font 0 = Outcome.ok format0Entry ∧
    format0Subtable.Format = 0 ∧ format0Subtable.GlyphIndexArray = [5, 6, 7, 8] ∧
    format0Subtable.GlyphIndexArray.length = format0Subtable.Length - 6 ∧
    ∀ k, k < format0Subtable.Length - 6 →
      ∃ b, format0Font[format0Entry.Offset + format0Subtable.SubOffset + 6 + k]? = some b ∧
        format0Subtable.GlyphIndexArray[k]? = some b.val :=
  ⟨by decide, rfl, rfl,
    format0_glyph_index_array format0Font 0 format0Entry format0Cmap 0 format0Subtable
      (by decide) rfl rfl rfl (by decide)⟩

/-! ### C11: a subtable and the table that encloses it -/

set_option maxRecDepth 100000 in
/-- Claim C11, as stated, fails: the `cmap` record of `shortCmapLengthFont`
declares a table of 8 bytes, its subtable starts at sub-offset 12 and is 24
bytes long, and the subtable is decoded all the same. -/
theorem subtable_beyond_table_decoded :
    NewTTF "short.ttf" (Outcome.ok shortCmapLengthFont) =
      Outcome.ok shortCmapLengthFontParsed ∧
    shortCmapLengthFontParsed.Tables = [shortCmapLengthEntry] ∧
    shortCmapLengthEntry.Table = TTFTable.cmap format4Cmap ∧
    format4Cmap.EncodingSubtables = [format4Subtable] ∧
    shortCmapLengthEntry.Length = 8 ∧ format4Subtable.SubOffset = 12 ∧
    format4Subtable.Length = 24 ∧
    ¬ (shortCmapLengthEntry.Offset + format4Subtable.SubOffset + format4Subtable.Length ≤
        shortCmapLengthEntry.Offset + shortCmapLengthEntry.Length) :=
  ⟨by decide, rfl, rfl, rfl, rfl, rfl, rfl, by decide⟩

/-- Claim C11, amended: for every subtable `s` of a cmap table that decodes, at
offset `O`, the extent of `s` lies inside the buffer, `O + s.SubOffset +
s.Length ≤ len B`, provided `s.Length` is not 6 or `O + s.SubOffset + 6` does
not pass `2^32`.  The length of the cmap entry is never consulted, and
`readCmapTable` returns no error. -/
theorem subtable_extent_in_buffer (buf : List Byte) (i : Nat) (ti : TTFTableInfo)
    (c : CmapTable) (j : Nat) (st : CmapSubTable)
    (h : readCmapTable buf i = Outcome.ok ti) (hc : ti.Table = TTFTable.cmap c)
    (hst : c.EncodingSubtables[j]? = some st) :
    ((st.Length ≠ 6 ∨ ti.Offset + st.SubOffset + 6 ≤ 2 ^ 32) →
      ti.Offset + st.SubOffset + st.Length ≤ buf.length) ∧
    (∀ i2 m, readCmapTable buf i2 ≠ Outcome.err m) :=
  ⟨readEncodingSubtable_extent (readCmapTable_subtable_at h hc hst),
    fun i2 m => readCmapTable_noErr buf i2 m⟩

set_option maxRecDepth 100000 in
/-- The amended claim C11 at `shortCmapLengthFont`: the subtable ends at
position 64, the end of the buffer. -/
theorem subtable_extent_in_buffer_witness :
    readCmapTable shortCmapLengthFont 0 = Outcome.ok shortCmapLengthEntry ∧
    shortCmapLengthFont.length = 64 ∧
    shortCmapLengthEntry.Offset + format4Subtable.SubOffset + format4Subtable.Length ≤
      shortCmapLengthFont.length :=
  ⟨by decide, by decide,
    (subtable_extent_in_buffer shortCmapLengthFont 0 shortCmapLengthEntry format4Cmap 0
      format4Subtable (by decide) rfl rfl).1 (Or.inl (by decide))⟩

/-! ### C12: a subtable and the file -/

/-- Claim C12, as stated, fails: in `wrappedFormat4Font`, a buffer of 72 bytes
that parses, the cmap offset is 60, the sub-offset `0xFFFFFFE0` and the length
of the subtable 6, so that their sum, `2^32 + 34`, is far beyond the size of the
file. -/
theorem subtable_extent_beyond_file :
    ∃ font e c st, NewTTF "wrapped.ttf" (Outcome.ok wrappedFormat4Font) = Outcome.ok font ∧
      e ∈ font.Tables ∧ e.Table = TTFTable.cmap c ∧ st ∈ c.EncodingSubtables ∧
      e.Offset = 60 ∧ st.SubOffset = 0xFFFFFFE0 ∧ st.Length = 6 ∧
      wrappedFormat4Font.length = 72 ∧
      ¬ (e.Offset + st.SubOffset + st.Length ≤ wrappedFormat4Font.length) :=
  ⟨wrappedFormat4FontParsed, wrappedFormat4Entry, _, wrappedFormat4Subtable,
    NewTTF_wrappedFormat4Font, List.mem_singleton.2 rfl, rfl, List.mem_singleton.2 rfl, rfl,
    rfl, rfl, rfl, by decide⟩

/-- Claim C12, amended: for every buffer that parses and every decoded cmap
subtable, `offset + SubOffset + Length ≤ file size`, the sum being taken over
the unbounded integers, provided `Length` is not 6 or `offset + SubOffset + 6`
does not pass `2^32`; this covers the lengths below 6, and the length 6 when the
sum does not reach `2^32`. -/
theorem subtable_extent_in_file (fileName : String) (buf : List Byte) (font : TTF)
    (e : TTFTableInfo) (c : CmapTable) (st : CmapSubTable)
    (h : NewTTF fileName (Outcome.ok buf) = Outcome.ok font) (he : e ∈ font.Tables)
    (hc : e.Table = TTFTable.cmap c) (hst : st ∈ c.EncodingSubtables)
    (hw : st.Length ≠ 6 ∨ e.Offset + st.SubOffset + 6 ≤ 2 ^ 32) :
    e.Offset + st.SubOffset + st.Length ≤ buf.length := by
  obtain ⟨i, j, -, -, -, hdec⟩ := NewTTF_subtable h he hc hst
  exact readEncodingSubtable_extent hdec hw

/-- The amended claim C12 at `format4Font`: offset 28, sub-offset 12 and
length 24 add up to 64, the size of the file. -/
theorem subtable_extent_in_file_witness :
    format4Font.length = 64 ∧
    format4Entry.Offset + format4Subtable.SubOffset + format4Subtable.Length ≤
      format4Font.length :=
  ⟨by decide,
    subtable_extent_in_file "format4.ttf" format4Font format4FontParsed format4Entry
      format4Cmap format4Subtable NewTTF_format4Font (List.mem_singleton.2 rfl) rfl
      (List.mem_singleton.2 rfl) (Or.inl (by decide))⟩

/-! ### C14: the format-6 subtable -/

/-- Claim C14, as stated, fails: the format-6 subtable of `format6Font` decodes
with `EntryCount = 2`, and its `GlyphIndexArray16` is empty; the two glyph
indices are not decoded. -/
theorem format6_glyph_array_not_decoded :
    NewTTF "format6.ttf" (Outcome.ok format6Font) = Outcome.ok format6FontParsed ∧
    format6FontParsed.Tables = [format6Entry] ∧
    format6Entry.Table = TTFTable.cmap format6Cmap ∧
    format6Cmap.EncodingSubtables = [format6Subtable] ∧
    format6Subtable.Format = 6 ∧ format6Subtable.EntryCount = 2 ∧
    format6Subtable.GlyphIndexArray16 = [] ∧
    u16At format6Font (format6Entry.Offset + format6Subtable.SubOffset + 10 + 2 * 0) = some 1 ∧
    format6Subtable.GlyphIndexArray16.length ≠ format6Subtable.EntryCount :=
  ⟨NewTTF_format6Font, rfl, rfl, rfl, rfl, rfl, rfl, by decide, by decide⟩

/-- Claim C14, amended: for every format-6 subtable of a cmap table that
decodes, with `base = offset + SubOffset`, `FirstCode` and `EntryCount` are the
big-endian 16-bit words at `base + 6` and `base + 8`, every position being
reduced modulo `2^32`, and at the plain positions when `base + 10` is at most
`2^32`; `GlyphIndexArray16` is left empty, as is every other payload field but
the glyph index array of bytes.  That array has `(Length - 6) mod 2^16`
elements, element `k` being the byte at the plain position `base + 6 + k`; so
the two bytes of glyph index `k`, at `base + 10 + 2 * k`, are its elements
`4 + 2 * k` and `5 + 2 * k` when `2 * k + 5 < (Length - 6) mod 2^16`, and the
array has no element beyond. -/
theorem format6_fields (buf : List Byte) (i : Nat) (ti : TTFTableInfo) (c : CmapTable)
    (j : Nat) (st : CmapSubTable) (h : readCmapTable buf i = Outcome.ok ti)
    (hc : ti.Table = TTFTable.cmap c) (hst : c.EncodingSubtables[j]? = some st)
    (hf : st.Format = 6) :
    u16AtMod buf (ti.Offset + st.SubOffset + 6) = some st.FirstCode ∧
    u16AtMod buf (ti.Offset + st.SubOffset + 8) = some st.EntryCount ∧
    (ti.Offset + st.SubOffset + 10 ≤ 2 ^ 32 →
      u16At buf (ti.Offset + st.SubOffset + 6) = some st.FirstCode ∧
      u16At buf (ti.Offset + st.SubOffset + 8) = some st.EntryCount) ∧
    st.GlyphIndexArray16 = [] ∧
    st = { beforeSwitch st with FirstCode := st.FirstCode, EntryCount := st.EntryCount } ∧
    st.GlyphIndexArray.length = (st.Length + 2 ^ 16 - 6) % 2 ^ 16 ∧
    (∀ k, k < (st.Length + 2 ^ 16 - 6) % 2 ^ 16 →
      ∃ b, buf[ti.Offset + st.SubOffset + 6 + k]? = some b ∧
        st.GlyphIndexArray[k]? = some b.val) ∧
    (∀ k, 2 * k + 5 < (st.Length + 2 ^ 16 - 6) % 2 ^ 16 →
      ∃ hi lo, buf[ti.Offset + st.SubOffset + 10 + 2 * k]? = some hi ∧
        buf[ti.Offset + st.SubOffset + 10 + 2 * k + 1]? = some lo ∧
        st.GlyphIndexArray[4 + 2 * k]? = some hi.val ∧
        st.GlyphIndexArray[4 + 2 * k + 1]? = some lo.val) := by
  have hdec := readCmapTable_subtable_at h hc hst
  have hsw := (readEncodingSubtable_ok hdec).2.2.2.2.2.2.2
  rw [if_neg (by rw [hf]; decide), if_neg (by rw [hf]; decide), if_pos hf] at hsw
  obtain ⟨F, hF, E, hE, hstEq⟩ := readFormat6_eq_ok.1 hsw
  have e1 : st.FirstCode = F := by rw [hstEq]
  have e2 : st.EntryCount = E := by rw [hstEq]
  have e3 : st.GlyphIndexArray16 = [] := by rw [hstEq]; rfl
  have hb : (beforeSwitch st).SubOffset = st.SubOffset := rfl
  rw [hb] at hF hE
  rw [← e1] at hF
  rw [← e2] at hE
  have m1 := u16AtMod_of_be16Of (ti.Offset + st.SubOffset + 6) hF rfl rfl
  have m2 := u16AtMod_of_be16Of (ti.Offset + st.SubOffset + 8) hE rfl rfl
  obtain ⟨hlen, hk⟩ := readEncodingSubtable_glyphs hdec
  have hk2 : ∀ k, k < (st.Length + 2 ^ 16 - 6) % 2 ^ 16 →
      ∃ b, buf[ti.Offset + st.SubOffset + 6 + k]? = some b ∧
        st.GlyphIndexArray[k]? = some b.val := hk
  refine ⟨m1, m2, ?_, e3, ?_, hlen, hk2, ?_⟩
  · intro hle
    rw [← u16AtMod_eq_u16At buf (by omega), ← u16AtMod_eq_u16At buf (by omega)]
    exact ⟨m1, m2⟩
  · rw [e1, e2]
    exact hstEq
  · intro k hlt
    obtain ⟨hi, h1, g1⟩ := hk2 (4 + 2 * k) (by omega)
    obtain ⟨lo, h2, g2⟩ := hk2 (4 + 2 * k + 1) (by omega)
    have p1 : ti.Offset + st.SubOffset + 6 + (4 + 2 * k) =
        ti.Offset + st.SubOffset + 10 + 2 * k := by omega
    have p2 : ti.Offset + st.SubOffset + 6 + (4 + 2 * k + 1) =
        ti.Offset + st.SubOffset + 10 + 2 * k + 1 := by omega
    rw [p1] at h1
    rw [p2] at h2
    exact ⟨hi, lo, h1, h2, g1, g2⟩

set_option maxRecDepth 100000 in
/-- The amended claim C14 at `format6Font`: `FirstCode = 0x41` and
`EntryCount = 2`, read at positions 46 and 48; the subtable has length 14, so
the glyph index array holds the 8 bytes at positions 46..53 and the glyph
indices 1 and 2 are its elements 4, 5 and 6, 7.  At `format6ShortFont`, whose
subtable has length 6 and `EntryCount = 2`, both arrays are empty. -/
theorem format6_fields_witness :
    readCmapTable format6Font 0 = Outcome.ok format6Entry ∧
    format6Subtable.FirstCode = 0x41 ∧ format6Subtable.EntryCount = 2 ∧
    u16At format6Font (format6Entry.Offset + format6Subtable.SubOffset + 6) =
      some format6Subtable.FirstCode ∧
    u16At format6Font (format6Entry.Offset + format6Subtable.SubOffset + 8) =
      some format6Subtable.EntryCount ∧
    format6Subtable.GlyphIndexArray16 = [] ∧
    format6Subtable.Length = 14 ∧
    format6Subtable.GlyphIndexArray = [0, 0x41, 0, 2, 0, 1, 0, 2] ∧
    format6Subtable.GlyphIndexArray.length = (format6Subtable.Length + 2 ^ 16 - 6) % 2 ^ 16 ∧
    (∀ k, 2 * k + 5 < (format6Subtable.Length + 2 ^ 16 - 6) % 2 ^ 16 →
      ∃ hi lo,
        format6Font[format6Entry.Offset + format6Subtable.SubOffset + 10 + 2 * k]? = some hi ∧
        format6Font[format6Entry.Offset + format6Subtable.SubOffset + 10 + 2 * k + 1]? =
          some lo ∧
        format6Subtable.GlyphIndexArray[4 + 2 * k]? = some hi.val ∧
        format6Subtable.GlyphIndexArray[4 + 2 * k + 1]? = some lo.val) ∧
    readCmapTable format6ShortFont 0 = Outcome.ok format6ShortEntry ∧
    format6ShortSubtable.Length = 6 ∧ format6ShortSubtable.EntryCount = 2 ∧
    format6ShortSubtable.GlyphIndexArray.length =
      (format6ShortSubtable.Length + 2 ^ 16 - 6) % 2 ^ 16 ∧
    format6ShortSubtable.GlyphIndexArray = [] ∧ format6ShortSubtable.GlyphIndexArray16 = [] :=
  ⟨readCmapTable_format6Font, rfl, rfl,
    ((format6_fields format6Font 0 format6Entry format6Cmap 0 format6Subtable
      readCmapTable_format6Font rfl rfl rfl).2.2.1 (by decide)).1,
    ((format6_fields format6Font 0 format6Entry format6Cmap 0 format6Subtable
      readCmapTable_format6Font rfl rfl rfl).2.2.1 (by decide)).2,
    (format6_fields format6Font 0 format6Entry format6Cmap 0 format6Subtable
      readCmapTable_format6Font rfl rfl rfl).2.2.2.1,
    rfl, rfl,
    (format6_fields format6Font 0 format6Entry format6Cmap 0 format6Subtable
      readCmapTable_format6Font rfl rfl rfl).2.2.2.2.2.1,
    (format6_fields format6Font 0 format6Entry format6Cmap 0 format6Subtable
      readCmapTable_format6Font rfl rfl rfl).2.2.2.2.2.2.2,
    readCmapTable_format6ShortFont, rfl, rfl,
    (format6_fields format6ShortFont 0 format6ShortEntry format6ShortCmap 0
      format6ShortSubtable readCmapTable_format6ShortFont rfl rfl rfl).2.2.2.2.2.1,
    rfl, rfl⟩

/-! ### C15: the format-2 subtable -/

/-- Claim C15 fails on the code: the format-2 subtable of `format2Font`
decodes, and `SubHeaderKeys` has 2 elements, not 256, each a single byte of the
subtable (`0x12`, `0x34`) and not the 16-bit word `0x1234` found at `base + 6`;
`SubHeaders` has 2 elements whose four fields all repeat that byte, and
`GlyphIndexArray16` is the same two bytes again. -/
theorem format2_read_bytewise :
    ∃ font e c st, NewTTF "format2.ttf" (Outcome.ok format2Font) = Outcome.ok font ∧
      font.Tables = [e] ∧ e.Table = TTFTable.cmap c ∧ c.EncodingSubtables = [st] ∧
      st.Format = 2 ∧ st.Length = 8 ∧
      u16At format2Font (e.Offset + st.SubOffset + 6 + 2 * 0) = some 0x1234 ∧
      st.SubHeaderKeys = [0x12, 0x34] ∧ st.SubHeaderKeys.length ≠ 256 ∧
      st.SubHeaders =
        [{ FirstCode := 0x12, EntryCount := 0x12, IdDelta := 0x12, IdRangeOffset := 0x12 },
         { FirstCode := 0x34, EntryCount := 0x34, IdDelta := 0x34, IdRangeOffset := 0x34 }] ∧
      st.GlyphIndexArray16 = [0x12, 0x34] :=
  ⟨format2FontParsed, _, _, format2Subtable, NewTTF_format2Font, rfl, rfl, rfl, rfl, rfl,
    by decide, rfl, by decide, rfl, rfl⟩

/-! ### C16: the format-8 subtable -/

/-- Claim C16 fails on the code: the format-8 subtable of `format8Font`
decodes; the 16-bit word at `base + 2` is 6 and the code stores it as `Length`,
taking `Reserved = 0` from `base + 6`; `Is32` has `Length - 6 = 0` bytes, not
8192; `NGroups = 1` is the 32-bit word at `base + 8`, not the one at
`base + 8204`, which is outside the buffer; the group is read at `base + 12`. -/
theorem format8_read_at_other_positions :
    ∃ font e c st, NewTTF "format8.ttf" (Outcome.ok format8Font) = Outcome.ok font ∧
      font.Tables = [e] ∧ e.Table = TTFTable.cmap c ∧ c.EncodingSubtables = [st] ∧
      st.Format = 8 ∧
      u16At format8Font (e.Offset + st.SubOffset + 2) = some 6 ∧ st.Reserved = 0 ∧
      st.Length = 6 ∧
      st.Is32 = [] ∧ st.Is32.length ≠ 8192 ∧
      u32At format8Font (e.Offset + st.SubOffset + 8204) = none ∧
      u32At format8Font (e.Offset + st.SubOffset + 8) = some 1 ∧ st.NGroups = 1 ∧
      st.Groups = [{ StartCharCode := 0x41, EndCharCode := 0x5A, StartGlyphCode := 1 }] ∧
      u32At format8Font (e.Offset + st.SubOffset + 12) = some 0x41 :=
  ⟨format8FontParsed, _, _, format8Subtable, NewTTF_format8Font, rfl, rfl, rfl, rfl,
    by decide, rfl, rfl, rfl, by decide, by decide, by decide, rfl, rfl, by decide⟩

/-! ### C17: subtables of a format without a case in the switch -/

/-- Claim C17, as stated, fails.  The first subtable of the cmap table of
`unsupportedFormatFont` has format 12 and length 8: the font parses and the
subtable is kept with the glyph index array `[0xAA, 0xBB]`, the two bytes that
follow its preamble, not with the preamble only.  The cmap table of
`format12Font` holds one well-formed format-12 subtable: its reserved word 0 is
read as the length, the glyph index array asks for 65530 bytes, and the parse
panics. -/
theorem unsupported_format_keeps_bytes :
    (NewTTF "unsupported.ttf" (Outcome.ok unsupportedFormatFont) =
        Outcome.ok unsupportedFormatFontParsed ∧
      unsupportedFormatFontParsed.Tables = [unsupportedEntry, unsupportedHeadEntry] ∧
      unsupportedEntry.Table = TTFTable.cmap unsupportedCmap ∧
      unsupportedCmap.EncodingSubtables = [unsupportedSubtable, followingSubtable] ∧
      unsupportedSubtable.Format = 12 ∧ unsupportedSubtable.Length = 8 ∧
      unsupportedSubtable.GlyphIndexArray = [0xAA, 0xBB] ∧
      unsupportedSubtable.GlyphIndexArray ≠ []) ∧
    (u16At format12Font 40 = some 12 ∧
      NewTTF "format12.ttf" (Outcome.ok format12Font) = Outcome.panicked) :=
  ⟨⟨NewTTF_unsupportedFormatFont, rfl, rfl, rfl, rfl, rfl, rfl, by decide⟩,
    by decide, NewTTF_format12Font⟩

/-- Claim C17, amended: let `st` be a subtable of a cmap table that decodes, of
a format outside 0, 2, 4, 6, 8.  Then `st` holds its encoding record, its
preamble and the glyph index array, the `(Length - 6) mod 2^16` bytes that
follow the preamble, and every other payload field is empty; every subtable of
the table was decoded from its own encoding record, and every `cmap` and `head`
record of a parsed font was decoded, in directory order.  Decoding such a
subtable returns it whenever its record, its preamble and the bytes of its
glyph index array lie in the buffer; no error is raised for it. -/
theorem unsupported_format_kept (buf : List Byte) (i : Nat) (ti : TTFTableInfo)
    (c : CmapTable) (j : Nat) (st : CmapSubTable)
    (h : readCmapTable buf i = Outcome.ok ti) (hc : ti.Table = TTFTable.cmap c)
    (hst : c.EncodingSubtables[j]? = some st)
    (hf : st.Format ≠ 0 ∧ st.Format ≠ 2 ∧ st.Format ≠ 4 ∧ st.Format ≠ 6 ∧ st.Format ≠ 8) :
    st = beforeSwitch st ∧
    (st.GlyphIndexArray.length = u16 (st.Length + 2 ^ 16 - 6) ∧
      ∀ k, k < u16 (st.Length + 2 ^ 16 - 6) →
        ∃ b, buf[ti.Offset + st.SubOffset + 6 + k]? = some b ∧
          st.GlyphIndexArray[k]? = some b.val) ∧
    (∀ j2, j2 < c.NumberSubtables → ∃ st2, c.EncodingSubtables[j2]? = some st2 ∧
      readEncodingSubtable buf ti.Offset j2 = Outcome.ok st2) ∧
    (∀ fileName font, NewTTF fileName (Outcome.ok buf) = Outcome.ok font →
      List.Forall₂ (fun k e => decodeRecord buf k = Outcome.ok e)
        (decodedIndices buf 0 font.NumTables) font.Tables) ∧
    (∀ O j2 P E S F L La,
      be16Of buf (u32 (O + 4 + j2 * 8)) (u32 (O + 5 + j2 * 8)) = some P →
      be16Of buf (u32 (O + 6 + j2 * 8)) (u32 (O + 7 + j2 * 8)) = some E →
      be32Of buf (u32 (O + 8 + j2 * 8)) (u32 (O + 9 + j2 * 8))
        (u32 (O + 10 + j2 * 8)) (u32 (O + 11 + j2 * 8)) = some S →
      be16Of buf (u32 (O + S + 0)) (u32 (O + S + 1)) = some F →
      be16Of buf (u32 (O + S + 2)) (u32 (O + S + 3)) = some L →
      be16Of buf (u32 (O + S + 4)) (u32 (O + S + 5)) = some La →
      (F ≠ 0 ∧ F ≠ 2 ∧ F ≠ 4 ∧ F ≠ 6 ∧ F ≠ 8) →
      (∀ k, k < u16 (L + 2 ^ 16 - 6) → O + S + 6 + k < buf.length) →
      ∃ G, readEncodingSubtable buf O j2 = Outcome.ok
        { PlatformID := P, EncodingID := E, SubOffset := S, Format := F, Length := L,
          Language := La, GlyphIndexArray := G }) ∧
    (∀ O j2 m, readEncodingSubtable buf O j2 ≠ Outcome.err m) := by
  have hdec := readCmapTable_subtable_at h hc hst
  have hsw := (readEncodingSubtable_ok hdec).2.2.2.2.2.2.2
  rw [if_neg hf.2.1, if_neg hf.2.2.1, if_neg hf.2.2.2.1, if_neg hf.2.2.2.2] at hsw
  obtain ⟨c2, hc2, -, -, -, hsub⟩ := readCmapTable_subtables h
  rw [hc] at hc2
  cases hc2
  refine ⟨(Outcome.ok.inj hsw).symm, readEncodingSubtable_glyphs hdec, hsub, ?_, ?_, ?_⟩
  · intro fileName font hp
    exact (NewTTF_tables hp).2.2
  · intro O j2 P E S F L La hP hE hS hF hL hLa hF2 hin
    exact readEncodingSubtable_other_format hP hE hS hF hL hLa hF2.2 hin
  · intro O j2 m
    exact readEncodingSubtable_noErr buf O j2 m

/-- The amended claim C17 at `unsupportedFormatFont`: the format-12 subtable is
its own value before the switch, its glyph index array has `8 - 6 = 2`
elements, and the format-0 subtable after it is decoded. -/
theorem unsupported_format_kept_witness :
    readCmapTable unsupportedFormatFont 0 = Outcome.ok unsupportedEntry ∧
    unsupportedSubtable.Format = 12 ∧
    unsupportedSubtable = beforeSwitch unsupportedSubtable ∧
    unsupportedSubtable.GlyphIndexArray.length = 2 ∧
    unsupportedCmap.EncodingSubtables[1]? = some followingSubtable ∧
    readEncodingSubtable unsupportedFormatFont unsupportedEntry.Offset 1 =
      Outcome.ok followingSubtable :=
  ⟨readCmapTable_unsupportedFormatFont, rfl,
    (unsupported_format_kept unsupportedFormatFont 0 unsupportedEntry unsupportedCmap 0
      unsupportedSubtable readCmapTable_unsupportedFormatFont rfl rfl (by decide)).1,
    (unsupported_format_kept unsupportedFormatFont 0 unsupportedEntry unsupportedCmap 0
      unsupportedSubtable readCmapTable_unsupportedFormatFont rfl rfl (by decide)).2.1.1,
    rfl,
    by
      obtain ⟨st2, h1, h2⟩ :=
        (unsupported_format_kept unsupportedFormatFont 0 unsupportedEntry unsupportedCmap 0
          unsupportedSubtable readCmapTable_unsupportedFormatFont rfl rfl (by decide)).2.2.1 1
          (by decide)
      cases h1
      exact h2⟩

/-! ### C21: the signed fields of the head table -/

/-- Claim C21: the value `int16(hi)<<8 | int16(lo)` is the two's-complement
reading of the big-endian word `hi lo`, that is `256 * hi + lo` when `hi < 128`
and `256 * hi + lo - 65536` otherwise, and the bytes `FF FE` give `-2`; each of
the seven signed fields of a head table that `readHeadTable` returns is that
value for the two bytes read for it. -/
theorem head_signed_fields (buf : List Byte) (i : Nat) (ti : TTFTableInfo) (t : HeadTable)
    (h : readHeadTable buf i = Outcome.ok ti) (ht : ti.Table = TTFTable.head t) :
    (∀ hi lo : Byte, beInt16 hi.val lo.val =
      if hi.val < 128 then ((256 * hi.val + lo.val : Nat) : Int)
      else ((256 * hi.val + lo.val : Nat) : Int) - 65536) ∧
    beInt16 0xFF 0xFE = -2 ∧
    (∀ i0 i1 v, readInt16 buf i0 i1 = Outcome.ok v ↔
      ∃ hi lo, buf[i0]? = some hi ∧ buf[i1]? = some lo ∧
        v = twosComplement16 hi.val lo.val) ∧
    int16At buf 36 = some t.XMin ∧ int16At buf 38 = some t.YMin ∧
    int16At buf 40 = some t.XMax ∧ int16At buf 42 = some t.YMax ∧
    int16At buf 48 = some t.FontDirectionHint ∧ int16At buf 50 = some t.IndexToLocFormat ∧
    int16At buf 52 = some t.GlyphDataFormat := by
  obtain ⟨h1, h2, h3, h4, h5, h6, h7, -, -⟩ := readHeadTable_signed h ht
  refine ⟨fun hi lo => beInt16_eq hi lo, by decide, ?_, int16At_of_readInt16 h1,
    int16At_of_readInt16 h2, int16At_of_readInt16 h3, int16At_of_readInt16 h4,
    int16At_of_readInt16 h5, int16At_of_readInt16 h6, int16At_of_readInt16 h7⟩
  intro i0 i1 v
  rw [readInt16_eq_ok]
  constructor
  · rintro ⟨hi, lo, h0, h1, hv⟩
    exact ⟨hi, lo, h0, h1, by rw [hv, beInt16_eq]⟩
  · rintro ⟨hi, lo, h0, h1, hv⟩
    exact ⟨hi, lo, h0, h1, by rw [hv, beInt16_eq]⟩

/-- Claim C21 at `signedHeadFont`: the bytes `FF FE`, `80 00`, `7F FF`, `00 05`,
`FF FF`, `00 01`, `00 00` decode to -2, -32768, 32767, 5, -1, 1, 0. -/
theorem head_signed_fields_witness :
    readHeadTable signedHeadFont 0 = Outcome.ok signedHeadEntry ∧
    signedHeadTable.XMin = -2 ∧ signedHeadTable.YMin = -32768 ∧
    signedHeadTable.XMax = 32767 ∧ signedHeadTable.YMax = 5 ∧
    signedHeadTable.FontDirectionHint = -1 ∧
    int16At signedHeadFont 36 = some signedHeadTable.XMin ∧
    int16At signedHeadFont 38 = some signedHeadTable.YMin ∧
    int16At signedHeadFont 40 = some signedHeadTable.XMax ∧
    int16At signedHeadFont 42 = some signedHeadTable.YMax ∧
    int16At signedHeadFont 48 = some signedHeadTable.FontDirectionHint ∧
    int16At signedHeadFont 50 = some signedHeadTable.IndexToLocFormat ∧
    int16At signedHeadFont 52 = some signedHeadTable.GlyphDataFormat :=
  ⟨readHeadTable_signedHeadFont, rfl, rfl, rfl, rfl, rfl,
    (head_signed_fields signedHeadFont 0 signedHeadEntry signedHeadTable
      readHeadTable_signedHeadFont rfl).2.2.2⟩

/-! ### C22: the bytes the head table is decoded from -/

/-- Claim C22: the head table that `readHeadTable` returns is decoded from the
bytes at positions 0..53 of the buffer: its `Version` is the big-endian word of
bytes 0..3, its `MagicNumber` that of bytes 12..15, and two buffers that agree
on their first 54 bytes give the same head table, whatever the directory index,
the offset field of the entry and the bytes found at that offset. -/
theorem head_table_from_first_bytes (buf buf2 : List Byte) (i i2 : Nat)
    (ti ti2 : TTFTableInfo) (t t2 : HeadTable)
    (h : readHeadTable buf i = Outcome.ok ti) (h2 : readHeadTable buf2 i2 = Outcome.ok ti2)
    (ht : ti.Table = TTFTable.head t) (ht2 : ti2.Table = TTFTable.head t2)
    (ha : buf.take 54 = buf2.take 54) :
    t = t2 ∧ u32At buf 0 = some t.Version ∧ u32At buf 12 = some t.MagicNumber ∧
    u32At buf (12 + 16 * i + 8) = some ti.Offset ∧
    u32At buf2 (12 + 16 * i2 + 8) = some ti2.Offset := by
  have hT := readHeadTable_table_congr h h2 fun p hp => getElem?_eq_of_take_eq ha hp
  rw [ht, ht2] at hT
  obtain ⟨-, -, -, -, -, -, -, hV, hM⟩ := readHeadTable_signed h ht
  refine ⟨TTFTable.head.inj hT, read32_eq_ok.1 hV, read32_eq_ok.1 hM,
    u32At_of_be32Of _ (readHeadTable_ok h).2.2.1 (by omega) (by omega) (by omega) (by omega),
    u32At_of_be32Of _ (readHeadTable_ok h2).2.2.1 (by omega) (by omega) (by omega) (by omega)⟩

set_option maxRecDepth 100000 in
/-- Claim C22 at `shiftedHeadFont`, record 0, and `alteredHeadFont`, record 3:
the two buffers agree on their first 54 bytes and differ at position 54, the
offset fields are 28 and `0xFFFFFFFF`, and the head tables are equal. -/
theorem head_table_from_first_bytes_witness :
    readHeadTable shiftedHeadFont 0 = Outcome.ok shiftedHeadEntry ∧
    readHeadTable alteredHeadFont 3 = Outcome.ok alteredHeadEntry ∧
    shiftedHeadFont.take 54 = alteredHeadFont.take 54 ∧
    shiftedHeadFont[54]? ≠ alteredHeadFont[54]? ∧
    shiftedHeadEntry.Offset = 28 ∧ alteredHeadEntry.Offset = 0xFFFFFFFF ∧
    (shiftedHeadTable = shiftedHeadTable ∧
      u32At shiftedHeadFont 0 = some shiftedHeadTable.Version ∧
      u32At shiftedHeadFont 12 = some shiftedHeadTable.MagicNumber ∧
      u32At shiftedHeadFont (12 + 16 * 0 + 8) = some shiftedHeadEntry.Offset ∧
      u32At alteredHeadFont (12 + 16 * 3 + 8) = some alteredHeadEntry.Offset) :=
  ⟨readHeadTable_shiftedHeadFont, readHeadTable_alteredHeadFont, by decide, by decide, rfl, rfl,
    head_table_from_first_bytes shiftedHeadFont alteredHeadFont 0 3 shiftedHeadEntry
      alteredHeadEntry shiftedHeadTable shiftedHeadTable readHeadTable_shiftedHeadFont
      readHeadTable_alteredHeadFont rfl rfl (by decide)⟩

/-! ### C24: the tables of a font -/

/-- Claim C24: when `readTTFTables` returns, the tables it has appended are the
decoded directory records among `0, ..., NumTables - 1` whose tag is `cmap` or
`head`, one table for each such record, in directory order, each carrying the
tag, checksum, offset and length of its record; the records with any other tag
are left out.  Hence there are at most `NumTables` of them, and exactly
`NumTables` if and only if every tag is `cmap` or `head`.  Starting from no
table, as `NewTTF` does, these are all the tables of the font. -/
theorem tables_are_decoded_records (ttf ttf2 : TTF) (buf : List Byte)
    (h : readTTFTables ttf buf = Outcome.ok ttf2) :
    ∃ new, ttf2.Tables = ttf.Tables ++ new ∧ (ttf.Tables = [] → ttf2.Tables = new) ∧
      ttf2.NumTables = ttf.NumTables ∧
      List.Forall₂ (fun k e => decodeRecord buf k = Outcome.ok e ∧
          u32At buf (12 + 16 * k) = some e.Tag ∧ u32At buf (12 + 16 * k + 4) = some e.CheckSum ∧
          u32At buf (12 + 16 * k + 8) = some e.Offset ∧
          u32At buf (12 + 16 * k + 12) = some e.Length)
        (decodedIndices buf 0 ttf.NumTables) new ∧
      (∀ k, k ∈ decodedIndices buf 0 ttf.NumTables ↔
        k < ttf.NumTables ∧ (dirTag buf k = some cmapTag ∨ dirTag buf k = some headTag)) ∧
      (decodedIndices buf 0 ttf.NumTables).Pairwise (fun a b => a < b) ∧
      new.length ≤ ttf.NumTables ∧
      (new.length = ttf.NumTables ↔
        ∀ k, k < ttf.NumTables → dirTag buf k = some cmapTag ∨ dirTag buf k = some headTag) := by
  simp only [readTTFTables, bind_eq_bind, pure_eq_ok, bind_eq_ok] at h
  obtain ⟨ts, hts, hEq⟩ := h
  cases hEq
  obtain ⟨-, new, rfl, hall⟩ := readTTFTablesFrom_eq_ok.1 hts
  have hlen : (decodedIndices buf 0 ttf.NumTables).length = new.length := hall.length_eq
  refine ⟨new, rfl, ?_, rfl, ?_, ?_, decodedIndices_pairwise _ _ _, ?_, ?_⟩
  · intro he
    show ttf.Tables ++ new = new
    rw [he, List.nil_append]
  · exact hall.imp fun k e hd => ⟨hd, decodeRecord_fields hd⟩
  · intro k
    rw [mem_decodedIndices]
    constructor
    · rintro ⟨⟨-, hk⟩, ht⟩
      exact ⟨by omega, ht⟩
    · rintro ⟨hk, ht⟩
      exact ⟨⟨Nat.zero_le _, by omega⟩, ht⟩
  · rw [← hlen]
    unfold decodedIndices
    calc ((List.range' 0 ttf.NumTables).filter (isDecoded buf)).length
        ≤ (List.range' 0 ttf.NumTables).length := List.length_filter_le _ _
      _ = ttf.NumTables := List.length_range' _ _ _
  · rw [← hlen]
    exact decodedIndices_length_eq_iff buf ttf.NumTables

set_option maxRecDepth 100000 in
/-- Claim C24 at `mixedTagsFont`, whose three records are tagged `head`, `xyz `
and `head`: the two `head` records give the two tables, in that order, and the
record in between gives none. -/
theorem tables_are_decoded_records_witness :
    readTTFInfo (emptyTTF "mixed.ttf") mixedTagsFont = Outcome.ok mixedTagsHeader ∧
    readTTFTables mixedTagsHeader mixedTagsFont = Outcome.ok mixedTagsFontParsed ∧
    decodedIndices mixedTagsFont 0 3 = [0, 2] ∧
    mixedTagsFontParsed.Tables = [mixedTagsEntry, mixedTagsEntry] ∧
    ∃ new, mixedTagsFontParsed.Tables = mixedTagsHeader.Tables ++ new ∧
      new.length ≤ mixedTagsHeader.NumTables :=
  ⟨by decide, readTTFTables_mixedTagsFont, by decide, rfl,
    (tables_are_decoded_records mixedTagsHeader mixedTagsFontParsed mixedTagsFont
      readTTFTables_mixedTagsFont).imp fun _ hn => ⟨hn.1, hn.2.2.2.2.2.2.1⟩⟩

/-! ### C23: the glyph index array when the length field is below 6 -/

set_option maxRecDepth 100000 in
/-- Claim C23, as stated, fails.  The subtable of `shortLengthFormat4Font`, at
position 40, has format 4 and the length field 0, and the 65530 bytes after its
preamble lie in the buffer; yet decoding does not succeed: the format-4 branch
reads on, past the end of the buffer, and the parse panics. -/
theorem short_length_format4_panics :
    u16At shortLengthFormat4Font 40 = some 4 ∧ u16At shortLengthFormat4Font 42 = some 0 ∧
    28 + 12 + 6 + (65530 + 0) ≤ shortLengthFormat4Font.length ∧
    (∀ st, readEncodingSubtable shortLengthFormat4Font 28 0 ≠ Outcome.ok st) ∧
    NewTTF "short4.ttf" (Outcome.ok shortLengthFormat4Font) = Outcome.panicked :=
  ⟨(shortLengthFormat4Font_be16Of (by decide) (by decide)).trans (by decide),
    (shortLengthFormat4Font_be16Of (by decide) (by decide)).trans (by decide),
    by rw [shortLengthFormat4Font_length],
    readEncodingSubtable_shortLengthFormat4Font, NewTTF_shortLengthFormat4Font⟩

/-- Claim C23, amended: `readCmapTable` fills the glyph index array of every
subtable, whatever its format, with exactly `(Length - 6) mod 2^16` bytes, byte
`k` being the one at position `offset + SubOffset + 6 + k`; when the length
field is below 6 these are `65530 + Length` bytes, which lie in the buffer.
A subtable whose length field is below 6, whose encoding record and preamble
can be read and whose `65530 + Length` bytes after the preamble lie in the
buffer is returned, with an array of that size, when its format is none of 2,
4 and 8. -/
theorem short_length_glyph_array (buf : List Byte) (Offset j P E S F L La : Nat)
    (hP : be16Of buf (u32 (Offset + 4 + j * 8)) (u32 (Offset + 5 + j * 8)) = some P)
    (hE : be16Of buf (u32 (Offset + 6 + j * 8)) (u32 (Offset + 7 + j * 8)) = some E)
    (hS : be32Of buf (u32 (Offset + 8 + j * 8)) (u32 (Offset + 9 + j * 8))
      (u32 (Offset + 10 + j * 8)) (u32 (Offset + 11 + j * 8)) = some S)
    (hF : be16Of buf (u32 (Offset + S + 0)) (u32 (Offset + S + 1)) = some F)
    (hL : be16Of buf (u32 (Offset + S + 2)) (u32 (Offset + S + 3)) = some L)
    (hLa : be16Of buf (u32 (Offset + S + 4)) (u32 (Offset + S + 5)) = some La)
    (hl : L < 6) (hf : F ≠ 2 ∧ F ≠ 4 ∧ F ≠ 8)
    (hin : Offset + S + 6 + (65530 + L) ≤ buf.length) :
    (∃ st, readEncodingSubtable buf Offset j = Outcome.ok st ∧ st.SubOffset = S ∧
      st.Format = F ∧ st.Length = L ∧ st.GlyphIndexArray.length = 65530 + L ∧
      ∀ k, k < 65530 + L → ∃ b, buf[Offset + S + 6 + k]? = some b ∧
        st.GlyphIndexArray[k]? = some b.val) ∧
    (∀ (i : Nat) (ti : TTFTableInfo) (c : CmapTable) (j2 : Nat) (st : CmapSubTable),
      readCmapTable buf i = Outcome.ok ti → ti.Table = TTFTable.cmap c →
      c.EncodingSubtables[j2]? = some st →
      st.GlyphIndexArray.length = (st.Length + 2 ^ 16 - 6) % 2 ^ 16 ∧
      (∀ k, k < (st.Length + 2 ^ 16 - 6) % 2 ^ 16 →
        ∃ b, buf[ti.Offset + st.SubOffset + 6 + k]? = some b ∧
          st.GlyphIndexArray[k]? = some b.val) ∧
      (st.Length < 6 → st.GlyphIndexArray.length = 65530 + st.Length ∧
        ti.Offset + st.SubOffset + 6 + (65530 + st.Length) ≤ buf.length)) := by
  constructor
  · obtain ⟨st, hst, eS, eF, eL⟩ := readEncodingSubtable_short_length hP hE hS hF hL hLa hl hf hin
    have hn : u16 (st.Length + 2 ^ 16 - 6) = 65530 + L := by
      rw [eL]
      unfold u16
      omega
    obtain ⟨hlen, hk⟩ := readEncodingSubtable_glyphs hst
    rw [hn, eS] at hk
    rw [hn] at hlen
    exact ⟨st, hst, eS, eF, eL, hlen, hk⟩
  · intro i ti c j2 st h hc hst
    have hdec := readCmapTable_subtable_at h hc hst
    obtain ⟨hlen, hk⟩ := readEncodingSubtable_glyphs hdec
    exact ⟨hlen, hk, fun hl6 => readEncodingSubtable_short_glyphs hdec hl6⟩

set_option maxRecDepth 100000 in
/-- The amended claim C23 at `shortLengthFormat0Font`: the subtable at position
40 has format 0 and the length field 0, the buffer holds 65530 bytes after its
preamble, and the subtable is returned with a glyph index array of 65530
elements. -/
theorem short_length_glyph_array_witness :
    u16At shortLengthFormat0Font 40 = some 0 ∧ u16At shortLengthFormat0Font 42 = some 0 ∧
    shortLengthFormat0Font.length = 28 + 12 + 6 + (65530 + 0) ∧
    ∃ st, readEncodingSubtable shortLengthFormat0Font 28 0 = Outcome.ok st ∧
      st.SubOffset = 12 ∧ st.Format = 0 ∧ st.Length = 0 ∧
      st.GlyphIndexArray.length = 65530 + 0 ∧
      ∀ k, k < 65530 + 0 → ∃ b, shortLengthFormat0Font[28 + 12 + 6 + k]? = some b ∧
        st.GlyphIndexArray[k]? = some b.val :=
  ⟨(shortLengthFormat0Font_be16Of (by decide) (by decide)).trans (by decide),
    (shortLengthFormat0Font_be16Of (by decide) (by decide)).trans (by decide),
    by rw [shortLengthFormat0Font_length],
    (short_length_glyph_array shortLengthFormat0Font 28 0 1 0 12 0 0 0
      ((shortLengthFormat0Font_be16Of (by decide) (by decide)).trans (by decide))
      ((shortLengthFormat0Font_be16Of (by decide) (by decide)).trans (by decide))
      ((shortLengthFormat0Font_be32Of (by decide) (by decide) (by decide) (by decide)).trans
        (by decide))
      ((shortLengthFormat0Font_be16Of (by decide) (by decide)).trans (by decide))
      ((shortLengthFormat0Font_be16Of (by decide) (by decide)).trans (by decide))
      ((shortLengthFormat0Font_be16Of (by decide) (by decide)).trans (by decide))
      (by decide) (by decide) (by rw [shortLengthFormat0Font_length])).1⟩

end FontCompress
